import Mathlib

/-! liblaxjson: a shallow embedding of `src/laxjson.c`.

The C parser is a byte-at-a-time pushdown automaton.  The embedding below
follows `laxjson.c` function by function:

* a `char` is a natural number (its code); the case labels of the source are
  written as their codes, with the character in a comment;
* `struct LaxJsonContext` becomes a structure that is passed explicitly;
* the five callbacks (`begin`, `end`, `string`, `number`, `primitive`) are
  modelled by the list of events they are called with;
* `lax_json_feed` returns a `FeedResult`: the context it leaves, the events
  it fired, and how the call ended (a returned error code, `abort()`, a failed
  `assert`, or a wild pointer dereference).

The header `laxjson.h` is not part of the sources: the enumerations and the
fields of the context are the ones `laxjson.c` uses.

The two blocks the context points to are as long as the source asks the
allocator for: `value_buffer_size` bytes for the token buffer, whose cells are
bytes, and `state_stack_size` bytes for the state stack, whose cells are
`enum LaxJsonState` objects of `sizeof_LaxJsonState` bytes each.  A store into
a stack cell outside the block ends the call as undefined behaviour.

What the embedding leaves out: the value of `atof`, and integer overflow of the
counters (`line` and `column` are integers).  The callbacks are taken to be
installed and `assert` to be enabled.
-/

namespace LaxJson

/-! ## Enumerations used by `laxjson.c` -/

/-- Parser states: the case labels of the outer `switch` of `lax_json_feed`. -/
inductive LaxJsonState
  | End
  | Object
  | BareProp
  | String
  | StringEscape
  | UnicodeEscape
  | Colon
  | Value
  | Array
  | Number
  | NumberDecimal
  | NumberExponentSign
  | NumberExponent
  | Expect
  | CommentBegin
  | CommentLine
  | CommentMultiLine
  | CommentMultiLineStar
  deriving DecidableEq, Repr

/-- Type tags handed to the callbacks (`LaxJsonType...`). -/
inductive LaxJsonType
  | String
  | Property
  | Object
  | Array
  | True
  | False
  | Null
  deriving DecidableEq, Repr

/-- Error codes returned by `push_state`, `buffer_char` and `lax_json_feed`. -/
inductive LaxJsonError
  | None
  | UnexpectedChar
  | ExpectedEof
  | ExceededMaxStack
  | NoMem
  | ExceededMaxValueSize
  | InvalidHexDigit
  | InvalidUnicodePoint
  | ExpectedColon
  deriving DecidableEq, Repr

/-- One callback invocation.  `string` carries the bytes
`value_buffer[0 .. value_buffer_index)` and the length argument;
`number` carries the buffer text that the source passes to `atof`
(the double itself is not modelled). -/
inductive Event
  | begin (type : LaxJsonType)
  | end_ (type : LaxJsonType)
  | string (type : LaxJsonType) (value : List Nat) (length : Nat)
  | number (text : List Nat)
  | primitive (type : LaxJsonType)
  deriving DecidableEq, Repr

/-- The ways a call of `lax_json_feed` can end. -/
inductive Outcome
  /-- The function returned this error code. -/
  | returned (err : LaxJsonError)
  /-- The source called `abort()` (the unfinished UTF-8 branches). -/
  | aborted
  /-- The `assert` of `pop_state` failed. -/
  | assert_failed
  /-- Undefined behaviour: a null pointer was dereferenced or a store went
  outside an allocated block. -/
  | undefined
  /-- Only the model can end this way: the reprocessing budget ran out.
  `feed_byte_fuel_ok` shows it never happens. -/
  | out_of_fuel
  deriving DecidableEq, Repr

/-! ## The context -/

/-- The fields of `struct LaxJsonContext` that `laxjson.c` reads or writes.

* `state` and the cells of `state_stack` hold an `enum LaxJsonState`; a cell
  that was never written holds whatever the allocator left there, which may
  be the code of a state or of none (`none`: no case label matches).
* `state_stack` is the memory at the pointer, cell by cell; cells at or
  above `state_stack_index` keep their old content.  The block allocated for
  it is `state_stack_size` bytes long, so its cells are those below
  `state_stack_size / sizeof_LaxJsonState`; the cells above them are the
  memory that follows the block.
* `value_buffer` is the used part `value_buffer[0 .. value_buffer_index)` of
  the token buffer, so `value_buffer_index` is its length; the bytes above
  the index are never read by the source.
* `expected` is the pointer into the literal being matched: `none` is the
  null pointer, `some s` points at the characters `s` followed by NUL.
* `realloc_ok n` tells whether `realloc` to size `n` succeeds. -/
structure LaxJsonContext where
  state : Option LaxJsonState
  state_stack : Nat → Option LaxJsonState
  state_stack_index : Nat
  state_stack_size : Nat
  max_state_stack_size : Nat
  value_buffer : List Nat
  value_buffer_size : Nat
  max_value_buffer_size : Nat
  line : Int
  column : Int
  delim : Nat
  string_type : LaxJsonType
  unicode_digit_index : Nat
  unicode_point : Nat
  expected : Option (List Nat)
  realloc_ok : Nat → Bool

/-- The index of the next free byte of the token buffer. -/
def LaxJsonContext.value_buffer_index (context : LaxJsonContext) : Nat :=
  context.value_buffer.length

/-! ## Character classes (the `case` macros) -/

/-- The macro `WHITESPACE`: space, tab, newline, form feed, carriage return, 0xb. -/
def WHITESPACE (c : Nat) : Bool :=
  c == 32 || c == 9 || c == 10 || c == 12 || c == 13 || c == 11

/-- The macro `DIGIT`: `'0'` to `'9'`. -/
def DIGIT (c : Nat) : Bool :=
  48 ≤ c && c ≤ 57

/-- The macro `ALPHANUMERIC`: `'a'..'z'`, `'A'..'Z'` and `DIGIT`.
The source defines it and never uses it. -/
def ALPHANUMERIC (c : Nat) : Bool :=
  (97 ≤ c && c ≤ 122) || (65 ≤ c && c ≤ 90) || DIGIT c

/-- The macro `VALID_UNQUOTED`:
`- _ # $ % & < > = ~ | @ ? ; . + * ( )`. -/
def VALID_UNQUOTED (c : Nat) : Bool :=
  c == 45 || c == 95 || c == 35 || c == 36 || c == 37 || c == 38 || c == 60 ||
  c == 62 || c == 61 || c == 126 || c == 124 || c == 64 || c == 63 || c == 59 ||
  c == 46 || c == 43 || c == 42 || c == 40 || c == 41

/-- The table `HEX_MULT`. -/
def HEX_MULT : List Nat := [4096, 256, 16, 1]

/-- The inner `switch` of the `UnicodeEscape` case: the value `x` of a hex
digit, `none` for the `default` label. -/
def hex_value (c : Nat) : Option Nat :=
  if DIGIT c then some (c - 48)
  else if c == 97 || c == 65 then some 10  -- a A
  else if c == 98 || c == 66 then some 11  -- b B
  else if c == 99 || c == 67 then some 12  -- c C
  else if c == 100 || c == 68 then some 13  -- d D
  else if c == 101 || c == 69 then some 14  -- e E
  else if c == 102 || c == 70 then some 15  -- f F
  else none

/-! ## `push_state`, `pop_state`, `buffer_char`, `lax_json_create` -/

/-- The size in bytes of an `enum LaxJsonState` object, `sizeof(enum
LaxJsonState)`: the size of an `int`, 4 bytes. -/
def sizeof_LaxJsonState : Nat := 4

/-- The last two statements of `push_state`:
`state_stack[state_stack_index] = state; state_stack_index += 1`.
The source allocates the stack with `malloc(context->state_stack_size)` and
`realloc(context->state_stack, context->state_stack_size)`: the block is
`state_stack_size` bytes long, not `state_stack_size` cells.  The cell
written occupies the bytes from `sizeof_LaxJsonState * state_stack_index` up
to `sizeof_LaxJsonState * (state_stack_index + 1)`; the result is `none` when
they do not lie within the block: the store overruns the allocation, which is
undefined behaviour. -/
def store_state (context : LaxJsonContext) (state : LaxJsonState) :
    Option LaxJsonContext :=
  if sizeof_LaxJsonState * (context.state_stack_index + 1) ≤ context.state_stack_size then
    some { context with
           state_stack := fun i => if i = context.state_stack_index then some state
                                   else context.state_stack i
           state_stack_index := context.state_stack_index + 1 }
  else none

/-- The function `push_state`: the error code and the context it leaves, or
`none` when its store overruns the allocation.  The capacity test compares
the cell index with `state_stack_size`, the length of the block in bytes. -/
def push_state (context : LaxJsonContext) (state : LaxJsonState) :
    Option (LaxJsonError × LaxJsonContext) :=
  if context.state_stack_index ≥ context.state_stack_size then
    let context := { context with state_stack_size := context.state_stack_size + 1024 }
    if context.state_stack_size > context.max_state_stack_size then
      some (LaxJsonError.ExceededMaxStack, context)
    else if context.realloc_ok context.state_stack_size = false then
      some (LaxJsonError.NoMem, context)
    else
      (store_state context state).map (fun context => (LaxJsonError.None, context))
  else
    (store_state context state).map (fun context => (LaxJsonError.None, context))

/-- The function `pop_state`:
`state = state_stack[state_stack_index]; state_stack_index -= 1;
assert(state_stack_index >= 0)`.
The result is `none` when the assertion fails (the index was 0). -/
def pop_state (context : LaxJsonContext) : Option LaxJsonContext :=
  if context.state_stack_index = 0 then none
  else some { context with
              state := context.state_stack context.state_stack_index
              state_stack_index := context.state_stack_index - 1 }

/-- The function `buffer_char`: the error code and the context it leaves. -/
def buffer_char (context : LaxJsonContext) (c : Nat) : LaxJsonError × LaxJsonContext :=
  if context.value_buffer_index ≥ context.value_buffer_size then
    let context := { context with value_buffer_size := context.value_buffer_size + 16384 }
    if context.value_buffer_size > context.max_value_buffer_size then
      (LaxJsonError.ExceededMaxValueSize, context)
    else if context.realloc_ok context.value_buffer_size = false then
      (LaxJsonError.NoMem, context)
    else
      (LaxJsonError.None, { context with value_buffer := context.value_buffer ++ [c] })
  else
    (LaxJsonError.None, { context with value_buffer := context.value_buffer ++ [c] })

/-- The function `lax_json_create`, for an allocator that hands out the
state stack with content `garbage` and answers later `realloc` calls as
`realloc_ok` says.  `calloc` zeroes the context: the zero of
`enum LaxJsonState` is taken to be `LaxJsonStateValue` and the zero of
`enum LaxJsonType` to be `LaxJsonTypeString` (the header is not in the
sources).  The three initial allocations succeed.  The result of
`push_state` is ignored, as in the source; its store is into cell 0 of a
block of 1024 bytes. -/
def lax_json_create (garbage : Nat → Option LaxJsonState) (realloc_ok : Nat → Bool) :
    LaxJsonContext :=
  let context : LaxJsonContext :=
    { state := some LaxJsonState.Value
      state_stack := garbage
      state_stack_index := 0
      state_stack_size := 1024
      max_state_stack_size := 16384
      value_buffer := []
      value_buffer_size := 1024
      max_value_buffer_size := 1048576
      line := 1
      column := 0
      delim := 0
      string_type := LaxJsonType.String
      unicode_digit_index := 0
      unicode_point := 0
      expected := none
      realloc_ok := realloc_ok }
  match push_state context LaxJsonState.End with
  | some (_, context) => context
  | none => context

/-! ## The body of the loop of `lax_json_feed` -/

/-- How one pass through the body of the `for` loop ends. -/
inductive Flow
  /-- The `break` of the outer `switch`: the loop moves to the next byte. -/
  | next
  /-- The sequence `data -= 1; ...; continue`: the same byte is read again. -/
  | again
  /-- A `return`, `abort()`, failed `assert` or wild dereference. -/
  | stop (outcome : Outcome)
  deriving DecidableEq, Repr

/-- The context, the callbacks fired and the exit of one pass through the
loop body. -/
structure Step where
  context : LaxJsonContext
  events : List Event
  flow : Flow

/-- The pass ends with `break`. -/
def Step.break_ (context : LaxJsonContext) : Step :=
  ⟨context, [], Flow.next⟩

/-- The pass ends with `return err`. -/
def Step.return_ (context : LaxJsonContext) (err : LaxJsonError) : Step :=
  ⟨context, [], Flow.stop (Outcome.returned err)⟩

/-- The pass ends without returning: `abort()`, a failed assertion or a wild
dereference. -/
def Step.die (context : LaxJsonContext) (outcome : Outcome) : Step :=
  ⟨context, [], Flow.stop outcome⟩

/-- The callbacks `events` were called before the rest of the pass `step`. -/
def Step.fired (events : List Event) (step : Step) : Step :=
  { step with events := events ++ step.events }

/-- The macro `PUSH_STATE`: `err = push_state(context, state); if (err) return err;`
followed by the rest of the pass `k`; the pass dies when the store of
`push_state` overruns the allocation. -/
def PUSH_STATE (context : LaxJsonContext) (state : LaxJsonState)
    (k : LaxJsonContext → Step) : Step :=
  match push_state context state with
  | some (LaxJsonError.None, context) => k context
  | some (err, context) => Step.return_ context err
  | none => Step.die context Outcome.undefined

/-- The macro `BUFFER_CHAR`: `err = buffer_char(context, c); if (err) return err;`
followed by the rest of the pass `k`. -/
def BUFFER_CHAR (context : LaxJsonContext) (c : Nat)
    (k : LaxJsonContext → Step) : Step :=
  match buffer_char context c with
  | (LaxJsonError.None, context) => k context
  | (err, context) => Step.return_ context err

/-- A call of `pop_state` followed by the rest of the pass `k`; the pass dies
when the assertion fails. -/
def POP_STATE (context : LaxJsonContext) (k : LaxJsonContext → Step) : Step :=
  match pop_state context with
  | some context => k context
  | none => Step.die context Outcome.assert_failed

/-- The head of the loop body: the position counters.
`if (c == '\n') { line += 1; column = 1; } else { column += 1; }` -/
def advance (c : Nat) (context : LaxJsonContext) : LaxJsonContext :=
  if c = 10 then { context with line := context.line + 1, column := 1 }
  else { context with column := context.column + 1 }

/-- Case `LaxJsonStateEnd`. -/
def case_End (c : Nat) (context : LaxJsonContext) : Step :=
  if WHITESPACE c then Step.break_ context
  else if c = 47 then  -- '/'
    PUSH_STATE { context with state := some LaxJsonState.CommentBegin } LaxJsonState.End
      Step.break_
  else Step.return_ context LaxJsonError.ExpectedEof

/-- Case `LaxJsonStateObject`. -/
def case_Object (c : Nat) (context : LaxJsonContext) : Step :=
  if WHITESPACE c || c == 44 then Step.break_ context  -- ','
  else if c = 47 then  -- '/'
    PUSH_STATE { context with state := some LaxJsonState.CommentBegin } LaxJsonState.Object
      Step.break_
  else if c = 34 ∨ c = 39 then  -- '"' '\''
    PUSH_STATE { context with
                 state := some LaxJsonState.String
                 value_buffer := []
                 delim := c
                 string_type := LaxJsonType.Property } LaxJsonState.Colon
      Step.break_
  else if VALID_UNQUOTED c then
    Step.break_ { context with
                  state := some LaxJsonState.BareProp
                  value_buffer := [c]
                  delim := 0 }
  else if c = 125 then  -- '}'
    Step.fired [Event.end_ LaxJsonType.Object] (POP_STATE context Step.break_)
  else Step.return_ context LaxJsonError.UnexpectedChar

/-- Case `LaxJsonStateBareProp`. -/
def case_BareProp (c : Nat) (context : LaxJsonContext) : Step :=
  if VALID_UNQUOTED c then BUFFER_CHAR context c Step.break_
  else if WHITESPACE c then
    BUFFER_CHAR context 0 fun context =>
      Step.fired
        [Event.string LaxJsonType.Property context.value_buffer context.value_buffer_index]
        (Step.break_ { context with state := some LaxJsonState.Colon })
  else if c = 58 then  -- ':'
    BUFFER_CHAR context 0 fun context =>
      Step.fired
        [Event.string LaxJsonType.Property context.value_buffer context.value_buffer_index]
        (PUSH_STATE { context with
                      state := some LaxJsonState.Value
                      string_type := LaxJsonType.String } LaxJsonState.Object
          Step.break_)
  else Step.return_ context LaxJsonError.UnexpectedChar

/-- Case `LaxJsonStateString`. -/
def case_String (c : Nat) (context : LaxJsonContext) : Step :=
  if c = context.delim then
    BUFFER_CHAR context 0 fun context =>
      Step.fired
        [Event.string context.string_type context.value_buffer context.value_buffer_index]
        (POP_STATE context Step.break_)
  else if c = 92 then  -- '\\'
    Step.break_ { context with state := some LaxJsonState.StringEscape }
  else BUFFER_CHAR context c Step.break_

/-- Case `LaxJsonStateStringEscape`.  The inner `switch` has no `default`
label, and only the `'u'` label assigns `context->state`. -/
def case_StringEscape (c : Nat) (context : LaxJsonContext) : Step :=
  if c = 39 ∨ c = 34 ∨ c = 47 ∨ c = 92 then  -- '\'' '"' '/' '\\'
    BUFFER_CHAR context c Step.break_
  else if c = 98 then BUFFER_CHAR context 8 Step.break_  -- 'b' '\b'
  else if c = 102 then BUFFER_CHAR context 12 Step.break_  -- 'f' '\f'
  else if c = 110 then BUFFER_CHAR context 10 Step.break_  -- 'n' '\n'
  else if c = 114 then BUFFER_CHAR context 13 Step.break_  -- 'r' '\r'
  else if c = 116 then BUFFER_CHAR context 9 Step.break_  -- 't' '\t'
  else if c = 117 then  -- 'u'
    Step.break_ { context with
                  state := some LaxJsonState.UnicodeEscape
                  unicode_digit_index := 0
                  unicode_point := 0 }
  else Step.break_ context

/-- Case `LaxJsonStateUnicodeEscape`.  Reading `HEX_MULT` outside its four
entries is a wild dereference. -/
def case_UnicodeEscape (c : Nat) (context : LaxJsonContext) : Step :=
  match hex_value c with
  | none => Step.return_ context LaxJsonError.InvalidHexDigit
  | some x =>
    match HEX_MULT[context.unicode_digit_index]? with
    | none => Step.die context Outcome.undefined
    | some mult =>
      let context := { context with unicode_point := context.unicode_point + x * mult }
      let context := { context with unicode_digit_index := context.unicode_digit_index + 1 }
      if context.unicode_digit_index = 4 then
        if context.unicode_point ≤ 0x007f then
          -- 1 byte ascii
          BUFFER_CHAR context context.unicode_point fun context =>
            Step.break_ { context with state := some LaxJsonState.String }
        else if context.unicode_point ≤ 0x07ff then
          Step.die context Outcome.aborted  -- 2 bytes: TODO, abort()
        else if context.unicode_point ≤ 0xffff then
          Step.die context Outcome.aborted  -- 3 bytes: TODO, abort()
        else if context.unicode_point ≤ 0x1fffff then
          Step.die context Outcome.aborted  -- 4 bytes: TODO, abort()
        else if context.unicode_point ≤ 0x3ffffff then
          Step.die context Outcome.aborted  -- 5 bytes: TODO, abort()
        else if context.unicode_point ≤ 0x7fffffff then
          Step.die context Outcome.aborted  -- 6 bytes: TODO, abort()
        else Step.return_ context LaxJsonError.InvalidUnicodePoint
      else Step.break_ context

/-- Case `LaxJsonStateColon`. -/
def case_Colon (c : Nat) (context : LaxJsonContext) : Step :=
  if WHITESPACE c then Step.break_ context
  else if c = 47 then  -- '/'
    PUSH_STATE { context with state := some LaxJsonState.CommentBegin } LaxJsonState.Colon
      Step.break_
  else if c = 58 then  -- ':'
    PUSH_STATE { context with
                 state := some LaxJsonState.Value
                 string_type := LaxJsonType.String } LaxJsonState.Object
      Step.break_
  else Step.return_ context LaxJsonError.ExpectedColon

/-- Case `LaxJsonStateValue`. -/
def case_Value (c : Nat) (context : LaxJsonContext) : Step :=
  if WHITESPACE c then Step.break_ context
  else if c = 47 then  -- '/'
    PUSH_STATE { context with state := some LaxJsonState.CommentBegin } LaxJsonState.Value
      Step.break_
  else if c = 123 then  -- '{'
    Step.fired [Event.begin LaxJsonType.Object]
      (Step.break_ { context with state := some LaxJsonState.Object })
  else if c = 91 then  -- '['
    Step.fired [Event.begin LaxJsonType.Array]
      (Step.break_ { context with state := some LaxJsonState.Array })
  else if c = 39 ∨ c = 34 then  -- '\'' '"'
    Step.break_ { context with
                  state := some LaxJsonState.String
                  delim := c
                  value_buffer := [] }
  else if c = 45 then  -- '-'
    Step.break_ { context with state := some LaxJsonState.Number, value_buffer := [c] }
  else if c = 43 then  -- '+'
    Step.break_ { context with state := some LaxJsonState.Number, value_buffer := [] }
  else if DIGIT c then
    Step.break_ { context with state := some LaxJsonState.Number, value_buffer := [c] }
  else if c = 116 then  -- 't'
    Step.fired [Event.primitive LaxJsonType.True]
      (Step.break_ { context with
                     state := some LaxJsonState.Expect
                     expected := some [114, 117, 101] })  -- "rue"
  else if c = 102 then  -- 'f'
    Step.fired [Event.primitive LaxJsonType.False]
      (Step.break_ { context with
                     state := some LaxJsonState.Expect
                     expected := some [97, 108, 115, 101] })  -- "alse"
  else if c = 110 then  -- 'n'
    Step.fired [Event.primitive LaxJsonType.Null]
      (Step.break_ { context with
                     state := some LaxJsonState.Expect
                     expected := some [117, 108, 108] })  -- "ull"
  else Step.return_ context LaxJsonError.UnexpectedChar

/-- Case `LaxJsonStateArray`.  The `']'` label calls `pop_state` and nothing
else; the `default` label rewinds one character. -/
def case_Array (c : Nat) (context : LaxJsonContext) : Step :=
  if WHITESPACE c || c == 44 then Step.break_ context  -- ','
  else if c = 47 then  -- '/'
    PUSH_STATE { context with state := some LaxJsonState.CommentBegin } LaxJsonState.Array
      Step.break_
  else if c = 93 then  -- ']'
    POP_STATE context Step.break_
  else
    PUSH_STATE { context with state := some LaxJsonState.Value } LaxJsonState.Array
      fun context => ⟨{ context with column := context.column - 1 }, [], Flow.again⟩

/-- Case `LaxJsonStateNumber`. -/
def case_Number (c : Nat) (context : LaxJsonContext) : Step :=
  if DIGIT c then BUFFER_CHAR context c Step.break_
  else if c = 46 then  -- '.'
    BUFFER_CHAR context c fun context =>
      Step.break_ { context with state := some LaxJsonState.NumberDecimal }
  else Step.return_ context LaxJsonError.UnexpectedChar

/-- Case `LaxJsonStateNumberDecimal`. -/
def case_NumberDecimal (c : Nat) (context : LaxJsonContext) : Step :=
  if DIGIT c then BUFFER_CHAR context c Step.break_
  else if c = 101 ∨ c = 69 then  -- 'e' 'E'
    BUFFER_CHAR context 101 fun context =>
      Step.break_ { context with state := some LaxJsonState.NumberExponentSign }
  else Step.return_ context LaxJsonError.UnexpectedChar

/-- Case `LaxJsonStateExpect`.  `*context->expected` is the head of the
remaining characters, or NUL at their end; a null pointer, or a pointer
moved past the NUL, is a wild dereference. -/
def case_Expect (c : Nat) (context : LaxJsonContext) : Step :=
  match context.expected with
  | none => Step.die context Outcome.undefined
  | some s =>
    if c = s.headD 0 then
      match s with
      | [] => Step.die context Outcome.undefined
      | _ :: rest =>
        let context := { context with expected := some rest }
        if rest.headD 0 = 0 then POP_STATE context Step.break_
        else Step.break_ context
    else Step.return_ context LaxJsonError.UnexpectedChar

/-- Case `LaxJsonStateNumberExponent`.  No `break` follows the inner
`switch`: after a digit control falls into the `Expect` case; the `default`
label fires the number callback, pops and rewinds one character. -/
def case_NumberExponent (c : Nat) (context : LaxJsonContext) : Step :=
  if DIGIT c then BUFFER_CHAR context c (case_Expect c)
  else
    BUFFER_CHAR context 0 fun context =>
      Step.fired [Event.number context.value_buffer]
        (POP_STATE context fun context =>
          ⟨{ context with column := context.column - 1 }, [], Flow.again⟩)

/-- Case `LaxJsonStateNumberExponentSign`.  No `break` follows the inner
`switch`: after a sign control falls into the `NumberExponent` case. -/
def case_NumberExponentSign (c : Nat) (context : LaxJsonContext) : Step :=
  if c = 43 ∨ c = 45 then  -- '+' '-'
    BUFFER_CHAR context c fun context =>
      case_NumberExponent c { context with state := some LaxJsonState.NumberExponent }
  else Step.return_ context LaxJsonError.UnexpectedChar

/-- Case `LaxJsonStateCommentBegin`. -/
def case_CommentBegin (c : Nat) (context : LaxJsonContext) : Step :=
  if c = 47 then  -- '/'
    Step.break_ { context with state := some LaxJsonState.CommentLine }
  else if c = 42 then  -- '*'
    Step.break_ { context with state := some LaxJsonState.CommentMultiLine }
  else Step.return_ context LaxJsonError.UnexpectedChar

/-- Case `LaxJsonStateCommentLine`. -/
def case_CommentLine (c : Nat) (context : LaxJsonContext) : Step :=
  if c = 10 then POP_STATE context Step.break_  -- '\n'
  else Step.break_ context

/-- Case `LaxJsonStateCommentMultiLine`. -/
def case_CommentMultiLine (c : Nat) (context : LaxJsonContext) : Step :=
  if c = 42 then  -- '*'
    Step.break_ { context with state := some LaxJsonState.CommentMultiLineStar }
  else Step.break_ context

/-- Case `LaxJsonStateCommentMultiLineStar`. -/
def case_CommentMultiLineStar (c : Nat) (context : LaxJsonContext) : Step :=
  if c = 47 then POP_STATE context Step.break_  -- '/'
  else Step.break_ { context with state := some LaxJsonState.CommentMultiLine }

/-- The outer `switch (context->state)`.  A state value that is no
enumerator matches no label. -/
def dispatch (c : Nat) (context : LaxJsonContext) : Step :=
  match context.state with
  | none => Step.break_ context
  | some LaxJsonState.End => case_End c context
  | some LaxJsonState.Object => case_Object c context
  | some LaxJsonState.BareProp => case_BareProp c context
  | some LaxJsonState.String => case_String c context
  | some LaxJsonState.StringEscape => case_StringEscape c context
  | some LaxJsonState.UnicodeEscape => case_UnicodeEscape c context
  | some LaxJsonState.Colon => case_Colon c context
  | some LaxJsonState.Value => case_Value c context
  | some LaxJsonState.Array => case_Array c context
  | some LaxJsonState.Number => case_Number c context
  | some LaxJsonState.NumberDecimal => case_NumberDecimal c context
  | some LaxJsonState.NumberExponentSign => case_NumberExponentSign c context
  | some LaxJsonState.NumberExponent => case_NumberExponent c context
  | some LaxJsonState.Expect => case_Expect c context
  | some LaxJsonState.CommentBegin => case_CommentBegin c context
  | some LaxJsonState.CommentLine => case_CommentLine c context
  | some LaxJsonState.CommentMultiLine => case_CommentMultiLine c context
  | some LaxJsonState.CommentMultiLineStar => case_CommentMultiLineStar c context

/-! ## The loop of `lax_json_feed` -/

/-- The passes through the loop body that read one byte `c` of the input:
the first pass, and one more pass for every rewind.  `fuel` bounds the number
of passes. -/
def feed_byte_loop : Nat → Nat → LaxJsonContext → Step
  | 0, _, context => Step.die context Outcome.out_of_fuel
  | fuel + 1, c, context =>
    let step := dispatch c (advance c context)
    match step.flow with
    | Flow.again => Step.fired step.events (feed_byte_loop fuel c step.context)
    | _ => step

/-- All passes of the loop body for the byte `c`.  Every rewind but the one of
the `Array` case pops the state stack, and the `Array` case hands over to the
`Value` case, which never rewinds: `state_stack_index + 2` passes are
enough. -/
def feed_byte (c : Nat) (context : LaxJsonContext) : Step :=
  feed_byte_loop (context.state_stack_index + 2) c context

/-- What a call of `lax_json_feed` leaves behind. -/
structure FeedResult where
  context : LaxJsonContext
  events : List Event
  outcome : Outcome

/-- The function `lax_json_feed(context, size, data)`, for `data` as the list
of its `size` bytes. -/
def lax_json_feed (context : LaxJsonContext) : List Nat → FeedResult
  | [] => ⟨context, [], Outcome.returned LaxJsonError.None⟩
  | c :: data =>
    let step := feed_byte c context
    match step.flow with
    | Flow.next =>
      let rest := lax_json_feed step.context data
      ⟨rest.context, step.events ++ rest.events, rest.outcome⟩
    | Flow.stop outcome => ⟨step.context, step.events, outcome⟩
    | Flow.again => ⟨step.context, step.events, Outcome.out_of_fuel⟩


/-! ## Definitions used to state the theorems -/

/-- The postcondition `Q` holds of the context, events and exit of a pass. -/
def Step.post (Q : LaxJsonContext → List Event → Flow → Prop) (step : Step) : Prop :=
  Q step.context step.events step.flow


/-- A pass does not end by returning `LaxJsonErrorNone`. -/
def Step.live (step : Step) : Prop :=
  step.flow ≠ Flow.stop (Outcome.returned LaxJsonError.None)

/-- Feeding `b` after a call that fed `a`: the second call is made only when
the first returned `LaxJsonErrorNone`; the events of both calls are
concatenated. -/
def feed_then (first : FeedResult) (b : List Nat) : FeedResult :=
  if first.outcome = Outcome.returned LaxJsonError.None then
    let second := lax_json_feed first.context b
    ⟨second.context, first.events ++ second.events, second.outcome⟩
  else first


/-- The condition under which `push_state` reaches its store: the capacity
test finds the index below `state_stack_size`, or the stack may grow by 1024
within `max_state_stack_size` and the allocator agrees. -/
def has_room (context : LaxJsonContext) : Prop :=
  context.state_stack_index < context.state_stack_size ∨
  (context.state_stack_size + 1024 ≤ context.max_state_stack_size ∧
    context.realloc_ok (context.state_stack_size + 1024) = true)

instance (context : LaxJsonContext) : Decidable (has_room context) := by
  unfold has_room
  infer_instance

/-- The context in which `push_state` stores the state: the capacity has
grown when the capacity test found the stack full. -/
def grown_stack (context : LaxJsonContext) : LaxJsonContext :=
  { context with
    state_stack_size :=
      if context.state_stack_index ≥ context.state_stack_size then
        context.state_stack_size + 1024
      else context.state_stack_size }

/-- The condition under which `push_state` stores the state and returns
`LaxJsonErrorNone`: it reaches its store, and the cell it writes lies within
the block of `state_stack_size` bytes. -/
def can_push (context : LaxJsonContext) : Prop :=
  has_room context ∧
  sizeof_LaxJsonState * (context.state_stack_index + 1)
    ≤ (grown_stack context).state_stack_size

instance (context : LaxJsonContext) : Decidable (can_push context) := by
  unfold can_push
  infer_instance

/-- The context a store within the block leaves:
`state_stack[state_stack_index] = state; state_stack_index += 1`. -/
def stored (context : LaxJsonContext) (state : LaxJsonState) : LaxJsonContext :=
  { context with
    state_stack := fun i => if i = context.state_stack_index then some state
                            else context.state_stack i
    state_stack_index := context.state_stack_index + 1 }

/-- The error code `push_state` returns when it does not reach its store. -/
def push_error (context : LaxJsonContext) : LaxJsonError :=
  if context.state_stack_size + 1024 > context.max_state_stack_size then
    LaxJsonError.ExceededMaxStack
  else LaxJsonError.NoMem

/-- The condition under which `buffer_char` appends the byte: the buffer is
not full, or it may grow by 16384 within `max_value_buffer_size` and the
allocator agrees. -/
def can_buffer (context : LaxJsonContext) : Prop :=
  context.value_buffer_index < context.value_buffer_size ∨
  (context.value_buffer_size + 16384 ≤ context.max_value_buffer_size ∧
    context.realloc_ok (context.value_buffer_size + 16384) = true)

instance (context : LaxJsonContext) : Decidable (can_buffer context) := by
  unfold can_buffer
  infer_instance

/-- The context a successful `buffer_char` leaves. -/
def buffered (context : LaxJsonContext) (c : Nat) : LaxJsonContext :=
  { context with
    value_buffer := context.value_buffer ++ [c]
    value_buffer_size :=
      if context.value_buffer_index ≥ context.value_buffer_size then
        context.value_buffer_size + 16384
      else context.value_buffer_size }

/-- The error code of a failing `buffer_char`. -/
def buffer_error (context : LaxJsonContext) : LaxJsonError :=
  if context.value_buffer_size + 16384 > context.max_value_buffer_size then
    LaxJsonError.ExceededMaxValueSize
  else LaxJsonError.NoMem

/-- The context `pop_state` leaves when its assertion holds. -/
def popped (context : LaxJsonContext) : LaxJsonContext :=
  { context with
    state := context.state_stack context.state_stack_index
    state_stack_index := context.state_stack_index - 1 }

/-- The hexadecimal digits: `0-9`, `a-f`, `A-F`. -/
def is_hex_digit (c : Nat) : Bool :=
  (48 ≤ c && c ≤ 57) || (97 ≤ c && c ≤ 102) || (65 ≤ c && c ≤ 70)

/-- The value of a hexadecimal digit. -/
def hex_digit_value (c : Nat) : Nat :=
  if c ≤ 57 then c - 48 else if c ≤ 70 then c - 55 else c - 87

/-- A pass that fires no callback and ends with `break`. -/
def Step.quiet (step : Step) : Prop :=
  step.flow = Flow.next ∧ step.events = []

/-- The token buffer and its limits are the same in both contexts. -/
def same_buffer (a b : LaxJsonContext) : Prop :=
  b.value_buffer = a.value_buffer ∧ b.value_buffer_size = a.value_buffer_size ∧
  b.max_value_buffer_size = a.max_value_buffer_size ∧ b.realloc_ok = a.realloc_ok

/-- The stack fields of a running context created by `lax_json_create`: the
block has its initial length of 1024 bytes and the states on the stack lie
within it. -/
def stack_inv (context : LaxJsonContext) : Prop :=
  context.state_stack_size = 1024 ∧
  sizeof_LaxJsonState * context.state_stack_index ≤ 1024

/-- A context whose `max_state_stack_size` field has been set to `m`. -/
def with_max_state_stack_size (context : LaxJsonContext) (m : Nat) : LaxJsonContext :=
  { context with max_state_stack_size := m }

/-- The buffer fields of a running context created by `lax_json_create` with
allocator `r`: the limit is 1048576, the token is within the capacity, and
the capacity is 1024 plus a multiple of 16384 within the limit. -/
def buffer_inv (r : Nat → Bool) (context : LaxJsonContext) : Prop :=
  context.max_value_buffer_size = 1048576 ∧
  context.value_buffer.length ≤ context.value_buffer_size ∧
  context.value_buffer_size % 16384 = 1024 ∧
  context.value_buffer_size ≤ 1048576 ∧
  context.realloc_ok = r

/-- The 1-based line number of the byte at index `i` of the input: one more
than the number of newline bytes before it. -/
def byte_line (data : List Nat) (i : Nat) : Int :=
  1 + ((data.take i).count 10 : Nat)

/-- The 1-based column of the byte at index `i` of the input within its line:
one more than the number of bytes between the last newline before it (or the
start of the input) and the byte. -/
def byte_column (data : List Nat) (i : Nat) : Int :=
  1 + (((data.take i).reverse.takeWhile (fun c => c != 10)).length : Nat)

/-- The simple escapes: the character after the backslash and the byte it
stands for (`'`, `"`, `/`, `\` themselves; `b f n r t` the control bytes
0x08, 0x0C, 0x0A, 0x0D, 0x09). -/
def simple_escapes : List (Nat × Nat) :=
  [(39, 39), (34, 34), (47, 47), (92, 92), (98, 8), (102, 12), (110, 10), (114, 13), (116, 9)]

/-- The literals: the first letter, the remaining letters and the type of the
primitive callback (`true`, `false`, `null`). -/
def literals : List (Nat × List Nat × LaxJsonType) :=
  [(116, [114, 117, 101], LaxJsonType.True),
   (102, [97, 108, 115, 101], LaxJsonType.False),
   (110, [117, 108, 108], LaxJsonType.Null)]

/-! ## `push_state`, `buffer_char` and `pop_state` in closed form -/

@[simp]
theorem sizeof_LaxJsonState_eq : sizeof_LaxJsonState = 4 := rfl

theorem store_state_eq (context : LaxJsonContext) (state : LaxJsonState) :
    store_state context state =
      if sizeof_LaxJsonState * (context.state_stack_index + 1) ≤ context.state_stack_size
      then some (stored context state) else none := rfl

theorem push_state_eq (context : LaxJsonContext) (state : LaxJsonState) :
    push_state context state =
      if can_push context then
        some (LaxJsonError.None, stored (grown_stack context) state)
      else if has_room context then none
      else
        some (push_error context,
          { context with state_stack_size := context.state_stack_size + 1024 }) := by
  unfold push_state can_push has_room push_error
  simp only [store_state_eq, grown_stack, stored]
  by_cases hfull : context.state_stack_index ≥ context.state_stack_size
  · by_cases hmax : context.state_stack_size + 1024 > context.max_state_stack_size
    · have h1 : ¬ context.state_stack_index < context.state_stack_size := by omega
      have h2 : ¬ context.state_stack_size + 1024 ≤ context.max_state_stack_size := by omega
      simp [hfull, hmax, h1, h2]
    · have h1 : ¬ context.state_stack_index < context.state_stack_size := by omega
      have h2 : context.state_stack_size + 1024 ≤ context.max_state_stack_size := by omega
      by_cases hr : context.realloc_ok (context.state_stack_size + 1024) = true
      · by_cases hb : 4 * (context.state_stack_index + 1) ≤ context.state_stack_size + 1024
        · simp [hfull, hmax, h1, h2, hr, hb]
        · simp [hfull, hmax, h1, h2, hr, hb]
      · have hr2 : context.realloc_ok (context.state_stack_size + 1024) = false := by
          simpa using hr
        simp [hfull, hmax, h1, h2, hr2]
  · have h1 : context.state_stack_index < context.state_stack_size := by omega
    by_cases hb : 4 * (context.state_stack_index + 1) ≤ context.state_stack_size
    · simp [hfull, h1, hb]
    · simp [hfull, h1, hb]

theorem push_error_ne_none (context : LaxJsonContext) :
    push_error context ≠ LaxJsonError.None := by
  unfold push_error
  split <;> simp

theorem buffer_char_eq (context : LaxJsonContext) (c : Nat) :
    buffer_char context c =
      if can_buffer context then (LaxJsonError.None, buffered context c)
      else
        (buffer_error context,
          { context with value_buffer_size := context.value_buffer_size + 16384 }) := by
  unfold buffer_char can_buffer buffered buffer_error
  by_cases hfull : context.value_buffer_index ≥ context.value_buffer_size
  · by_cases hmax : context.value_buffer_size + 16384 > context.max_value_buffer_size
    · have h1 : ¬ context.value_buffer_index < context.value_buffer_size := by omega
      have h2 : ¬ context.value_buffer_size + 16384 ≤ context.max_value_buffer_size := by
        omega
      simp [hfull, hmax, h1, h2]
    · have h1 : ¬ context.value_buffer_index < context.value_buffer_size := by omega
      have h2 : context.value_buffer_size + 16384 ≤ context.max_value_buffer_size := by omega
      by_cases hr : context.realloc_ok (context.value_buffer_size + 16384) = true
      · simp [hfull, hmax, h1, h2, hr]
      · have hr2 : context.realloc_ok (context.value_buffer_size + 16384) = false := by
          simpa using hr
        simp [hfull, hmax, h1, h2, hr2]
  · have h1 : context.value_buffer_index < context.value_buffer_size := by omega
    simp [hfull, h1]

theorem buffer_error_ne_none (context : LaxJsonContext) :
    buffer_error context ≠ LaxJsonError.None := by
  unfold buffer_error
  split <;> simp

theorem pop_state_eq (context : LaxJsonContext) :
    pop_state context =
      if context.state_stack_index = 0 then none else some (popped context) := rfl

theorem PUSH_STATE_eq (context : LaxJsonContext) (state : LaxJsonState)
    (k : LaxJsonContext → Step) :
    PUSH_STATE context state k =
      if can_push context then k (stored (grown_stack context) state)
      else if has_room context then Step.die context Outcome.undefined
      else
        Step.return_ { context with state_stack_size := context.state_stack_size + 1024 }
          (push_error context) := by
  unfold PUSH_STATE
  rw [push_state_eq]
  by_cases h : can_push context
  · simp [h]
  · by_cases h2 : has_room context
    · simp [h, h2]
    · simp only [h, h2, if_false]
      split
      · rename_i heq
        simp only [Option.some.injEq, Prod.mk.injEq] at heq
        exact absurd heq.1 (push_error_ne_none context)
      · rename_i heq
        simp only [Option.some.injEq, Prod.mk.injEq] at heq
        rw [← heq.1, ← heq.2]
      · rename_i heq
        simp at heq

/-- The position counters do not bear on whether `push_state` stores. -/
theorem can_push_advance (c : Nat) (context : LaxJsonContext) :
    can_push (advance c context) ↔ can_push context := by
  unfold can_push has_room grown_stack advance
  split <;> exact Iff.rfl

theorem BUFFER_CHAR_eq (context : LaxJsonContext) (c : Nat) (k : LaxJsonContext → Step) :
    BUFFER_CHAR context c k =
      if can_buffer context then k (buffered context c)
      else
        Step.return_ { context with value_buffer_size := context.value_buffer_size + 16384 }
          (buffer_error context) := by
  unfold BUFFER_CHAR
  rw [buffer_char_eq]
  by_cases h : can_buffer context
  · simp [h]
  · simp only [h, if_false]
    split
    · rename_i heq
      simp only [Prod.mk.injEq] at heq
      exact absurd heq.1 (buffer_error_ne_none context)
    · rename_i heq
      simp only [Prod.mk.injEq] at heq
      rw [← heq.1, ← heq.2]

theorem POP_STATE_eq (context : LaxJsonContext) (k : LaxJsonContext → Step) :
    POP_STATE context k =
      if context.state_stack_index = 0 then Step.die context Outcome.assert_failed
      else k (popped context) := by
  unfold POP_STATE
  rw [pop_state_eq]
  by_cases h : context.state_stack_index = 0 <;> simp [h]

/-! ## Postconditions of a pass -/

theorem post_mk (Q : LaxJsonContext → List Event → Flow → Prop)
    (context : LaxJsonContext) (events : List Event) (flow : Flow) :
    Step.post Q ⟨context, events, flow⟩ ↔ Q context events flow := Iff.rfl

theorem post_break (Q : LaxJsonContext → List Event → Flow → Prop)
    (context : LaxJsonContext) :
    Step.post Q (Step.break_ context) ↔ Q context [] Flow.next := Iff.rfl

theorem post_return (Q : LaxJsonContext → List Event → Flow → Prop)
    (context : LaxJsonContext) (err : LaxJsonError) :
    Step.post Q (Step.return_ context err)
      ↔ Q context [] (Flow.stop (Outcome.returned err)) := Iff.rfl

theorem post_die (Q : LaxJsonContext → List Event → Flow → Prop)
    (context : LaxJsonContext) (outcome : Outcome) :
    Step.post Q (Step.die context outcome) ↔ Q context [] (Flow.stop outcome) := Iff.rfl

theorem post_fired (Q : LaxJsonContext → List Event → Flow → Prop)
    (events : List Event) (step : Step) :
    Step.post Q (Step.fired events step)
      ↔ Step.post (fun ctx evs flow => Q ctx (events ++ evs) flow) step := Iff.rfl

theorem post_ite (Q : LaxJsonContext → List Event → Flow → Prop)
    (p : Prop) [Decidable p] (a b : Step) :
    Step.post Q (if p then a else b) ↔ (p → Step.post Q a) ∧ (¬p → Step.post Q b) := by
  split <;> simp_all

theorem post_case_Expect (Q : LaxJsonContext → List Event → Flow → Prop)
    (c : Nat) (context : LaxJsonContext) :
    Step.post Q (case_Expect c context) ↔
      (context.expected = none → Q context [] (Flow.stop Outcome.undefined)) ∧
      (context.expected = some [] → c = 0 → Q context [] (Flow.stop Outcome.undefined)) ∧
      (∀ s, context.expected = some s → c ≠ s.headD 0 →
        Q context [] (Flow.stop (Outcome.returned LaxJsonError.UnexpectedChar))) ∧
      (∀ rest, context.expected = some (c :: rest) →
        Step.post Q
          (if rest.headD 0 = 0 then
            POP_STATE { context with expected := some rest } Step.break_
          else Step.break_ { context with expected := some rest })) := by
  unfold case_Expect
  cases h : context.expected with
  | none => simp [Step.post, Step.die]
  | some s =>
    cases s with
    | nil =>
      by_cases hc : c = 0
      · simp [Step.post, Step.die, hc]
      · simp [Step.post, Step.return_, hc]
    | cons e rest =>
      by_cases hc : c = e
      · subst hc
        simp
      · simp only [List.headD_cons, hc, if_false]
        simp [Step.post, Step.return_, hc]
        intro _ h1
        exact absurd h1.symm hc

theorem post_case_UnicodeEscape (Q : LaxJsonContext → List Event → Flow → Prop)
    (c : Nat) (context : LaxJsonContext) :
    Step.post Q (case_UnicodeEscape c context) ↔
      (hex_value c = none →
        Q context [] (Flow.stop (Outcome.returned LaxJsonError.InvalidHexDigit))) ∧
      (∀ x, hex_value c = some x → HEX_MULT[context.unicode_digit_index]? = none →
        Q context [] (Flow.stop Outcome.undefined)) ∧
      (∀ x mult, hex_value c = some x → HEX_MULT[context.unicode_digit_index]? = some mult →
        Step.post Q
          (let context := { context with unicode_point := context.unicode_point + x * mult }
           let context :=
             { context with unicode_digit_index := context.unicode_digit_index + 1 }
           if context.unicode_digit_index = 4 then
             if context.unicode_point ≤ 0x007f then
               BUFFER_CHAR context context.unicode_point fun context =>
                 Step.break_ { context with state := some LaxJsonState.String }
             else if context.unicode_point ≤ 0x07ff then
               Step.die context Outcome.aborted
             else if context.unicode_point ≤ 0xffff then
               Step.die context Outcome.aborted
             else if context.unicode_point ≤ 0x1fffff then
               Step.die context Outcome.aborted
             else if context.unicode_point ≤ 0x3ffffff then
               Step.die context Outcome.aborted
             else if context.unicode_point ≤ 0x7fffffff then
               Step.die context Outcome.aborted
             else Step.return_ context LaxJsonError.InvalidUnicodePoint
           else Step.break_ context)) := by
  unfold case_UnicodeEscape
  cases h : hex_value c with
  | none => simp [Step.post, Step.return_]
  | some x =>
    cases h2 : HEX_MULT[context.unicode_digit_index]? with
    | none => simp [Step.post, Step.die]
    | some mult => simp

/-! ## No pass returns `LaxJsonErrorNone` from inside the loop -/

theorem live_fired (events : List Event) (step : Step) (h : step.live) :
    (Step.fired events step).live := by
  simpa [Step.live, Step.fired] using h

theorem live_die (context : LaxJsonContext) (outcome : Outcome)
    (h : outcome ≠ Outcome.returned LaxJsonError.None) : (Step.die context outcome).live := by
  simpa [Step.live, Step.die] using h

theorem live_iff_post (step : Step) :
    step.live ↔
      Step.post (fun _ _ flow => flow ≠ Flow.stop (Outcome.returned LaxJsonError.None))
        step := Iff.rfl

theorem live_dispatch (c : Nat) (context : LaxJsonContext) : (dispatch c context).live := by
  rw [live_iff_post]
  unfold dispatch
  split <;>
  simp only [case_End, case_Object, case_BareProp, case_String, case_StringEscape,
      case_Colon, case_Value, case_Array, case_Number, case_NumberExponent,
      case_NumberDecimal, case_NumberExponentSign, case_CommentBegin, case_CommentLine,
      case_CommentMultiLine, case_CommentMultiLineStar,
      PUSH_STATE_eq, BUFFER_CHAR_eq, POP_STATE_eq,
      post_ite, post_break, post_return, post_die, post_fired, post_mk,
      post_case_Expect, post_case_UnicodeEscape] <;>
  simp [push_error_ne_none, buffer_error_ne_none]

theorem live_feed_byte_loop (fuel c : Nat) (context : LaxJsonContext) :
    (feed_byte_loop fuel c context).live := by
  induction fuel generalizing context with
  | zero => exact live_die _ _ (by simp)
  | succ fuel ih =>
    simp only [feed_byte_loop]
    split
    · exact live_fired _ _ (ih _)
    · exact live_dispatch _ _

theorem live_feed_byte (c : Nat) (context : LaxJsonContext) : (feed_byte c context).live :=
  live_feed_byte_loop _ _ _


/-! ## The position counters touch nothing else -/

theorem advance_state (c : Nat) (context : LaxJsonContext) :
    (advance c context).state = context.state := by
  unfold advance; split <;> rfl

theorem advance_state_stack (c : Nat) (context : LaxJsonContext) :
    (advance c context).state_stack = context.state_stack := by
  unfold advance; split <;> rfl

theorem advance_state_stack_index (c : Nat) (context : LaxJsonContext) :
    (advance c context).state_stack_index = context.state_stack_index := by
  unfold advance; split <;> rfl

theorem advance_state_stack_size (c : Nat) (context : LaxJsonContext) :
    (advance c context).state_stack_size = context.state_stack_size := by
  unfold advance; split <;> rfl

theorem advance_max_state_stack_size (c : Nat) (context : LaxJsonContext) :
    (advance c context).max_state_stack_size = context.max_state_stack_size := by
  unfold advance; split <;> rfl

theorem advance_value_buffer (c : Nat) (context : LaxJsonContext) :
    (advance c context).value_buffer = context.value_buffer := by
  unfold advance; split <;> rfl

theorem advance_value_buffer_size (c : Nat) (context : LaxJsonContext) :
    (advance c context).value_buffer_size = context.value_buffer_size := by
  unfold advance; split <;> rfl

theorem advance_max_value_buffer_size (c : Nat) (context : LaxJsonContext) :
    (advance c context).max_value_buffer_size = context.max_value_buffer_size := by
  unfold advance; split <;> rfl

theorem advance_delim (c : Nat) (context : LaxJsonContext) :
    (advance c context).delim = context.delim := by
  unfold advance; split <;> rfl

theorem advance_string_type (c : Nat) (context : LaxJsonContext) :
    (advance c context).string_type = context.string_type := by
  unfold advance; split <;> rfl

theorem advance_unicode_digit_index (c : Nat) (context : LaxJsonContext) :
    (advance c context).unicode_digit_index = context.unicode_digit_index := by
  unfold advance; split <;> rfl

theorem advance_unicode_point (c : Nat) (context : LaxJsonContext) :
    (advance c context).unicode_point = context.unicode_point := by
  unfold advance; split <;> rfl

theorem advance_expected (c : Nat) (context : LaxJsonContext) :
    (advance c context).expected = context.expected := by
  unfold advance; split <;> rfl

theorem advance_realloc_ok (c : Nat) (context : LaxJsonContext) :
    (advance c context).realloc_ok = context.realloc_ok := by
  unfold advance; split <;> rfl

/-! ## The reprocessing budget is enough -/

theorem feed_byte_of_not_again (c : Nat) (context : LaxJsonContext)
    (h : (dispatch c (advance c context)).flow ≠ Flow.again) :
    feed_byte c context = dispatch c (advance c context) := by
  simp only [feed_byte, feed_byte_loop]

/-- A pass never ends "out of fuel", and it rewinds only from the `Array` case,
handing over to `Value`, or from the two exponent cases, after a pop. -/
theorem rewind_dispatch (c : Nat) (context : LaxJsonContext) :
    Step.post (fun ctx _ flow =>
        flow ≠ Flow.stop Outcome.out_of_fuel ∧
        (flow = Flow.again →
          (context.state = some LaxJsonState.Array ∧ ctx.state = some LaxJsonState.Value) ∨
          ((context.state = some LaxJsonState.NumberExponent ∨
              context.state = some LaxJsonState.NumberExponentSign) ∧
            ctx.state_stack_index + 1 = context.state_stack_index)))
      (dispatch c context) := by
  unfold dispatch
  split <;>
  simp only [case_End, case_Object, case_BareProp, case_String, case_StringEscape,
      case_Colon, case_Value, case_Array, case_Number, case_NumberExponent,
      case_NumberDecimal, case_NumberExponentSign, case_CommentBegin, case_CommentLine,
      case_CommentMultiLine, case_CommentMultiLineStar,
      PUSH_STATE_eq, BUFFER_CHAR_eq, POP_STATE_eq,
      post_ite, post_break, post_return, post_die, post_fired, post_mk,
      post_case_Expect, post_case_UnicodeEscape] <;>
  simp_all [stored, grown_stack, buffered, popped]
  all_goals (intros; omega)

/-- The number of passes a byte can need in a context. -/
theorem feed_byte_loop_fuel (c : Nat) (fuel : Nat) (context : LaxJsonContext)
    (h : (if context.state = some LaxJsonState.Value then 1
          else context.state_stack_index + 2) ≤ fuel) :
    (feed_byte_loop fuel c context).flow ≠ Flow.again ∧
    (feed_byte_loop fuel c context).flow ≠ Flow.stop Outcome.out_of_fuel := by
  induction fuel generalizing context with
  | zero => split at h <;> omega
  | succ fuel ih =>
    have hr := rewind_dispatch c (advance c context)
    simp only [Step.post, advance_state, advance_state_stack_index] at hr
    simp only [feed_byte_loop]
    split
    · rename_i hflow
      simp only [Step.fired]
      apply ih
      rcases hr.2 hflow with ⟨ha, hv⟩ | ⟨hst, hidx⟩
      · simp only [hv, if_true]
        rw [ha] at h
        simp at h
        omega
      · have hne : context.state ≠ some LaxJsonState.Value := by
          rcases hst with hst | hst <;> rw [hst] <;> simp
        simp only [hne, if_false] at h
        split <;> omega
    · rename_i hflow
      exact ⟨fun h' => hflow h', hr.1⟩

theorem feed_byte_fuel_ok (c : Nat) (context : LaxJsonContext) :
    (feed_byte c context).flow ≠ Flow.again ∧
    (feed_byte c context).flow ≠ Flow.stop Outcome.out_of_fuel := by
  apply feed_byte_loop_fuel
  split <;> omega

/-- The model of `lax_json_feed` never runs out of fuel: every outcome is one
of the source. -/
theorem lax_json_feed_fuel_ok (context : LaxJsonContext) (data : List Nat) :
    (lax_json_feed context data).outcome ≠ Outcome.out_of_fuel := by
  induction data generalizing context with
  | nil => simp [lax_json_feed]
  | cons c data ih =>
    have h := feed_byte_fuel_ok c context
    simp only [lax_json_feed]
    split
    · exact ih _
    · rename_i outcome hflow
      intro ho
      simp only at ho
      rw [ho] at hflow
      exact h.2 hflow
    · rename_i hflow
      exact absurd hflow h.1

/-- A postcondition of the first pass that excludes a rewind is a postcondition
of all passes for the byte. -/
theorem post_feed_byte (Q : LaxJsonContext → List Event → Flow → Prop)
    (c : Nat) (context : LaxJsonContext)
    (hQ : ∀ ctx evs, ¬ Q ctx evs Flow.again)
    (h : Step.post Q (dispatch c (advance c context))) :
    Step.post Q (feed_byte c context) := by
  have hna : (dispatch c (advance c context)).flow ≠ Flow.again := by
    intro hflow
    unfold Step.post at h
    rw [hflow] at h
    exact hQ _ _ h
  rw [feed_byte_of_not_again _ _ hna]
  exact h

theorem feed_cons_quiet (context : LaxJsonContext) (c : Nat) (data : List Nat)
    (h : (feed_byte c context).quiet) :
    lax_json_feed context (c :: data) = lax_json_feed (feed_byte c context).context data := by
  simp [lax_json_feed, h.1, h.2]

theorem feed_cons_stop (context : LaxJsonContext) (c : Nat) (data : List Nat)
    (outcome : Outcome) (h : (feed_byte c context).flow = Flow.stop outcome) :
    lax_json_feed context (c :: data) =
      ⟨(feed_byte c context).context, (feed_byte c context).events, outcome⟩ := by
  simp [lax_json_feed, h]

theorem feed_byte_two_pass (c : Nat) (context : LaxJsonContext)
    (h1 : (dispatch c (advance c context)).flow = Flow.again)
    (h2 : (dispatch c (advance c (dispatch c (advance c context)).context)).flow
      ≠ Flow.again) :
    feed_byte c context =
      Step.fired (dispatch c (advance c context)).events
        (dispatch c (advance c (dispatch c (advance c context)).context)) := by
  simp only [feed_byte, feed_byte_loop, h1]

theorem feed_cons_next_outcome (context : LaxJsonContext) (c : Nat) (data : List Nat)
    (h : (feed_byte c context).flow = Flow.next) :
    (lax_json_feed context (c :: data)).outcome
      = (lax_json_feed (feed_byte c context).context data).outcome := by
  simp only [lax_json_feed, h]

theorem feed_cons_next_context (context : LaxJsonContext) (c : Nat) (data : List Nat)
    (h : (feed_byte c context).flow = Flow.next) :
    (lax_json_feed context (c :: data)).context
      = (lax_json_feed (feed_byte c context).context data).context := by
  simp only [lax_json_feed, h]


/-! ## Feeding in chunks -/

theorem feed_append_eq (context : LaxJsonContext) (a b : List Nat) :
    lax_json_feed context (a ++ b) = feed_then (lax_json_feed context a) b := by
  induction a generalizing context with
  | nil => simp [feed_then, lax_json_feed]
  | cons c a ih =>
    have hlive := live_feed_byte c context
    simp only [List.cons_append, lax_json_feed]
    split
    · rename_i hflow
      rw [List.append_eq, ih]
      simp only [feed_then]
      split <;> simp_all
    · rename_i outcome hflow
      have : outcome ≠ Outcome.returned LaxJsonError.None := by
        intro h
        subst h
        exact hlive hflow
      simp [feed_then, this]
    · simp [feed_then]

theorem feed_append_outcome (context : LaxJsonContext) (a b : List Nat)
    (h : (lax_json_feed context a).outcome = Outcome.returned LaxJsonError.None) :
    (lax_json_feed context (a ++ b)).outcome
      = (lax_json_feed (lax_json_feed context a).context b).outcome := by
  rw [feed_append_eq, feed_then, if_pos h]

theorem feed_append_events (context : LaxJsonContext) (a b : List Nat)
    (h : (lax_json_feed context a).outcome = Outcome.returned LaxJsonError.None) :
    (lax_json_feed context (a ++ b)).events
      = (lax_json_feed context a).events
        ++ (lax_json_feed (lax_json_feed context a).context b).events := by
  rw [feed_append_eq, feed_then, if_pos h]

theorem feed_append_context (context : LaxJsonContext) (a b : List Nat)
    (h : (lax_json_feed context a).outcome = Outcome.returned LaxJsonError.None) :
    (lax_json_feed context (a ++ b)).context
      = (lax_json_feed (lax_json_feed context a).context b).context := by
  rw [feed_append_eq, feed_then, if_pos h]

/-- C4: chunk-split invariance.  For every context and every input `a ++ b`,
one call of `lax_json_feed` on `a ++ b` leaves the same context, fires the same
events and ends the same way as a call on `a` followed, when that call
returned `LaxJsonErrorNone`, by a call on `b`; when the call on `a` ends in
an error, so does the call on `a ++ b`, after the same events. -/
theorem lax_json_feed_append (context : LaxJsonContext) (a b : List Nat) :
    lax_json_feed context (a ++ b) = feed_then (lax_json_feed context a) b :=
  feed_append_eq context a b


/-! ## Unicode escapes -/

theorem hex_value_of_is_hex_digit (c : Nat) (h : is_hex_digit c = true) :
    hex_value c = some (hex_digit_value c) := by
  simp only [is_hex_digit, Bool.or_eq_true, Bool.and_eq_true, decide_eq_true_eq] at h
  have hc : c = 48 ∨ c = 49 ∨ c = 50 ∨ c = 51 ∨ c = 52 ∨ c = 53 ∨ c = 54 ∨ c = 55 ∨ c = 56 ∨
      c = 57 ∨ c = 97 ∨ c = 98 ∨ c = 99 ∨ c = 100 ∨ c = 101 ∨ c = 102 ∨ c = 65 ∨ c = 66 ∨
      c = 67 ∨ c = 68 ∨ c = 69 ∨ c = 70 := by omega
  rcases hc with h | h | h | h | h | h | h | h | h | h | h | h | h | h | h | h | h | h | h |
    h | h | h <;> subst h <;> rfl

theorem hex_value_of_not_hex_digit (c : Nat) (h : is_hex_digit c = false) :
    hex_value c = none := by
  simp only [is_hex_digit, Bool.or_eq_false_iff, Bool.and_eq_false_iff,
    decide_eq_false_iff_not] at h
  have hd : DIGIT c = false := by
    simp only [DIGIT, Bool.and_eq_false_iff, decide_eq_false_iff_not]; omega
  simp only [hex_value, hd, Bool.false_eq_true, if_false, Bool.or_eq_true, beq_iff_eq]
  repeat' split
  all_goals first | rfl | omega

theorem hex_digit_value_lt (c : Nat) (h : is_hex_digit c = true) : hex_digit_value c < 16 := by
  simp only [is_hex_digit, Bool.or_eq_true, Bool.and_eq_true, decide_eq_true_eq] at h
  unfold hex_digit_value
  split
  · omega
  · split <;> omega

/-- The byte `u` in `StringEscape` state. -/
theorem escape_u_step (context : LaxJsonContext)
    (hs : context.state = some LaxJsonState.StringEscape) :
    (feed_byte 117 context).quiet ∧
    (feed_byte 117 context).context.state = some LaxJsonState.UnicodeEscape ∧
    (feed_byte 117 context).context.unicode_digit_index = 0 ∧
    (feed_byte 117 context).context.unicode_point = 0 ∧
    same_buffer context (feed_byte 117 context).context := by
  have h := post_feed_byte (fun ctx evs flow =>
      (flow = Flow.next ∧ evs = []) ∧ ctx.state = some LaxJsonState.UnicodeEscape ∧
      ctx.unicode_digit_index = 0 ∧ ctx.unicode_point = 0 ∧ same_buffer context ctx)
    117 context (by simp) (by
      simp only [dispatch, advance_state, hs, case_StringEscape, post_ite, post_break]
      simp [same_buffer, advance_value_buffer, advance_value_buffer_size,
        advance_max_value_buffer_size, advance_realloc_ok])
  exact h

/-- One of the first three hex digits in `UnicodeEscape` state. -/
theorem unicode_digit_step (context : LaxJsonContext) (c x mult : Nat)
    (hs : context.state = some LaxJsonState.UnicodeEscape)
    (hx : hex_value c = some x)
    (hm : HEX_MULT[context.unicode_digit_index]? = some mult)
    (hi : context.unicode_digit_index < 3) :
    (feed_byte c context).quiet ∧
    (feed_byte c context).context.state = some LaxJsonState.UnicodeEscape ∧
    (feed_byte c context).context.unicode_digit_index = context.unicode_digit_index + 1 ∧
    (feed_byte c context).context.unicode_point = context.unicode_point + x * mult ∧
    same_buffer context (feed_byte c context).context := by
  have h4 : ¬ context.unicode_digit_index + 1 = 4 := by omega
  have h := post_feed_byte (fun ctx evs flow =>
      (flow = Flow.next ∧ evs = []) ∧ ctx.state = some LaxJsonState.UnicodeEscape ∧
      ctx.unicode_digit_index = context.unicode_digit_index + 1 ∧
      ctx.unicode_point = context.unicode_point + x * mult ∧ same_buffer context ctx)
    c context (by simp) (by
      simp only [dispatch, advance_state, hs, post_case_UnicodeEscape, hx,
        advance_unicode_digit_index, advance_unicode_point, hm]
      simp [h4, Step.post, Step.break_, same_buffer, advance_value_buffer,
        advance_value_buffer_size, advance_max_value_buffer_size, advance_realloc_ok,
        advance_state, hs])
  exact h

/-- A byte that is no hex digit in `UnicodeEscape` state. -/
theorem unicode_other_step (context : LaxJsonContext) (c : Nat)
    (hs : context.state = some LaxJsonState.UnicodeEscape)
    (hx : hex_value c = none) :
    (feed_byte c context).flow = Flow.stop (Outcome.returned LaxJsonError.InvalidHexDigit) ∧
    (feed_byte c context).events = [] := by
  have h := post_feed_byte (fun _ evs flow =>
      flow = Flow.stop (Outcome.returned LaxJsonError.InvalidHexDigit) ∧ evs = [])
    c context (by simp) (by
      simp only [dispatch, advance_state, hs, post_case_UnicodeEscape, hx]
      simp)
  exact h

/-- The fourth hex digit of a code point of at most 0x7f. -/
theorem unicode_ascii_step (context : LaxJsonContext) (c x : Nat)
    (hs : context.state = some LaxJsonState.UnicodeEscape)
    (hx : hex_value c = some x) (hi : context.unicode_digit_index = 3)
    (hv : context.unicode_point + x ≤ 127) (hroom : can_buffer context) :
    (feed_byte c context).quiet ∧
    (feed_byte c context).context.state = some LaxJsonState.String ∧
    (feed_byte c context).context.value_buffer
      = context.value_buffer ++ [context.unicode_point + x] := by
  have hm : HEX_MULT[3]? = some 1 := rfl
  have h := post_feed_byte (fun ctx evs flow =>
      (flow = Flow.next ∧ evs = []) ∧ ctx.state = some LaxJsonState.String ∧
      ctx.value_buffer = context.value_buffer ++ [context.unicode_point + x])
    c context (by simp) (by
      simp only [dispatch, advance_state, hs, post_case_UnicodeEscape, hx,
        advance_unicode_digit_index, advance_unicode_point, hi, hm]
      have hroom2 := hroom
      simp only [can_buffer, LaxJsonContext.value_buffer_index] at hroom2
      simp only [mul_one, if_true, hv, BUFFER_CHAR_eq, post_ite, post_break, post_return]
      simp [can_buffer, LaxJsonContext.value_buffer_index, buffered, advance_value_buffer,
        advance_value_buffer_size, advance_max_value_buffer_size, advance_realloc_ok, hroom2]
      intro hgt
      omega)
  exact h

/-- The fourth hex digit of a code point above 0x7f, up to 0xffff. -/
theorem unicode_abort_step (context : LaxJsonContext) (c x : Nat)
    (hs : context.state = some LaxJsonState.UnicodeEscape)
    (hx : hex_value c = some x) (hi : context.unicode_digit_index = 3)
    (hv : 127 < context.unicode_point + x) (hv2 : context.unicode_point + x ≤ 0xffff) :
    (feed_byte c context).flow = Flow.stop Outcome.aborted ∧
    (feed_byte c context).events = [] ∧
    (feed_byte c context).context.value_buffer = context.value_buffer ∧
    (feed_byte c context).context.state = some LaxJsonState.UnicodeEscape := by
  have hm : HEX_MULT[3]? = some 1 := rfl
  have h1 : ¬ (context.unicode_point + x ≤ 127) := by omega
  have h := post_feed_byte (fun ctx evs flow =>
      flow = Flow.stop Outcome.aborted ∧ evs = [] ∧
      ctx.value_buffer = context.value_buffer ∧
      ctx.state = some LaxJsonState.UnicodeEscape)
    c context (by simp) (by
      simp only [dispatch, advance_state, hs, post_case_UnicodeEscape, hx,
        advance_unicode_digit_index, advance_unicode_point, hi, hm]
      simp only [mul_one, if_true, h1, if_false, post_ite, post_die, post_return,
        advance_value_buffer, advance_state, hs]
      simp
      omega)
  exact h

theorem HEX_MULT_get (i : Nat) (hi : i < 4) : HEX_MULT[i]? = some (HEX_MULT.getD i 0) := by
  have : i = 0 ∨ i = 1 ∨ i = 2 ∨ i = 3 := by omega
  rcases this with h | h | h | h <;> rw [h] <;> rfl

/-- Fewer than four hex digits followed by a byte that is no hex digit. -/
theorem unicode_digits_then_other (digits : List Nat) (c : Nat) (context : LaxJsonContext)
    (hs : context.state = some LaxJsonState.UnicodeEscape)
    (hlen : context.unicode_digit_index + digits.length < 4)
    (hhex : ∀ d ∈ digits, is_hex_digit d = true) (hc : is_hex_digit c = false) :
    (lax_json_feed context (digits ++ [c])).outcome
      = Outcome.returned LaxJsonError.InvalidHexDigit ∧
    (lax_json_feed context (digits ++ [c])).events = [] := by
  induction digits generalizing context with
  | nil =>
    have h := unicode_other_step context c hs (hex_value_of_not_hex_digit c hc)
    rw [List.nil_append, feed_cons_stop _ _ _ _ h.1]
    exact ⟨rfl, h.2⟩
  | cons d digits ih =>
    simp only [List.length_cons] at hlen
    have hd := hex_value_of_is_hex_digit d (hhex d (List.mem_cons_self _ _))
    have h := unicode_digit_step context d _ _ hs hd
      (HEX_MULT_get context.unicode_digit_index (by omega)) (by omega)
    rw [List.cons_append, feed_cons_quiet _ _ _ h.1]
    apply ih _ h.2.1
    · rw [h.2.2.1]
      omega
    · intro e he
      exact hhex e (List.mem_cons_of_mem _ he)

/-- C9: in `StringEscape` state, `u` followed by four hex digits (either case)
of value `v = 4096*h0 + 256*h1 + 16*h2 + h3 <= 0x7F` appends the single byte
`v` to the token buffer, fires no callback, returns `LaxJsonErrorNone` and
leaves the parser in `String` state, provided the buffer takes one more
byte; and a byte that is no hex digit in any of the four positions makes
`lax_json_feed` return `LaxJsonErrorInvalidHexDigit`. -/
theorem unicode_escape_ascii (context : LaxJsonContext)
    (hs : context.state = some LaxJsonState.StringEscape) :
    (∀ h0 h1 h2 h3 : Nat,
      is_hex_digit h0 = true → is_hex_digit h1 = true →
      is_hex_digit h2 = true → is_hex_digit h3 = true →
      4096 * hex_digit_value h0 + 256 * hex_digit_value h1 + 16 * hex_digit_value h2
        + hex_digit_value h3 ≤ 0x7F →
      can_buffer context →
      (lax_json_feed context [117, h0, h1, h2, h3]).outcome
        = Outcome.returned LaxJsonError.None ∧
      (lax_json_feed context [117, h0, h1, h2, h3]).events = [] ∧
      (lax_json_feed context [117, h0, h1, h2, h3]).context.state
        = some LaxJsonState.String ∧
      (lax_json_feed context [117, h0, h1, h2, h3]).context.value_buffer
        = context.value_buffer ++
            [4096 * hex_digit_value h0 + 256 * hex_digit_value h1 + 16 * hex_digit_value h2
              + hex_digit_value h3]) ∧
    (∀ (digits : List Nat) (c : Nat),
      digits.length < 4 → (∀ d ∈ digits, is_hex_digit d = true) → is_hex_digit c = false →
      (lax_json_feed context (117 :: (digits ++ [c]))).outcome
        = Outcome.returned LaxJsonError.InvalidHexDigit ∧
      (lax_json_feed context (117 :: (digits ++ [c]))).events = []) := by
  have hu := escape_u_step context hs
  obtain ⟨hq, hst, hidx, hpt, hbuf⟩ := hu
  constructor
  · intro h0 h1 h2 h3 hh0 hh1 hh2 hh3 hv hroom
    have e0 := hex_value_of_is_hex_digit h0 hh0
    have e1 := hex_value_of_is_hex_digit h1 hh1
    have e2 := hex_value_of_is_hex_digit h2 hh2
    have e3 := hex_value_of_is_hex_digit h3 hh3
    have s0 := unicode_digit_step _ h0 _ 4096 hst e0 (by rw [hidx]; rfl) (by omega)
    obtain ⟨q0, st0, i0, p0, b0⟩ := s0
    have s1 := unicode_digit_step _ h1 _ 256 st0 e1 (by rw [i0, hidx]; rfl) (by omega)
    obtain ⟨q1, st1, i1, p1, b1⟩ := s1
    have s2 := unicode_digit_step _ h2 _ 16 st1 e2 (by rw [i1, i0, hidx]; rfl) (by omega)
    obtain ⟨q2, st2, i2, p2, b2⟩ := s2
    have hroom3 : can_buffer
        (feed_byte h2 (feed_byte h1 (feed_byte h0
          (feed_byte 117 context).context).context).context).context := by
      unfold can_buffer LaxJsonContext.value_buffer_index
      rw [b2.1, b2.2.1, b2.2.2.1, b2.2.2.2, b1.1, b1.2.1, b1.2.2.1, b1.2.2.2,
        b0.1, b0.2.1, b0.2.2.1, b0.2.2.2, hbuf.1, hbuf.2.1, hbuf.2.2.1, hbuf.2.2.2]
      exact hroom
    have hp : (feed_byte h2 (feed_byte h1 (feed_byte h0
          (feed_byte 117 context).context).context).context).context.unicode_point
        + hex_digit_value h3
        = 4096 * hex_digit_value h0 + 256 * hex_digit_value h1 + 16 * hex_digit_value h2
          + hex_digit_value h3 := by
      rw [p2, p1, p0, hpt]
      ring
    have s3 := unicode_ascii_step _ h3 _ st2 e3 (by rw [i2, i1, i0, hidx]) (by rw [hp]; exact hv)
      hroom3
    obtain ⟨q3, st3, b3⟩ := s3
    rw [feed_cons_quiet _ _ _ hq, feed_cons_quiet _ _ _ q0, feed_cons_quiet _ _ _ q1,
      feed_cons_quiet _ _ _ q2, feed_cons_quiet _ _ _ q3]
    refine ⟨rfl, rfl, st3, ?_⟩
    simp only [lax_json_feed]
    rw [b3, hp, b2.1, b1.1, b0.1, hbuf.1]
  · intro digits c hlen hhex hc
    rw [feed_cons_quiet _ _ _ hq]
    exact unicode_digits_then_other digits c _ hst (by rw [hidx]; omega) hhex hc

/-- C9, at the escape `u0041` read after the bytes `"\` of a fresh context:
the byte `A` (65) is appended; and `u00g` is rejected at `g`. -/
theorem unicode_escape_ascii_witness :
    ((lax_json_feed (lax_json_feed (lax_json_create (fun _ => none) (fun _ => true))
        [34, 92]).context [117, 48, 48, 52, 49]).outcome
        = Outcome.returned LaxJsonError.None ∧
      (lax_json_feed (lax_json_feed (lax_json_create (fun _ => none) (fun _ => true))
        [34, 92]).context [117, 48, 48, 52, 49]).events = [] ∧
      (lax_json_feed (lax_json_feed (lax_json_create (fun _ => none) (fun _ => true))
        [34, 92]).context [117, 48, 48, 52, 49]).context.state
        = some LaxJsonState.String ∧
      (lax_json_feed (lax_json_feed (lax_json_create (fun _ => none) (fun _ => true))
        [34, 92]).context [117, 48, 48, 52, 49]).context.value_buffer = [] ++ [65]) ∧
    ((lax_json_feed (lax_json_feed (lax_json_create (fun _ => none) (fun _ => true))
        [34, 92]).context (117 :: ([48, 48] ++ [103]))).outcome
        = Outcome.returned LaxJsonError.InvalidHexDigit ∧
      (lax_json_feed (lax_json_feed (lax_json_create (fun _ => none) (fun _ => true))
        [34, 92]).context (117 :: ([48, 48] ++ [103]))).events = []) :=
  ⟨(unicode_escape_ascii
      (lax_json_feed (lax_json_create (fun _ => none) (fun _ => true)) [34, 92]).context
      rfl).1 48 48 52 49 rfl rfl rfl rfl (by decide) (Or.inl (by decide)),
   (unicode_escape_ascii
      (lax_json_feed (lax_json_create (fun _ => none) (fun _ => true)) [34, 92]).context
      rfl).2 [48, 48] 103 (by decide) (by decide) rfl⟩

/-- Every four-digit escape above 0x7F reaches one of the `abort()` calls. -/
theorem unicode_escape_aborts (context : LaxJsonContext) (h0 h1 h2 h3 : Nat)
    (hs : context.state = some LaxJsonState.StringEscape)
    (hh0 : is_hex_digit h0 = true) (hh1 : is_hex_digit h1 = true)
    (hh2 : is_hex_digit h2 = true) (hh3 : is_hex_digit h3 = true)
    (hv : 0x7F < 4096 * hex_digit_value h0 + 256 * hex_digit_value h1
      + 16 * hex_digit_value h2 + hex_digit_value h3) :
    (lax_json_feed context [117, h0, h1, h2, h3]).outcome = Outcome.aborted ∧
    (lax_json_feed context [117, h0, h1, h2, h3]).events = [] ∧
    (lax_json_feed context [117, h0, h1, h2, h3]).context.value_buffer
      = context.value_buffer := by
  obtain ⟨hq, hst, hidx, hpt, hbuf⟩ := escape_u_step context hs
  have e0 := hex_value_of_is_hex_digit h0 hh0
  have e1 := hex_value_of_is_hex_digit h1 hh1
  have e2 := hex_value_of_is_hex_digit h2 hh2
  have e3 := hex_value_of_is_hex_digit h3 hh3
  have l0 := hex_digit_value_lt h0 hh0
  have l1 := hex_digit_value_lt h1 hh1
  have l2 := hex_digit_value_lt h2 hh2
  have l3 := hex_digit_value_lt h3 hh3
  obtain ⟨q0, st0, i0, p0, b0⟩ :=
    unicode_digit_step _ h0 _ 4096 hst e0 (by rw [hidx]; rfl) (by omega)
  obtain ⟨q1, st1, i1, p1, b1⟩ :=
    unicode_digit_step _ h1 _ 256 st0 e1 (by rw [i0, hidx]; rfl) (by omega)
  obtain ⟨q2, st2, i2, p2, b2⟩ :=
    unicode_digit_step _ h2 _ 16 st1 e2 (by rw [i1, i0, hidx]; rfl) (by omega)
  have hp : (feed_byte h2 (feed_byte h1 (feed_byte h0
        (feed_byte 117 context).context).context).context).context.unicode_point
      + hex_digit_value h3
      = 4096 * hex_digit_value h0 + 256 * hex_digit_value h1 + 16 * hex_digit_value h2
        + hex_digit_value h3 := by
    rw [p2, p1, p0, hpt]
    ring
  obtain ⟨f3, ev3, b3, _⟩ := unicode_abort_step _ h3 _ st2 e3 (by rw [i2, i1, i0, hidx])
    (by rw [hp]; exact hv) (by rw [hp]; omega)
  rw [feed_cons_quiet _ _ _ hq, feed_cons_quiet _ _ _ q0, feed_cons_quiet _ _ _ q1,
    feed_cons_quiet _ _ _ q2, feed_cons_stop _ _ _ _ f3]
  refine ⟨rfl, ev3, ?_⟩
  simp only
  rw [b3, b2.1, b1.1, b0.1, hbuf.1]

/-- C10: on the bytes `"é` the source calls `abort()` when it reads the
fourth hex digit: the call does not return, no callback fires and no byte is
appended to the token buffer (the bytes 0xC3 0xA9 are not).  The same happens
for every four-digit escape above 0x7F. -/
theorem unicode_escape_above_ascii (garbage : Nat → Option LaxJsonState)
    (realloc_ok : Nat → Bool) :
    ((lax_json_feed (lax_json_create garbage realloc_ok)
        ([34, 92] ++ [117, 48, 48, 101, 57])).outcome = Outcome.aborted ∧
      (lax_json_feed (lax_json_create garbage realloc_ok)
        ([34, 92] ++ [117, 48, 48, 101, 57])).events = [] ∧
      (lax_json_feed (lax_json_create garbage realloc_ok)
        ([34, 92] ++ [117, 48, 48, 101, 57])).context.value_buffer = []) ∧
    (∀ (context : LaxJsonContext) (h0 h1 h2 h3 : Nat),
      context.state = some LaxJsonState.StringEscape →
      is_hex_digit h0 = true → is_hex_digit h1 = true →
      is_hex_digit h2 = true → is_hex_digit h3 = true →
      0x7F < 4096 * hex_digit_value h0 + 256 * hex_digit_value h1 + 16 * hex_digit_value h2
        + hex_digit_value h3 →
      (lax_json_feed context [117, h0, h1, h2, h3]).outcome = Outcome.aborted ∧
      (lax_json_feed context [117, h0, h1, h2, h3]).events = [] ∧
      (lax_json_feed context [117, h0, h1, h2, h3]).context.value_buffer
        = context.value_buffer) := by
  refine ⟨?_, fun context h0 h1 h2 h3 hs hh0 hh1 hh2 hh3 hv =>
    unicode_escape_aborts context h0 h1 h2 h3 hs hh0 hh1 hh2 hh3 hv⟩
  have h1 : (lax_json_feed (lax_json_create garbage realloc_ok) [34, 92]).outcome
      = Outcome.returned LaxJsonError.None := rfl
  have h2 : (lax_json_feed (lax_json_create garbage realloc_ok) [34, 92]).context.state
      = some LaxJsonState.StringEscape := rfl
  have h3 : (lax_json_feed (lax_json_create garbage realloc_ok) [34, 92]).context.value_buffer
      = [] := rfl
  have h4 : (lax_json_feed (lax_json_create garbage realloc_ok) [34, 92]).events = [] := rfl
  have h := unicode_escape_aborts _ 48 48 101 57 h2 rfl rfl rfl rfl (by decide)
  rw [feed_append_outcome _ _ _ h1, feed_append_events _ _ _ h1,
    feed_append_context _ _ _ h1, h4, List.nil_append]
  exact ⟨h.1, h.2.1, h.2.2.trans h3⟩


/-! ## Whole-input runs on a fresh context -/

/-- C1: feeding the two bytes `{}` to a fresh context returns
`LaxJsonErrorNone` and fires exactly `begin(Object)`, `end(Object)`, whatever
the allocator left in the state stack. -/
theorem feed_empty_object (garbage : Nat → Option LaxJsonState) (realloc_ok : Nat → Bool) :
    (lax_json_create garbage realloc_ok).state = some LaxJsonState.Value ∧
    (lax_json_feed (lax_json_create garbage realloc_ok) [123, 125]).outcome
      = Outcome.returned LaxJsonError.None ∧
    (lax_json_feed (lax_json_create garbage realloc_ok) [123, 125]).events
      = [Event.begin LaxJsonType.Object, Event.end_ LaxJsonType.Object] :=
  ⟨rfl, rfl, rfl⟩

/-- C2: on `[1, 2, 3]` the source fires `begin(Array)` only and returns
`LaxJsonErrorUnexpectedChar` at the first `,` (line 1, column 3): the
`Number` case has no label that completes an integer, so `,` and `]` (and
every byte that is neither a digit nor `.`) are rejected there. -/
theorem feed_integer_array (garbage : Nat → Option LaxJsonState) (realloc_ok : Nat → Bool) :
    (lax_json_feed (lax_json_create garbage realloc_ok)
        [91, 49, 44, 32, 50, 44, 32, 51, 93]).outcome
      = Outcome.returned LaxJsonError.UnexpectedChar ∧
    (lax_json_feed (lax_json_create garbage realloc_ok)
        [91, 49, 44, 32, 50, 44, 32, 51, 93]).events
      = [Event.begin LaxJsonType.Array] ∧
    (lax_json_feed (lax_json_create garbage realloc_ok)
        [91, 49, 44, 32, 50, 44, 32, 51, 93]).context.column = 3 ∧
    (∀ (c : Nat) (context : LaxJsonContext), DIGIT c = false → c ≠ 46 →
      case_Number c context = Step.return_ context LaxJsonError.UnexpectedChar) :=
  ⟨rfl, rfl, rfl, fun c context hd hc => by simp [case_Number, hd, hc]⟩

/-- C3: on `{a:1}` the source fires `begin(Object)` only and returns
`LaxJsonErrorUnexpectedChar` at `a` (line 1, column 2): `VALID_UNQUOTED` does
not include `ALPHANUMERIC`, so every letter and digit is rejected in `Object`
state. -/
theorem feed_bare_key (garbage : Nat → Option LaxJsonState) (realloc_ok : Nat → Bool) :
    (lax_json_feed (lax_json_create garbage realloc_ok) [123, 97, 58, 49, 125]).outcome
      = Outcome.returned LaxJsonError.UnexpectedChar ∧
    (lax_json_feed (lax_json_create garbage realloc_ok) [123, 97, 58, 49, 125]).events
      = [Event.begin LaxJsonType.Object] ∧
    (lax_json_feed (lax_json_create garbage realloc_ok) [123, 97, 58, 49, 125]).context.column
      = 2 ∧
    (∀ (c : Nat) (context : LaxJsonContext), ALPHANUMERIC c = true →
      VALID_UNQUOTED c = false ∧
      case_Object c context = Step.return_ context LaxJsonError.UnexpectedChar) := by
  refine ⟨rfl, rfl, rfl, fun c context hc => ?_⟩
  simp only [ALPHANUMERIC, DIGIT, Bool.or_eq_true, Bool.and_eq_true, decide_eq_true_eq] at hc
  have hv : VALID_UNQUOTED c = false := by
    simp only [VALID_UNQUOTED, Bool.or_eq_false_iff, beq_eq_false_iff_ne]
    omega
  have hw : WHITESPACE c = false := by
    simp only [WHITESPACE, Bool.or_eq_false_iff, beq_eq_false_iff_ne]
    omega
  refine ⟨hv, ?_⟩
  have h1 : c ≠ 44 := by omega
  have h2 : c ≠ 47 := by omega
  have h3 : c ≠ 34 := by omega
  have h4 : c ≠ 39 := by omega
  have h5 : c ≠ 125 := by omega
  simp [case_Object, hv, hw, h1, h2, h3, h4, h5]


/-! ## Comments and the state that `pop_state` restores -/

/-- The byte `/` in one of the states that accept a comment. -/
theorem comment_open_step (context : LaxJsonContext) (S : LaxJsonState)
    (hS : S = LaxJsonState.End ∨ S = LaxJsonState.Value ∨ S = LaxJsonState.Object ∨
      S = LaxJsonState.Array ∨ S = LaxJsonState.Colon)
    (hs : context.state = some S) (hroom : can_push context) :
    (feed_byte 47 context).quiet ∧
    (feed_byte 47 context).context.state = some LaxJsonState.CommentBegin ∧
    (feed_byte 47 context).context.state_stack_index = context.state_stack_index + 1 ∧
    (feed_byte 47 context).context.state_stack context.state_stack_index = some S ∧
    (∀ i, i ≠ context.state_stack_index →
      (feed_byte 47 context).context.state_stack i = context.state_stack i) := by
  have hroom2 := hroom
  simp only [can_push, has_room, grown_stack, sizeof_LaxJsonState_eq, ge_iff_le] at hroom2
  obtain ⟨hr1, hr2⟩ := hroom2
  have hw : WHITESPACE 47 = false := by decide
  have h := post_feed_byte (fun ctx evs flow =>
      (flow = Flow.next ∧ evs = []) ∧ ctx.state = some LaxJsonState.CommentBegin ∧
      ctx.state_stack_index = context.state_stack_index + 1 ∧
      ctx.state_stack context.state_stack_index = some S ∧
      (∀ i, i ≠ context.state_stack_index → ctx.state_stack i = context.state_stack i))
    47 context (by simp) (by
      rcases hS with h | h | h | h | h <;> subst h <;>
      simp only [dispatch, advance_state, hs, case_End, case_Value, case_Object, case_Array,
        case_Colon, PUSH_STATE_eq, post_ite, post_break, post_return] <;>
      simp [hw, can_push, has_room, stored, grown_stack,
        advance_state_stack, advance_state_stack_index, advance_state_stack_size,
        advance_max_state_stack_size, advance_realloc_ok, hr1, hr2] <;>
      intro i hi <;> simp [hi])
  exact h


/-- The second `/` of a line comment. -/
theorem comment_line_begin_step (context : LaxJsonContext)
    (hs : context.state = some LaxJsonState.CommentBegin) :
    (feed_byte 47 context).quiet ∧
    (feed_byte 47 context).context.state = some LaxJsonState.CommentLine ∧
    (feed_byte 47 context).context.state_stack_index = context.state_stack_index ∧
    (feed_byte 47 context).context.state_stack = context.state_stack := by
  have h := post_feed_byte (fun ctx evs flow =>
      (flow = Flow.next ∧ evs = []) ∧ ctx.state = some LaxJsonState.CommentLine ∧
      ctx.state_stack_index = context.state_stack_index ∧
      ctx.state_stack = context.state_stack)
    47 context (by simp) (by
      simp only [dispatch, advance_state, hs, case_CommentBegin, post_ite, post_break,
        post_return]
      simp [advance_state_stack, advance_state_stack_index])
  exact h

/-- A byte other than newline inside a line comment. -/
theorem comment_line_body_step (context : LaxJsonContext) (c : Nat)
    (hs : context.state = some LaxJsonState.CommentLine) (hc : c ≠ 10) :
    (feed_byte c context).quiet ∧
    (feed_byte c context).context.state = some LaxJsonState.CommentLine ∧
    (feed_byte c context).context.state_stack_index = context.state_stack_index ∧
    (feed_byte c context).context.state_stack = context.state_stack := by
  have h := post_feed_byte (fun ctx evs flow =>
      (flow = Flow.next ∧ evs = []) ∧ ctx.state = some LaxJsonState.CommentLine ∧
      ctx.state_stack_index = context.state_stack_index ∧
      ctx.state_stack = context.state_stack)
    c context (by simp) (by
      simp only [dispatch, advance_state, hs, case_CommentLine, POP_STATE_eq, post_ite,
        post_break, post_die]
      simp [hc, advance_state_stack, advance_state_stack_index, advance_state, hs])
  exact h

/-- The newline that ends a line comment: `pop_state` loads the cell at
`state_stack_index`, one above the state that was pushed. -/
theorem comment_line_end_step (context : LaxJsonContext)
    (hs : context.state = some LaxJsonState.CommentLine)
    (hi : context.state_stack_index ≠ 0) :
    (feed_byte 10 context).quiet ∧
    (feed_byte 10 context).context.state = context.state_stack context.state_stack_index ∧
    (feed_byte 10 context).context.state_stack_index = context.state_stack_index - 1 := by
  have h := post_feed_byte (fun ctx evs flow =>
      (flow = Flow.next ∧ evs = []) ∧
      ctx.state = context.state_stack context.state_stack_index ∧
      ctx.state_stack_index = context.state_stack_index - 1)
    10 context (by simp) (by
      simp only [dispatch, advance_state, hs, case_CommentLine, POP_STATE_eq, post_ite,
        post_break, post_die]
      simp [hi, popped, advance_state_stack, advance_state_stack_index])
  exact h

/-- The body of a line comment. -/
theorem comment_line_body (body : List Nat) (rest : List Nat) (context : LaxJsonContext)
    (hs : context.state = some LaxJsonState.CommentLine) (hb : ∀ c ∈ body, c ≠ 10) :
    ∃ ctx, lax_json_feed context (body ++ rest) = lax_json_feed ctx rest ∧
      ctx.state = some LaxJsonState.CommentLine ∧
      ctx.state_stack_index = context.state_stack_index ∧
      ctx.state_stack = context.state_stack := by
  induction body generalizing context with
  | nil => exact ⟨context, rfl, hs, rfl, rfl⟩
  | cons c body ih =>
    obtain ⟨hq, hst, hidx, hstack⟩ :=
      comment_line_body_step context c hs (hb c (List.mem_cons_self _ _))
    obtain ⟨ctx, h1, h2, h3, h4⟩ :=
      ih (feed_byte c context).context hst (fun e he => hb e (List.mem_cons_of_mem _ he))
    refine ⟨ctx, ?_, h2, h3.trans hidx, h4.trans hstack⟩
    rw [List.cons_append, feed_cons_quiet _ _ _ hq, h1]

/-- A complete line comment read in a state that accepts comments: no callback,
no error, the same stack depth; the state left behind is the content of the
stack cell above the pushed one. -/
theorem line_comment_run (context : LaxJsonContext) (S : LaxJsonState) (body : List Nat)
    (hS : S = LaxJsonState.End ∨ S = LaxJsonState.Value ∨ S = LaxJsonState.Object ∨
      S = LaxJsonState.Array ∨ S = LaxJsonState.Colon)
    (hs : context.state = some S) (hroom : can_push context)
    (hb : ∀ c ∈ body, c ≠ 10) :
    (lax_json_feed context ([47, 47] ++ body ++ [10])).outcome
      = Outcome.returned LaxJsonError.None ∧
    (lax_json_feed context ([47, 47] ++ body ++ [10])).events = [] ∧
    (lax_json_feed context ([47, 47] ++ body ++ [10])).context.state_stack_index
      = context.state_stack_index ∧
    (lax_json_feed context ([47, 47] ++ body ++ [10])).context.state
      = context.state_stack (context.state_stack_index + 1) := by
  obtain ⟨q1, st1, i1, _, k1⟩ := comment_open_step context S hS hs hroom
  obtain ⟨q2, st2, i2, k2⟩ := comment_line_begin_step _ st1
  obtain ⟨ctx, h1, h2, h3, h4⟩ := comment_line_body body [10] _ st2 hb
  have hidx : ctx.state_stack_index = context.state_stack_index + 1 := by
    rw [h3, i2, i1]
  obtain ⟨q3, st3, i3⟩ := comment_line_end_step ctx h2 (by omega)
  have e : lax_json_feed context ([47, 47] ++ body ++ [10])
      = lax_json_feed (feed_byte 10 ctx).context [] := by
    rw [List.append_assoc, List.cons_append, List.cons_append, List.nil_append,
      feed_cons_quiet _ _ _ q1, feed_cons_quiet _ _ _ q2, h1, feed_cons_quiet _ _ _ q3]
  rw [e]
  refine ⟨rfl, rfl, ?_, ?_⟩
  · simp only [lax_json_feed]
    rw [i3, hidx]
    omega
  · simp only [lax_json_feed]
    rw [st3, hidx, h4, k2, k1 _ (by omega)]

/-- C5: a comment is not transparent in the source.  After a complete line
comment read in state `S` (one of End, Value, Object, Array, Colon) no callback
has fired, `LaxJsonErrorNone` is returned and the stack depth is the same, but
the state is the content of the stack cell above the pushed `S`, not `S`:
on a fresh context it is whatever the allocator left in cell 2, for `//` and
for `/**/`.  With zero-filled stack memory the document
`{ /* c */ "a" : 1 // trailing\n }` fires `begin(Object)`, `string(String, "a")`
and fails at column 15, while `{"a":1}` fires `begin(Object)`,
`string(Property, "a")` and fails at column 5. -/
theorem comment_restores_cell_above (garbage : Nat → Option LaxJsonState)
    (realloc_ok : Nat → Bool) :
    (∀ (context : LaxJsonContext) (S : LaxJsonState) (body : List Nat),
      (S = LaxJsonState.End ∨ S = LaxJsonState.Value ∨ S = LaxJsonState.Object ∨
        S = LaxJsonState.Array ∨ S = LaxJsonState.Colon) →
      context.state = some S → can_push context → (∀ c ∈ body, c ≠ 10) →
      (lax_json_feed context ([47, 47] ++ body ++ [10])).outcome
        = Outcome.returned LaxJsonError.None ∧
      (lax_json_feed context ([47, 47] ++ body ++ [10])).events = [] ∧
      (lax_json_feed context ([47, 47] ++ body ++ [10])).context.state_stack_index
        = context.state_stack_index ∧
      (lax_json_feed context ([47, 47] ++ body ++ [10])).context.state
        = context.state_stack (context.state_stack_index + 1)) ∧
    ((lax_json_create garbage realloc_ok).state = some LaxJsonState.Value ∧
      (lax_json_feed (lax_json_create garbage realloc_ok) [47, 47, 10]).context.state
        = garbage 2 ∧
      (lax_json_feed (lax_json_create garbage realloc_ok) [47, 42, 42, 47]).context.state
        = garbage 2) ∧
    ((lax_json_feed (lax_json_create (fun _ => some LaxJsonState.Value) (fun _ => true))
        [123, 32, 47, 42, 32, 99, 32, 42, 47, 32, 34, 97, 34, 32, 58, 32, 49, 32, 47, 47,
          32, 116, 114, 97, 105, 108, 105, 110, 103, 10, 32, 125]).events
        = [Event.begin LaxJsonType.Object, Event.string LaxJsonType.String [97, 0] 2] ∧
      (lax_json_feed (lax_json_create (fun _ => some LaxJsonState.Value) (fun _ => true))
        [123, 32, 47, 42, 32, 99, 32, 42, 47, 32, 34, 97, 34, 32, 58, 32, 49, 32, 47, 47,
          32, 116, 114, 97, 105, 108, 105, 110, 103, 10, 32, 125]).outcome
        = Outcome.returned LaxJsonError.UnexpectedChar ∧
      (lax_json_feed (lax_json_create (fun _ => some LaxJsonState.Value) (fun _ => true))
        [123, 32, 47, 42, 32, 99, 32, 42, 47, 32, 34, 97, 34, 32, 58, 32, 49, 32, 47, 47,
          32, 116, 114, 97, 105, 108, 105, 110, 103, 10, 32, 125]).context.column = 15 ∧
      (lax_json_feed (lax_json_create (fun _ => some LaxJsonState.Value) (fun _ => true))
        [123, 34, 97, 34, 58, 49, 125]).events
        = [Event.begin LaxJsonType.Object, Event.string LaxJsonType.Property [97, 0] 2] ∧
      (lax_json_feed (lax_json_create (fun _ => some LaxJsonState.Value) (fun _ => true))
        [123, 34, 97, 34, 58, 49, 125]).outcome
        = Outcome.returned LaxJsonError.UnexpectedChar ∧
      (lax_json_feed (lax_json_create (fun _ => some LaxJsonState.Value) (fun _ => true))
        [123, 34, 97, 34, 58, 49, 125]).context.column = 5) := by
  refine ⟨fun context S body hS hs hroom hb => line_comment_run context S body hS hs hroom hb,
    ?_, ?_⟩
  · simp [lax_json_feed, feed_byte, feed_byte_loop, dispatch, advance, lax_json_create,
      push_state, store_state, case_Value, case_Object, case_String, case_CommentBegin,
      case_CommentLine, case_CommentMultiLine, case_CommentMultiLineStar, WHITESPACE,
      VALID_UNQUOTED, Step.fired, Step.break_, PUSH_STATE, BUFFER_CHAR, POP_STATE, pop_state,
      buffer_char, LaxJsonContext.value_buffer_index]
  · decide

/-- C6: on `{"a" 1}` the source is not in `Colon` state after the closing
quote: `pop_state` loads the stack cell above the pushed `Colon`, so after
`{"a"` the state is whatever the allocator left in cell 2.  With zero-filled
stack memory the byte `1` starts a number and the call returns
`LaxJsonErrorUnexpectedChar` at `}` (line 1, column 7), not
`LaxJsonErrorExpectedColon` at column 6.  In `Colon` state itself every byte
other than whitespace, `/` and `:` is rejected with `LaxJsonErrorExpectedColon`. -/
theorem quoted_key_then_value (garbage : Nat → Option LaxJsonState)
    (realloc_ok : Nat → Bool) :
    ((lax_json_feed (lax_json_create garbage realloc_ok) [123, 34, 97, 34]).outcome
        = Outcome.returned LaxJsonError.None ∧
      (lax_json_feed (lax_json_create garbage realloc_ok) [123, 34, 97, 34]).events
        = [Event.begin LaxJsonType.Object, Event.string LaxJsonType.Property [97, 0] 2] ∧
      (lax_json_feed (lax_json_create garbage realloc_ok) [123, 34, 97, 34]).context.state
        = garbage 2 ∧
      (lax_json_feed (lax_json_create garbage realloc_ok)
        [123, 34, 97, 34]).context.state_stack 1 = some LaxJsonState.Colon) ∧
    ((lax_json_feed (lax_json_create (fun _ => some LaxJsonState.Value) (fun _ => true))
        [123, 34, 97, 34, 32, 49, 125]).outcome
        = Outcome.returned LaxJsonError.UnexpectedChar ∧
      (lax_json_feed (lax_json_create (fun _ => some LaxJsonState.Value) (fun _ => true))
        [123, 34, 97, 34, 32, 49, 125]).events
        = [Event.begin LaxJsonType.Object, Event.string LaxJsonType.Property [97, 0] 2] ∧
      (lax_json_feed (lax_json_create (fun _ => some LaxJsonState.Value) (fun _ => true))
        [123, 34, 97, 34, 32, 49, 125]).context.line = 1 ∧
      (lax_json_feed (lax_json_create (fun _ => some LaxJsonState.Value) (fun _ => true))
        [123, 34, 97, 34, 32, 49, 125]).context.column = 7) ∧
    (∀ (c : Nat) (context : LaxJsonContext), WHITESPACE c = false → c ≠ 47 → c ≠ 58 →
      case_Colon c context = Step.return_ context LaxJsonError.ExpectedColon) := by
  refine ⟨?_, ?_, fun c context hw h1 h2 => ?_⟩
  · simp [lax_json_feed, feed_byte, feed_byte_loop, dispatch, advance, lax_json_create,
      push_state, store_state, case_Value, case_Object, case_String, case_CommentBegin,
      case_CommentLine, case_CommentMultiLine, case_CommentMultiLineStar, WHITESPACE,
      VALID_UNQUOTED, Step.fired, Step.break_, PUSH_STATE, BUFFER_CHAR, POP_STATE, pop_state,
      buffer_char, LaxJsonContext.value_buffer_index]
  · decide
  · simp [case_Colon, hw, h1, h2]


/-! ## The depth of the state stack -/

theorem buffer_error_ne_stack (context : LaxJsonContext) :
    buffer_error context ≠ LaxJsonError.ExceededMaxStack := by
  unfold buffer_error
  split <;> simp

/-- One pass on a running context: `LaxJsonErrorExceededMaxStack` is not
returned, the block keeps its length and the stack stays within it. -/
theorem stack_inv_dispatch (c : Nat) (context : LaxJsonContext)
    (h : stack_inv context) :
    Step.post (fun ctx _ flow =>
        flow ≠ Flow.stop (Outcome.returned LaxJsonError.ExceededMaxStack) ∧ stack_inv ctx)
      (dispatch c context) := by
  obtain ⟨h1, h2⟩ := h
  simp only [sizeof_LaxJsonState_eq] at h2
  unfold dispatch
  split <;>
  simp only [case_End, case_Object, case_BareProp, case_String, case_StringEscape,
      case_Colon, case_Value, case_Array, case_Number, case_NumberExponent,
      case_NumberDecimal, case_NumberExponentSign, case_CommentBegin, case_CommentLine,
      case_CommentMultiLine, case_CommentMultiLineStar,
      PUSH_STATE_eq, BUFFER_CHAR_eq, POP_STATE_eq,
      post_ite, post_break, post_return, post_die, post_fired, post_mk,
      post_case_Expect, post_case_UnicodeEscape] <;>
  simp only [stack_inv, stored, grown_stack, popped, buffered, can_push, has_room,
    sizeof_LaxJsonState_eq] <;>
  simp [buffer_error_ne_stack]
  all_goals (repeat' (first | intro _ | apply And.intro))
  all_goals (first | assumption | omega | (split_ifs at * <;> omega))

theorem stack_inv_advance (c : Nat) (context : LaxJsonContext)
    (h : stack_inv context) : stack_inv (advance c context) := by
  simpa only [stack_inv, advance_state_stack_index, advance_state_stack_size] using h

theorem stack_inv_feed_byte_loop (c fuel : Nat) (context : LaxJsonContext)
    (h : stack_inv context) :
    (feed_byte_loop fuel c context).flow
      ≠ Flow.stop (Outcome.returned LaxJsonError.ExceededMaxStack) ∧
    stack_inv (feed_byte_loop fuel c context).context := by
  induction fuel generalizing context with
  | zero => exact ⟨by simp [feed_byte_loop, Step.die], h⟩
  | succ fuel ih =>
    have hd := stack_inv_dispatch c (advance c context) (stack_inv_advance c context h)
    simp only [Step.post] at hd
    simp only [feed_byte_loop]
    split
    · exact ih _ hd.2
    · exact hd

theorem stack_inv_feed (data : List Nat) (context : LaxJsonContext)
    (h : stack_inv context) :
    (lax_json_feed context data).outcome
      ≠ Outcome.returned LaxJsonError.ExceededMaxStack ∧
    stack_inv (lax_json_feed context data).context := by
  induction data generalizing context with
  | nil => exact ⟨by simp [lax_json_feed], h⟩
  | cons c data ih =>
    have hs := stack_inv_feed_byte_loop c (context.state_stack_index + 2) context h
    have hfuel := feed_byte_fuel_ok c context
    simp only [lax_json_feed]
    split
    · exact ih _ hs.2
    · rename_i outcome hflow
      refine ⟨fun ho => ?_, hs.2⟩
      simp only at ho
      rw [ho] at hflow
      exact hs.1 hflow
    · rename_i hflow
      exact absurd hflow hfuel.1

theorem stack_inv_create (m : Nat) (garbage : Nat → Option LaxJsonState)
    (realloc_ok : Nat → Bool) :
    stack_inv (with_max_state_stack_size (lax_json_create garbage realloc_ok) m) := by
  simp [stack_inv, with_max_state_stack_size, lax_json_create, push_state, store_state]

/-- On a running context `push_state` stores while fewer than 256 states are
on the stack, and overruns the block of 1024 bytes at depth 256. -/
theorem push_state_running (context : LaxJsonContext) (state : LaxJsonState)
    (h : stack_inv context) :
    push_state context state =
      if context.state_stack_index < 256 then
        some (LaxJsonError.None, stored context state)
      else none := by
  obtain ⟨h1, h2⟩ := h
  simp only [sizeof_LaxJsonState_eq] at h2
  have hroom : has_room context := Or.inl (by omega)
  have hg : grown_stack context = context := by
    cases context
    simp only [grown_stack] at *
    simp only [LaxJsonContext.mk.injEq, true_and, and_true]
    rw [if_neg (by omega)]
  rw [push_state_eq]
  by_cases hlt : context.state_stack_index < 256
  · have hcan : can_push context :=
      ⟨hroom, by simp only [hg, h1, sizeof_LaxJsonState_eq]; omega⟩
    rw [if_pos hcan, if_pos hlt, hg]
  · have hcan : ¬ can_push context := by
      intro hc
      have h3 := hc.2
      simp only [hg, h1, sizeof_LaxJsonState_eq] at h3
      omega
    rw [if_neg hcan, if_pos hroom, if_neg hlt]

/-- The first pass for `[` in `Array` state: the state is pushed, the parser
switches to `Value` and rewinds. -/
theorem array_open_first_pass (context : LaxJsonContext)
    (hs : context.state = some LaxJsonState.Array) (hroom : can_push context) :
    (dispatch 91 (advance 91 context)).flow = Flow.again ∧
    (dispatch 91 (advance 91 context)).events = [] ∧
    (dispatch 91 (advance 91 context)).context.state = some LaxJsonState.Value ∧
    (dispatch 91 (advance 91 context)).context.state_stack_index
      = context.state_stack_index + 1 ∧
    (dispatch 91 (advance 91 context)).context.state_stack_size
      = (if context.state_stack_index ≥ context.state_stack_size then
          context.state_stack_size + 1024 else context.state_stack_size) ∧
    (dispatch 91 (advance 91 context)).context.max_state_stack_size
      = context.max_state_stack_size ∧
    (dispatch 91 (advance 91 context)).context.realloc_ok = context.realloc_ok := by
  have hroom2 := hroom
  simp only [can_push, has_room, grown_stack, sizeof_LaxJsonState_eq, ge_iff_le] at hroom2
  obtain ⟨hr1, hr2⟩ := hroom2
  have hw : WHITESPACE 91 = false := by decide
  have h : Step.post (fun ctx evs flow =>
      flow = Flow.again ∧ evs = [] ∧ ctx.state = some LaxJsonState.Value ∧
      ctx.state_stack_index = context.state_stack_index + 1 ∧
      ctx.state_stack_size = (if context.state_stack_index ≥ context.state_stack_size then
          context.state_stack_size + 1024 else context.state_stack_size) ∧
      ctx.max_state_stack_size = context.max_state_stack_size ∧
      ctx.realloc_ok = context.realloc_ok) (dispatch 91 (advance 91 context)) := by
    simp only [dispatch, advance_state, hs, case_Array, PUSH_STATE_eq, POP_STATE_eq, post_ite,
      post_break, post_return, post_mk, post_die]
    simp [hw, can_push, has_room, stored, grown_stack, advance_state_stack_index,
      advance_state_stack_size, advance_max_state_stack_size, advance_realloc_ok, hr1, hr2]
  exact h

/-- The pass for `[` in `Value` state. -/
theorem value_open_array_pass (context : LaxJsonContext)
    (hs : context.state = some LaxJsonState.Value) :
    (dispatch 91 (advance 91 context)).flow = Flow.next ∧
    (dispatch 91 (advance 91 context)).events = [Event.begin LaxJsonType.Array] ∧
    (dispatch 91 (advance 91 context)).context.state = some LaxJsonState.Array ∧
    (dispatch 91 (advance 91 context)).context.state_stack_index
      = context.state_stack_index ∧
    (dispatch 91 (advance 91 context)).context.state_stack_size
      = context.state_stack_size ∧
    (dispatch 91 (advance 91 context)).context.max_state_stack_size
      = context.max_state_stack_size ∧
    (dispatch 91 (advance 91 context)).context.realloc_ok = context.realloc_ok := by
  have hw : WHITESPACE 91 = false := by decide
  have h : Step.post (fun ctx evs flow =>
      flow = Flow.next ∧ evs = [Event.begin LaxJsonType.Array] ∧
      ctx.state = some LaxJsonState.Array ∧
      ctx.state_stack_index = context.state_stack_index ∧
      ctx.state_stack_size = context.state_stack_size ∧
      ctx.max_state_stack_size = context.max_state_stack_size ∧
      ctx.realloc_ok = context.realloc_ok) (dispatch 91 (advance 91 context)) := by
    simp only [dispatch, advance_state, hs, case_Value, PUSH_STATE_eq, post_ite,
      post_break, post_return, post_mk, post_fired, post_die]
    simp [hw, advance_state_stack_index,
      advance_state_stack_size, advance_max_state_stack_size, advance_realloc_ok]
  exact h

/-- The byte `[` in `Array` state, when the push succeeds. -/
theorem array_open_step (context : LaxJsonContext)
    (hs : context.state = some LaxJsonState.Array) (hroom : can_push context) :
    (feed_byte 91 context).flow = Flow.next ∧
    (feed_byte 91 context).events = [Event.begin LaxJsonType.Array] ∧
    (feed_byte 91 context).context.state = some LaxJsonState.Array ∧
    (feed_byte 91 context).context.state_stack_index = context.state_stack_index + 1 ∧
    (feed_byte 91 context).context.state_stack_size
      = (if context.state_stack_index ≥ context.state_stack_size then
          context.state_stack_size + 1024 else context.state_stack_size) ∧
    (feed_byte 91 context).context.max_state_stack_size = context.max_state_stack_size ∧
    (feed_byte 91 context).context.realloc_ok = context.realloc_ok := by
  obtain ⟨f1, e1, s1, i1, z1, m1, r1⟩ := array_open_first_pass context hs hroom
  obtain ⟨f2, e2, s2, i2, z2, m2, r2⟩ := value_open_array_pass _ s1
  rw [feed_byte_two_pass 91 context f1 (by rw [f2]; simp)]
  simp only [Step.fired]
  refine ⟨f2, by rw [e1, e2]; rfl, s2, by rw [i2, i1], by rw [z2, z1], by rw [m2, m1],
    by rw [r2, r1]⟩

/-- The byte `[` in `Array` state, when `push_state` does not reach its
store: its error code is returned. -/
theorem array_open_full_step (context : LaxJsonContext)
    (hs : context.state = some LaxJsonState.Array) (hroom : ¬ has_room context) :
    (feed_byte 91 context).flow = Flow.stop (Outcome.returned (push_error context)) := by
  have hroom2 := hroom
  simp only [has_room] at hroom2
  have hw : WHITESPACE 91 = false := by decide
  have h := post_feed_byte (fun _ _ flow =>
      flow = Flow.stop (Outcome.returned (push_error context)))
    91 context (by simp) (by
      simp only [dispatch, advance_state, hs, case_Array, PUSH_STATE_eq, POP_STATE_eq,
        post_ite, post_break, post_return, post_mk, post_die]
      simp [hw, can_push, has_room, push_error, advance_state_stack_index,
        advance_state_stack_size, advance_max_state_stack_size, advance_realloc_ok, hroom2])
  exact h

/-- The byte `[` in `Array` state, when the store of `push_state` overruns
the block: undefined behaviour, no callback. -/
theorem array_open_overflow_step (context : LaxJsonContext)
    (hs : context.state = some LaxJsonState.Array)
    (hlt : context.state_stack_index < context.state_stack_size)
    (hover : context.state_stack_size < 4 * (context.state_stack_index + 1)) :
    (feed_byte 91 context).flow = Flow.stop Outcome.undefined ∧
    (feed_byte 91 context).events = [] := by
  have hw : WHITESPACE 91 = false := by decide
  have h1 : ¬ context.state_stack_size ≤ context.state_stack_index := by omega
  have h2 : ¬ 4 * (context.state_stack_index + 1) ≤ context.state_stack_size := by omega
  have h := post_feed_byte (fun _ evs flow =>
      flow = Flow.stop Outcome.undefined ∧ evs = [])
    91 context (by simp) (by
      simp only [dispatch, advance_state, hs, case_Array, PUSH_STATE_eq, POP_STATE_eq,
        post_ite, post_break, post_return, post_mk, post_die]
      simp [hw, can_push, has_room, grown_stack, advance_state_stack_index,
        advance_state_stack_size, advance_max_state_stack_size, advance_realloc_ok, hlt, h1,
        h2])
  exact h

/-- The first `[` of a document, read in `Value` state. -/
theorem value_open_array_step (context : LaxJsonContext)
    (hs : context.state = some LaxJsonState.Value) :
    (feed_byte 91 context).flow = Flow.next ∧
    (feed_byte 91 context).events = [Event.begin LaxJsonType.Array] ∧
    (feed_byte 91 context).context.state = some LaxJsonState.Array ∧
    (feed_byte 91 context).context.state_stack_index = context.state_stack_index ∧
    (feed_byte 91 context).context.state_stack_size = context.state_stack_size ∧
    (feed_byte 91 context).context.max_state_stack_size = context.max_state_stack_size ∧
    (feed_byte 91 context).context.realloc_ok = context.realloc_ok := by
  have h := value_open_array_pass context hs
  rw [feed_byte_of_not_again 91 context (by rw [h.1]; simp)]
  exact h

/-- A run of `n` bytes `[` in `Array` state while the states pushed lie within
the block of 1024 bytes. -/
theorem array_run (n : Nat) (context : LaxJsonContext)
    (hs : context.state = some LaxJsonState.Array)
    (hsize : context.state_stack_size = 1024)
    (hlen : context.state_stack_index + n ≤ 256) :
    (lax_json_feed context (List.replicate n 91)).outcome
      = Outcome.returned LaxJsonError.None ∧
    (lax_json_feed context (List.replicate n 91)).context.state
      = some LaxJsonState.Array ∧
    (lax_json_feed context (List.replicate n 91)).context.state_stack_index
      = context.state_stack_index + n ∧
    (lax_json_feed context (List.replicate n 91)).context.state_stack_size = 1024 := by
  induction n generalizing context with
  | zero => exact ⟨rfl, hs, rfl, hsize⟩
  | succ n ih =>
    have hroom : can_push context := by
      refine ⟨Or.inl (by omega), ?_⟩
      simp only [grown_stack, sizeof_LaxJsonState_eq, hsize]
      rw [if_neg (by omega)]
      omega
    obtain ⟨f, _, s, i, z, _, _⟩ := array_open_step context hs hroom
    have hsize2 : (feed_byte 91 context).context.state_stack_size = 1024 := by
      rw [z, if_neg (by omega), hsize]
    obtain ⟨a1, a2, a3, a4⟩ := ih (feed_byte 91 context).context s hsize2
      (by rw [i]; omega)
    rw [List.replicate_succ]
    simp only [lax_json_feed, f]
    exact ⟨a1, a2, by rw [a3, i]; omega, a4⟩

/-- Nesting on a fresh context, whatever the limit `m`: `n` bytes `[` with
`1 ≤ n ≤ 256` are accepted and leave `n` states on the stack. -/
theorem array_nesting_accepted (m n : Nat) (h1 : 1 ≤ n) (h2 : n ≤ 256)
    (garbage : Nat → Option LaxJsonState) (realloc_ok : Nat → Bool) :
    (lax_json_feed (with_max_state_stack_size (lax_json_create garbage realloc_ok) m)
      (List.replicate n 91)).outcome = Outcome.returned LaxJsonError.None ∧
    (lax_json_feed (with_max_state_stack_size (lax_json_create garbage realloc_ok) m)
      (List.replicate n 91)).context.state = some LaxJsonState.Array ∧
    (lax_json_feed (with_max_state_stack_size (lax_json_create garbage realloc_ok) m)
      (List.replicate n 91)).context.state_stack_index = n ∧
    (lax_json_feed (with_max_state_stack_size (lax_json_create garbage realloc_ok) m)
      (List.replicate n 91)).context.state_stack_size = 1024 := by
  obtain ⟨k, hk⟩ : ∃ k, n = k + 1 := ⟨n - 1, by omega⟩
  subst hk
  have hs0 : (with_max_state_stack_size (lax_json_create garbage realloc_ok)
      m).state = some LaxJsonState.Value := rfl
  have hi0 : (with_max_state_stack_size
      (lax_json_create garbage realloc_ok) m).state_stack_index = 1 := rfl
  have hz0 : (with_max_state_stack_size
      (lax_json_create garbage realloc_ok) m).state_stack_size = 1024 := rfl
  obtain ⟨f, _, s, i, z, _, _⟩ := value_open_array_step _ hs0
  obtain ⟨a1, a2, a3, a4⟩ := array_run k _ s (by rw [z, hz0]) (by rw [i, hi0]; omega)
  rw [List.replicate_succ, feed_cons_next_outcome _ _ _ f, feed_cons_next_context _ _ _ f]
  exact ⟨a1, a2, by rw [a3, i, hi0]; omega, a4⟩

theorem replicate_split (a b x : Nat) (h : a < b) :
    List.replicate b x = (List.replicate a x ++ [x]) ++ List.replicate (b - a - 1) x := by
  have hb : b = a + 1 + (b - a - 1) := by omega
  conv_lhs => rw [hb]
  rw [List.replicate_add, List.replicate_add, List.replicate_one]

/-- The 257th nested `[` on a fresh context overruns the block, whatever the
limit `m`, and so does every deeper nesting. -/
theorem array_nesting_overflow (m n : Nat) (hn : 256 < n)
    (garbage : Nat → Option LaxJsonState) (realloc_ok : Nat → Bool) :
    (lax_json_feed (with_max_state_stack_size (lax_json_create garbage realloc_ok) m)
      (List.replicate n 91)).outcome = Outcome.undefined := by
  obtain ⟨a1, a2, a3, a4⟩ :=
    array_nesting_accepted m 256 (by decide) (by decide) garbage realloc_ok
  rw [replicate_split 256 n 91 hn]
  generalize List.replicate 256 91 = pre at a1 a2 a3 a4 ⊢
  have hstep := array_open_overflow_step _ a2 (by rw [a3, a4]; decide)
    (by rw [a3, a4]; decide)
  have h257 : (lax_json_feed
      (with_max_state_stack_size (lax_json_create garbage realloc_ok) m)
      (pre ++ [91])).outcome = Outcome.undefined := by
    rw [feed_append_outcome _ _ _ a1, feed_cons_stop _ _ _ _ hstep.1]
  rw [feed_append_eq, feed_then, if_neg (by rw [h257]; simp)]
  exact h257

/-- C7: the limit is not enforced, and the stack overruns its block.  The
source allocates `state_stack_size` bytes for the stack (1024 in
`lax_json_create`) but tests the capacity against the cell index, so on a
context created by `lax_json_create` and configured with any limit `m`:
`lax_json_feed` never returns `LaxJsonErrorExceededMaxStack`; the capacity
stays 1024 and the stack within the 256 cells of the block; `push_state`
stores the state and returns `LaxJsonErrorNone` at every depth below 256, also
when the stack already holds `m` states or more, and at depth 256 its store
overruns the block; `n` nested `[` are accepted for `1 ≤ n ≤ 256`, leaving `n`
states on the stack whatever `m` is, and 257 or more nested `[` end in
undefined behaviour, not in an error code. -/
theorem state_stack_overflow (m : Nat) (garbage : Nat → Option LaxJsonState)
    (realloc_ok : Nat → Bool) :
    (∀ data : List Nat,
      (lax_json_feed (with_max_state_stack_size (lax_json_create garbage realloc_ok) m)
        data).outcome ≠ Outcome.returned LaxJsonError.ExceededMaxStack ∧
      (lax_json_feed (with_max_state_stack_size (lax_json_create garbage realloc_ok) m)
        data).context.state_stack_size = 1024 ∧
      (lax_json_feed (with_max_state_stack_size (lax_json_create garbage realloc_ok) m)
        data).context.state_stack_index ≤ 256 ∧
      ∀ state : LaxJsonState,
        push_state (lax_json_feed
            (with_max_state_stack_size (lax_json_create garbage realloc_ok) m)
            data).context state =
          if (lax_json_feed (with_max_state_stack_size (lax_json_create garbage realloc_ok) m)
              data).context.state_stack_index < 256 then
            some (LaxJsonError.None,
              stored (lax_json_feed
                (with_max_state_stack_size (lax_json_create garbage realloc_ok) m)
                data).context state)
          else none) ∧
    (∀ n, 1 ≤ n → n ≤ 256 →
      (lax_json_feed (with_max_state_stack_size (lax_json_create garbage realloc_ok) m)
        (List.replicate n 91)).outcome = Outcome.returned LaxJsonError.None ∧
      (lax_json_feed (with_max_state_stack_size (lax_json_create garbage realloc_ok) m)
        (List.replicate n 91)).context.state_stack_index = n) ∧
    (∀ n, 256 < n →
      (lax_json_feed (with_max_state_stack_size (lax_json_create garbage realloc_ok) m)
        (List.replicate n 91)).outcome = Outcome.undefined) ∧
    (∀ (context : LaxJsonContext) (state : LaxJsonState),
      context.state_stack_index < context.state_stack_size →
      context.state_stack_size < sizeof_LaxJsonState * (context.state_stack_index + 1) →
      push_state context state = none) := by
  refine ⟨fun data => ?_, fun n h1 h2 => ?_, fun n hn => ?_, fun context state hlt hover => ?_⟩
  · have h := stack_inv_feed data _ (stack_inv_create m garbage realloc_ok)
    refine ⟨h.1, h.2.1, ?_, fun state => push_state_running _ state h.2⟩
    have h2 := h.2.2
    simp only [sizeof_LaxJsonState_eq] at h2
    omega
  · obtain ⟨a1, _, a3, _⟩ := array_nesting_accepted m n h1 h2 garbage realloc_ok
    exact ⟨a1, a3⟩
  · exact array_nesting_overflow m n hn garbage realloc_ok
  · have hroom : has_room context := Or.inl hlt
    rw [push_state_eq, if_neg (fun hc => ?_), if_pos hroom]
    have h3 := hc.2
    simp only [sizeof_LaxJsonState_eq] at h3 hover
    simp only [grown_stack] at h3
    rw [if_neg (by omega)] at h3
    omega

/-! ## The size of the token buffer -/

theorem buffer_inv_dispatch (r : Nat → Bool) (c : Nat) (context : LaxJsonContext)
    (h : buffer_inv r context) :
    Step.post (fun ctx _ flow =>
        ctx.value_buffer.length ≤ 1033216 ∧
        (flow = Flow.next ∨ flow = Flow.again → buffer_inv r ctx))
      (dispatch c context) := by
  obtain ⟨h1, h2, h3, h4, h5⟩ := h
  unfold dispatch
  split <;>
  simp only [case_End, case_Object, case_BareProp, case_String, case_StringEscape,
      case_Colon, case_Value, case_Array, case_Number, case_NumberExponent,
      case_NumberDecimal, case_NumberExponentSign, case_CommentBegin, case_CommentLine,
      case_CommentMultiLine, case_CommentMultiLineStar,
      PUSH_STATE_eq, BUFFER_CHAR_eq, POP_STATE_eq,
      post_ite, post_break, post_return, post_die, post_fired, post_mk,
      post_case_Expect, post_case_UnicodeEscape] <;>
  simp only [buffer_inv, stored, grown_stack, popped, buffered, can_buffer,
    LaxJsonContext.value_buffer_index] <;>
  simp [DIGIT]
  all_goals (repeat' (first | intro _ | apply And.intro))
  all_goals (first | assumption | omega | (split_ifs at * <;> omega))

theorem buffer_inv_advance (r : Nat → Bool) (c : Nat) (context : LaxJsonContext)
    (h : buffer_inv r context) : buffer_inv r (advance c context) := by
  simpa only [buffer_inv, advance_max_value_buffer_size, advance_value_buffer,
    advance_value_buffer_size, advance_realloc_ok] using h

theorem buffer_inv_length (r : Nat → Bool) (context : LaxJsonContext)
    (h : buffer_inv r context) : context.value_buffer.length ≤ 1033216 := by
  obtain ⟨_, h2, h3, h4, _⟩ := h
  omega

theorem buffer_inv_feed_byte_loop (r : Nat → Bool) (c fuel : Nat) (context : LaxJsonContext)
    (h : buffer_inv r context) :
    (feed_byte_loop fuel c context).context.value_buffer.length ≤ 1033216 ∧
    ((feed_byte_loop fuel c context).flow = Flow.next →
      buffer_inv r (feed_byte_loop fuel c context).context) := by
  induction fuel generalizing context with
  | zero =>
    refine ⟨buffer_inv_length r context h, fun hf => ?_⟩
    simp [feed_byte_loop, Step.die] at hf
  | succ fuel ih =>
    have hd := buffer_inv_dispatch r c (advance c context) (buffer_inv_advance r c context h)
    simp only [Step.post] at hd
    simp only [feed_byte_loop]
    split
    · rename_i hflow
      exact ih _ (hd.2 (Or.inr hflow))
    · exact ⟨hd.1, fun hf => hd.2 (Or.inl hf)⟩

theorem buffer_inv_feed (r : Nat → Bool) (data : List Nat) (context : LaxJsonContext)
    (h : buffer_inv r context) :
    (lax_json_feed context data).context.value_buffer.length ≤ 1033216 ∧
    ((lax_json_feed context data).outcome = Outcome.returned LaxJsonError.None →
      buffer_inv r (lax_json_feed context data).context) := by
  induction data generalizing context with
  | nil => exact ⟨buffer_inv_length r context h, fun _ => h⟩
  | cons c data ih =>
    have hs := buffer_inv_feed_byte_loop r c (context.state_stack_index + 2) context h
    have hlive := live_feed_byte c context
    have hfuel := feed_byte_fuel_ok c context
    simp only [lax_json_feed]
    split
    · rename_i hflow
      exact ih _ (hs.2 hflow)
    · rename_i outcome hflow
      refine ⟨hs.1, fun ho => ?_⟩
      simp only at ho
      rw [ho] at hflow
      exact absurd hflow hlive
    · rename_i hflow
      exact absurd hflow hfuel.1

theorem buffer_inv_create (garbage : Nat → Option LaxJsonState) (realloc_ok : Nat → Bool) :
    buffer_inv realloc_ok (lax_json_create garbage realloc_ok) := by
  simp [buffer_inv, lax_json_create, push_state, store_state]

/-- Below 1033216 bytes the buffer of a running context takes one more byte. -/
theorem can_buffer_of_inv (r : Nat → Bool) (context : LaxJsonContext)
    (h : buffer_inv r context) (hr : ∀ n, r n = true)
    (hlen : context.value_buffer.length < 1033216) : can_buffer context := by
  obtain ⟨h1, h2, h3, h4, h5⟩ := h
  unfold can_buffer LaxJsonContext.value_buffer_index
  by_cases hfull : context.value_buffer.length < context.value_buffer_size
  · exact Or.inl hfull
  · refine Or.inr ⟨by omega, ?_⟩
    rw [h5]
    exact hr _

/-- At 1033216 bytes the buffer of a running context is full and cannot grow. -/
theorem not_can_buffer_of_inv (r : Nat → Bool) (context : LaxJsonContext)
    (h : buffer_inv r context) (hlen : context.value_buffer.length = 1033216) :
    ¬ can_buffer context ∧ buffer_error context = LaxJsonError.ExceededMaxValueSize := by
  obtain ⟨h1, h2, h3, h4, h5⟩ := h
  unfold can_buffer buffer_error LaxJsonContext.value_buffer_index
  refine ⟨by omega, ?_⟩
  rw [if_pos (by omega)]

/-- An ordinary byte in `String` state, while the buffer takes it. -/
theorem string_char_step (context : LaxJsonContext) (c : Nat)
    (hs : context.state = some LaxJsonState.String)
    (hd : c ≠ context.delim) (hc : c ≠ 92) (hroom : can_buffer context) :
    (feed_byte c context).quiet ∧
    (feed_byte c context).context.state = some LaxJsonState.String ∧
    (feed_byte c context).context.delim = context.delim ∧
    (feed_byte c context).context.value_buffer = context.value_buffer ++ [c] := by
  have hroom2 := hroom
  simp only [can_buffer, LaxJsonContext.value_buffer_index] at hroom2
  have h := post_feed_byte (fun ctx evs flow =>
      (flow = Flow.next ∧ evs = []) ∧ ctx.state = some LaxJsonState.String ∧
      ctx.delim = context.delim ∧ ctx.value_buffer = context.value_buffer ++ [c])
    c context (by simp) (by
      simp only [dispatch, advance_state, hs, case_String, advance_delim, BUFFER_CHAR_eq,
        POP_STATE_eq, post_ite, post_break, post_return, post_fired, post_die]
      simp [hd, hc, can_buffer, LaxJsonContext.value_buffer_index, buffered,
        advance_value_buffer, advance_value_buffer_size, advance_max_value_buffer_size,
        advance_realloc_ok, advance_state, advance_delim, hs, hroom2])
  exact h

/-- An ordinary byte in `String` state when the buffer is full and cannot
grow. -/
theorem string_char_full_step (context : LaxJsonContext) (c : Nat)
    (hs : context.state = some LaxJsonState.String)
    (hd : c ≠ context.delim) (hc : c ≠ 92) (hroom : ¬ can_buffer context) :
    (feed_byte c context).flow = Flow.stop (Outcome.returned (buffer_error context)) := by
  have hroom2 := hroom
  simp only [can_buffer, LaxJsonContext.value_buffer_index] at hroom2
  have h := post_feed_byte (fun _ _ flow =>
      flow = Flow.stop (Outcome.returned (buffer_error context)))
    c context (by simp) (by
      simp only [dispatch, advance_state, hs, case_String, advance_delim, BUFFER_CHAR_eq,
        POP_STATE_eq, post_ite, post_break, post_return, post_fired, post_die]
      simp [hd, hc, can_buffer, LaxJsonContext.value_buffer_index, buffer_error,
        advance_value_buffer, advance_value_buffer_size, advance_max_value_buffer_size,
        advance_realloc_ok, hroom2])
  exact h

/-- A run of `n` bytes `a` inside a string delimited by `"`. -/
theorem string_run (r : Nat → Bool) (hr : ∀ n, r n = true) (n : Nat)
    (context : LaxJsonContext)
    (hs : context.state = some LaxJsonState.String) (hd : context.delim = 34)
    (hinv : buffer_inv r context) (hlen : context.value_buffer.length + n ≤ 1033216) :
    (lax_json_feed context (List.replicate n 97)).outcome
      = Outcome.returned LaxJsonError.None ∧
    (lax_json_feed context (List.replicate n 97)).context.state
      = some LaxJsonState.String ∧
    (lax_json_feed context (List.replicate n 97)).context.delim = 34 ∧
    buffer_inv r (lax_json_feed context (List.replicate n 97)).context ∧
    (lax_json_feed context (List.replicate n 97)).context.value_buffer.length
      = context.value_buffer.length + n := by
  induction n generalizing context with
  | zero => exact ⟨rfl, hs, hd, hinv, rfl⟩
  | succ n ih =>
    have hroom := can_buffer_of_inv r context hinv hr (by omega)
    obtain ⟨hq, hst, hdl, hbuf⟩ :=
      string_char_step context 97 hs (by rw [hd]; decide) (by decide) hroom
    have hinv2 : buffer_inv r (feed_byte 97 context).context :=
      (buffer_inv_feed_byte_loop r 97 _ context hinv).2 hq.1
    have hlen2 : (feed_byte 97 context).context.value_buffer.length
        = context.value_buffer.length + 1 := by
      rw [hbuf, List.length_append, List.length_singleton]
    obtain ⟨h1, h2, h3, h4, h5⟩ :=
      ih (feed_byte 97 context).context hst (hdl.trans hd) hinv2 (by omega)
    rw [List.replicate_succ, feed_cons_quiet _ _ _ hq]
    exact ⟨h1, h2, h3, h4, by rw [h5, hlen2]; omega⟩

/-- C8, as the source has it: in a running context created by
`lax_json_create` (limit 1048576, no allocation failure) the token never holds
more than 1033216 bytes (the capacity grows from 1024 in steps of 16384 and
the step to 1049600 is refused); `buffer_char` appends the byte and returns
`LaxJsonErrorNone` whenever the token holds fewer than 1033216 bytes, and it
returns `LaxJsonErrorExceededMaxValueSize`, appending nothing, exactly when
the token holds 1033216 bytes. -/
theorem buffer_char_limit (garbage : Nat → Option LaxJsonState) (realloc_ok : Nat → Bool)
    (data : List Nat) (c : Nat) (hr : ∀ n, realloc_ok n = true)
    (ho : (lax_json_feed (lax_json_create garbage realloc_ok) data).outcome
      = Outcome.returned LaxJsonError.None) :
    (lax_json_feed (lax_json_create garbage realloc_ok) data).context.value_buffer_index
      ≤ 1033216 ∧
    ((lax_json_feed (lax_json_create garbage realloc_ok) data).context.value_buffer_index
        < 1033216 →
      (buffer_char (lax_json_feed (lax_json_create garbage realloc_ok) data).context c).1
        = LaxJsonError.None ∧
      (buffer_char (lax_json_feed (lax_json_create garbage realloc_ok)
          data).context c).2.value_buffer
        = (lax_json_feed (lax_json_create garbage realloc_ok) data).context.value_buffer
          ++ [c]) ∧
    ((lax_json_feed (lax_json_create garbage realloc_ok) data).context.value_buffer_index
        = 1033216 →
      (buffer_char (lax_json_feed (lax_json_create garbage realloc_ok) data).context c).1
        = LaxJsonError.ExceededMaxValueSize ∧
      (buffer_char (lax_json_feed (lax_json_create garbage realloc_ok)
          data).context c).2.value_buffer
        = (lax_json_feed (lax_json_create garbage realloc_ok) data).context.value_buffer) ∧
    ((buffer_char (lax_json_feed (lax_json_create garbage realloc_ok) data).context c).1
        = LaxJsonError.ExceededMaxValueSize →
      (lax_json_feed (lax_json_create garbage realloc_ok) data).context.value_buffer_index
        = 1033216) := by
  have hfeed := buffer_inv_feed realloc_ok data _ (buffer_inv_create garbage realloc_ok)
  have hinv := hfeed.2 ho
  have hle := hfeed.1
  have hlt : ∀ (_ : (lax_json_feed (lax_json_create garbage realloc_ok)
      data).context.value_buffer.length < 1033216),
      buffer_char (lax_json_feed (lax_json_create garbage realloc_ok) data).context c
        = (LaxJsonError.None,
            buffered (lax_json_feed (lax_json_create garbage realloc_ok) data).context c) := by
    intro h
    rw [buffer_char_eq, if_pos (can_buffer_of_inv realloc_ok _ hinv hr h)]
  refine ⟨hle, fun h => ?_, fun h => ?_, fun h => ?_⟩
  · rw [hlt h]
    exact ⟨rfl, rfl⟩
  · obtain ⟨h1, h2⟩ := not_can_buffer_of_inv realloc_ok _ hinv h
    rw [buffer_char_eq, if_neg h1]
    exact ⟨h2, rfl⟩
  · by_contra hne
    have hlt2 : (lax_json_feed (lax_json_create garbage realloc_ok)
        data).context.value_buffer.length < 1033216 := by
      unfold LaxJsonContext.value_buffer_index at hne
      omega
    rw [hlt hlt2] at h
    exact absurd h (by simp)

/-- C8 after the bytes `"a` of a fresh context, for the byte `b`. -/
theorem buffer_char_limit_witness :
    (lax_json_feed (lax_json_create (fun _ => none) (fun _ => true))
      [34, 97]).context.value_buffer_index ≤ 1033216 ∧
    ((lax_json_feed (lax_json_create (fun _ => none) (fun _ => true))
        [34, 97]).context.value_buffer_index < 1033216 →
      (buffer_char (lax_json_feed (lax_json_create (fun _ => none) (fun _ => true))
        [34, 97]).context 98).1 = LaxJsonError.None ∧
      (buffer_char (lax_json_feed (lax_json_create (fun _ => none) (fun _ => true))
          [34, 97]).context 98).2.value_buffer
        = (lax_json_feed (lax_json_create (fun _ => none) (fun _ => true))
            [34, 97]).context.value_buffer ++ [98]) ∧
    ((lax_json_feed (lax_json_create (fun _ => none) (fun _ => true))
        [34, 97]).context.value_buffer_index = 1033216 →
      (buffer_char (lax_json_feed (lax_json_create (fun _ => none) (fun _ => true))
        [34, 97]).context 98).1 = LaxJsonError.ExceededMaxValueSize ∧
      (buffer_char (lax_json_feed (lax_json_create (fun _ => none) (fun _ => true))
          [34, 97]).context 98).2.value_buffer
        = (lax_json_feed (lax_json_create (fun _ => none) (fun _ => true))
            [34, 97]).context.value_buffer) ∧
    ((buffer_char (lax_json_feed (lax_json_create (fun _ => none) (fun _ => true))
        [34, 97]).context 98).1 = LaxJsonError.ExceededMaxValueSize →
      (lax_json_feed (lax_json_create (fun _ => none) (fun _ => true))
        [34, 97]).context.value_buffer_index = 1033216) :=
  buffer_char_limit (fun _ => none) (fun _ => true) [34, 97] 98 (fun _ => rfl) (by decide)

/-- C8 fails as stated: after `"` and 1033216 bytes `a` the call has returned
`LaxJsonErrorNone`, the token holds 1033216 bytes, fewer than 1048576, and
`buffer_char` returns `LaxJsonErrorExceededMaxValueSize`; one more `a` makes
`lax_json_feed` return that error. -/
theorem buffer_char_limit_counterexample :
    (lax_json_feed (lax_json_create (fun _ => none) (fun _ => true))
      ([34] ++ List.replicate 1033216 97)).outcome = Outcome.returned LaxJsonError.None ∧
    (lax_json_feed (lax_json_create (fun _ => none) (fun _ => true))
      ([34] ++ List.replicate 1033216 97)).context.value_buffer_index = 1033216 ∧
    (lax_json_feed (lax_json_create (fun _ => none) (fun _ => true))
      ([34] ++ List.replicate 1033216 97)).context.value_buffer_index < 1048576 ∧
    (buffer_char (lax_json_feed (lax_json_create (fun _ => none) (fun _ => true))
      ([34] ++ List.replicate 1033216 97)).context 97).1
      = LaxJsonError.ExceededMaxValueSize ∧
    (lax_json_feed (lax_json_create (fun _ => none) (fun _ => true))
      (([34] ++ List.replicate 1033216 97) ++ [97])).outcome
      = Outcome.returned LaxJsonError.ExceededMaxValueSize := by
  have h0 : (lax_json_feed (lax_json_create (fun _ => none) (fun _ => true)) [34]).outcome
      = Outcome.returned LaxJsonError.None := by decide
  have hinv0 := (buffer_inv_feed (fun _ => true) [34] _
    (buffer_inv_create (fun _ => none) (fun _ => true))).2 h0
  have hs0 : (lax_json_feed (lax_json_create (fun _ => none) (fun _ => true))
      [34]).context.state = some LaxJsonState.String := by decide
  have hd0 : (lax_json_feed (lax_json_create (fun _ => none) (fun _ => true))
      [34]).context.delim = 34 := by decide
  have hb0 : (lax_json_feed (lax_json_create (fun _ => none) (fun _ => true))
      [34]).context.value_buffer.length = 0 := by decide
  obtain ⟨h1, h2, h3, h4, h5⟩ := string_run (fun _ => true) (fun _ => rfl) 1033216 _ hs0 hd0
    hinv0 (by rw [hb0])
  rw [hb0, Nat.zero_add] at h5
  generalize List.replicate 1033216 97 = big at h1 h2 h3 h4 h5 ⊢
  have ho : (lax_json_feed (lax_json_create (fun _ => none) (fun _ => true))
      ([34] ++ big)).outcome = Outcome.returned LaxJsonError.None := by
    rw [feed_append_outcome _ _ _ h0]
    exact h1
  have hfull := not_can_buffer_of_inv (fun _ => true) _ h4 h5
  refine ⟨ho, ?_, ?_, ?_, ?_⟩
  · unfold LaxJsonContext.value_buffer_index
    rw [feed_append_context _ _ _ h0]
    exact h5
  · unfold LaxJsonContext.value_buffer_index
    rw [feed_append_context _ _ _ h0, h5]
    decide
  · rw [feed_append_context _ _ _ h0, buffer_char_eq, if_neg hfull.1]
    exact hfull.2
  · rw [feed_append_outcome _ _ _ ho, feed_append_context _ _ _ h0]
    have hstep := string_char_full_step _ 97 h2 (by rw [h3]; decide) (by decide) hfull.1
    rw [feed_cons_stop _ _ _ _ hstep, hfull.2]


/-! ## What `pop_state` restores -/

/-- After a successful `push_state`, `pop_state` restores the depth and loads
the cell above the one just written. -/
theorem pop_after_push (context : LaxJsonContext) (state : LaxJsonState)
    (hroom : can_push context) :
    ∃ pushed, push_state context state = some (LaxJsonError.None, pushed) ∧
      pushed.state_stack context.state_stack_index = some state ∧
      ∃ ctx, pop_state pushed = some ctx ∧
        ctx.state = context.state_stack (context.state_stack_index + 1) ∧
        ctx.state_stack_index = context.state_stack_index := by
  refine ⟨stored (grown_stack context) state, ?_, by simp [stored, grown_stack], ?_⟩
  · rw [push_state_eq, if_pos hroom]
  refine ⟨popped (stored (grown_stack context) state), ?_, ?_, ?_⟩
  · rw [pop_state_eq, if_neg (by simp [stored, grown_stack])]
  · simp [popped, stored, grown_stack]
  · simp [popped, stored, grown_stack]

/-- C11: the round trip fails in the source.  After a successful
`push_state(context, s)` the depth is restored by `pop_state`, but the state it
loads is the content of the stack cell above the one `s` was stored in, not
`s`.  On a context obtained from a fresh one by two pushes of `Array` and two
pops, pushing `Object` and popping leaves the state `Array`, whatever the
allocator left in the stack memory. -/
theorem push_pop_round_trip (garbage : Nat → Option LaxJsonState)
    (realloc_ok : Nat → Bool) :
    (∀ (context : LaxJsonContext) (s : LaxJsonState), can_push context →
      ∃ pushed, push_state context s = some (LaxJsonError.None, pushed) ∧
        pushed.state_stack context.state_stack_index = some s ∧
        ∃ ctx, pop_state pushed = some ctx ∧
          ctx.state = context.state_stack (context.state_stack_index + 1) ∧
          ctx.state_stack_index = context.state_stack_index) ∧
    (∃ c1 c2 c3 c4 c5,
      push_state (lax_json_create garbage realloc_ok) LaxJsonState.Array
        = some (LaxJsonError.None, c1) ∧
      push_state c1 LaxJsonState.Array = some (LaxJsonError.None, c2) ∧
      pop_state c2 = some c3 ∧
      pop_state c3 = some c4 ∧
      push_state c4 LaxJsonState.Object = some (LaxJsonError.None, c5) ∧
      (pop_state c5).map (fun ctx => ctx.state) = some (some LaxJsonState.Array) ∧
      (pop_state c5).map (fun ctx => ctx.state_stack_index) = some c4.state_stack_index) := by
  refine ⟨fun context s hroom => pop_after_push context s hroom, ?_⟩
  refine ⟨_, _, _, _, _, rfl, rfl, rfl, rfl, rfl, ?_, ?_⟩ <;>
  simp [pop_state, push_state, store_state, lax_json_create]

/-- C12: in `Array` state the byte `]` fires no callback in the source: the
case calls `pop_state` and nothing else, so `[]` fires `begin(Array)` only,
while the `}` of `{}` does fire `end(Object)`. -/
theorem array_close_fires_nothing (garbage : Nat → Option LaxJsonState)
    (realloc_ok : Nat → Bool) :
    (∀ context : LaxJsonContext, (case_Array 93 context).events = []) ∧
    (∀ context : LaxJsonContext, context.state_stack_index ≠ 0 →
      (case_Array 93 context).flow = Flow.next ∧
      (case_Array 93 context).context.state_stack_index = context.state_stack_index - 1) ∧
    ((lax_json_feed (lax_json_create garbage realloc_ok) [91, 93]).outcome
        = Outcome.returned LaxJsonError.None ∧
      (lax_json_feed (lax_json_create garbage realloc_ok) [91, 93]).events
        = [Event.begin LaxJsonType.Array] ∧
      (lax_json_feed (lax_json_create garbage realloc_ok) [91, 93]).context.state_stack_index
        = 0) ∧
    (lax_json_feed (lax_json_create garbage realloc_ok) [123, 125]).events
      = [Event.begin LaxJsonType.Object, Event.end_ LaxJsonType.Object] := by
  have hw : WHITESPACE 93 = false := by decide
  refine ⟨fun context => ?_, fun context hi => ?_, ?_, ?_⟩
  · simp only [case_Array, POP_STATE_eq]
    by_cases hi : context.state_stack_index = 0 <;> simp [hw, hi, Step.die, Step.break_]
  · simp [case_Array, POP_STATE_eq, hw, hi, Step.break_, popped]
  · simp [lax_json_feed, feed_byte, feed_byte_loop, dispatch, advance, lax_json_create,
      push_state, store_state, case_Value, case_Array, WHITESPACE, Step.fired, Step.break_,
      PUSH_STATE, POP_STATE, pop_state]
  · simp [lax_json_feed, feed_byte, feed_byte_loop, dispatch, advance, lax_json_create,
      push_state, store_state, case_Value, case_Object, WHITESPACE, VALID_UNQUOTED,
      Step.fired, Step.break_, PUSH_STATE, POP_STATE, pop_state]

/-- C13: after `{}` the source is not in `End` state: `pop_state` loads stack
cell 1, which was never written (`End` sits in cell 0), so the state is
whatever the allocator left there and the stack is empty.  With zero-filled
stack memory the state is `Value` and `{}x` returns
`LaxJsonErrorUnexpectedChar` at `x`, not `LaxJsonErrorExpectedEof`.  The `End`
case itself ignores whitespace and rejects every byte other than `/` with
`LaxJsonErrorExpectedEof`, firing nothing. -/
theorem state_after_top_level_value (garbage : Nat → Option LaxJsonState)
    (realloc_ok : Nat → Bool) :
    ((lax_json_feed (lax_json_create garbage realloc_ok) [123, 125]).outcome
        = Outcome.returned LaxJsonError.None ∧
      (lax_json_feed (lax_json_create garbage realloc_ok) [123, 125]).context.state
        = garbage 1 ∧
      (lax_json_feed (lax_json_create garbage realloc_ok) [123, 125]).context.state_stack 0
        = some LaxJsonState.End ∧
      (lax_json_feed (lax_json_create garbage realloc_ok)
        [123, 125]).context.state_stack_index = 0) ∧
    ((lax_json_feed (lax_json_create (fun _ => some LaxJsonState.Value) (fun _ => true))
        [123, 125, 120]).outcome = Outcome.returned LaxJsonError.UnexpectedChar ∧
      (lax_json_feed (lax_json_create (fun _ => some LaxJsonState.Value) (fun _ => true))
        [123, 125, 120]).context.state = some LaxJsonState.Value) ∧
    (∀ (c : Nat) (context : LaxJsonContext),
      (WHITESPACE c = true → case_End c context = Step.break_ context) ∧
      (WHITESPACE c = false → c ≠ 47 →
        case_End c context = Step.return_ context LaxJsonError.ExpectedEof)) := by
  refine ⟨?_, ?_, fun c context => ⟨fun hw => ?_, fun hw hc => ?_⟩⟩
  · simp [lax_json_feed, feed_byte, feed_byte_loop, dispatch, advance, lax_json_create,
      push_state, store_state, case_Value, case_Object, WHITESPACE, VALID_UNQUOTED,
      Step.fired, Step.break_, PUSH_STATE, POP_STATE, pop_state]
  · decide
  · simp [case_End, hw]
  · simp [case_End, hw, hc]

/-- C19: the assertion of `pop_state` can fail in the source.  After `{}` the
stack is empty and the state is the content of stack cell 1; with zero-filled
stack memory that is `Value`, a second `{}` is accepted and its `}` pops the
empty stack: the run ends in the failed assertion. -/
theorem pop_on_empty_stack (garbage : Nat → Option LaxJsonState)
    (realloc_ok : Nat → Bool) :
    ((lax_json_feed (lax_json_create garbage realloc_ok) [123, 125]).context.state_stack_index
        = 0 ∧
      (lax_json_feed (lax_json_create garbage realloc_ok) [123, 125]).context.state
        = garbage 1) ∧
    ((lax_json_feed (lax_json_create (fun _ => some LaxJsonState.Value) (fun _ => true))
        [123, 125, 123, 125]).outcome = Outcome.assert_failed ∧
      (lax_json_feed (lax_json_create (fun _ => some LaxJsonState.Value) (fun _ => true))
        [123, 125, 123, 125]).events
        = [Event.begin LaxJsonType.Object, Event.end_ LaxJsonType.Object,
           Event.begin LaxJsonType.Object, Event.end_ LaxJsonType.Object]) ∧
    (∀ context : LaxJsonContext, context.state_stack_index = 0 →
      pop_state context = none) := by
  refine ⟨?_, ?_, fun context h => ?_⟩
  · simp [lax_json_feed, feed_byte, feed_byte_loop, dispatch, advance, lax_json_create,
      push_state, store_state, case_Value, case_Object, WHITESPACE, VALID_UNQUOTED,
      Step.fired, Step.break_, PUSH_STATE, POP_STATE, pop_state]
  · decide
  · simp [pop_state, h]


/-! ## The position counters -/

/-- C15: the column the source reports is not the 1-based column after the
first line.  A newline sets `column` to 1 (a fresh context starts at 0), so
the first byte of every later line is reported at column 2: on the two bytes
newline, `x` the call returns `LaxJsonErrorUnexpectedChar` while reading `x`,
the second byte, which is on line 2, column 1, and the context has line 2,
column 2.  On the first line the counters are right (`x` alone: line 1,
column 1). -/
theorem error_position (garbage : Nat → Option LaxJsonState) (realloc_ok : Nat → Bool) :
    ((lax_json_feed (lax_json_create garbage realloc_ok) [10, 120]).outcome
        = Outcome.returned LaxJsonError.UnexpectedChar ∧
      (lax_json_feed (lax_json_create garbage realloc_ok) [10]).outcome
        = Outcome.returned LaxJsonError.None ∧
      (lax_json_feed (lax_json_create garbage realloc_ok) [10, 120]).context.line = 2 ∧
      (lax_json_feed (lax_json_create garbage realloc_ok) [10, 120]).context.column = 2) ∧
    (byte_line [10, 120] 1 = 2 ∧ byte_column [10, 120] 1 = 1) ∧
    ((lax_json_feed (lax_json_create garbage realloc_ok) [120]).outcome
        = Outcome.returned LaxJsonError.UnexpectedChar ∧
      (lax_json_feed (lax_json_create garbage realloc_ok) [120]).context.line
        = byte_line [120] 0 ∧
      (lax_json_feed (lax_json_create garbage realloc_ok) [120]).context.column
        = byte_column [120] 0) ∧
    (∀ context : LaxJsonContext,
      (advance 10 context).line = context.line + 1 ∧ (advance 10 context).column = 1) ∧
    (∀ (c : Nat) (context : LaxJsonContext), c ≠ 10 →
      (advance c context).line = context.line ∧
      (advance c context).column = context.column + 1) := by
  refine ⟨?_, by decide, ?_, fun context => by simp [advance],
    fun c context hc => by simp [advance, hc]⟩
  · simp [lax_json_feed, feed_byte, feed_byte_loop, dispatch, advance, lax_json_create,
      push_state, store_state, case_Value, WHITESPACE, DIGIT, Step.fired, Step.break_,
      Step.return_]
  · simp [lax_json_feed, feed_byte, feed_byte_loop, dispatch, advance, lax_json_create,
      push_state, store_state, case_Value, WHITESPACE, DIGIT, Step.fired, Step.break_,
      Step.return_, byte_line, byte_column]


/-! ## Simple escapes and exponents -/

/-- A simple escape character in `StringEscape` state: the decoded byte is
appended and the state is left as it is. -/
theorem simple_escape_step (context : LaxJsonContext) (c d : Nat)
    (hs : context.state = some LaxJsonState.StringEscape)
    (hcd : (c, d) ∈ simple_escapes) (hroom : can_buffer context) :
    (feed_byte c context).quiet ∧
    (feed_byte c context).context.value_buffer = context.value_buffer ++ [d] ∧
    (feed_byte c context).context.state = some LaxJsonState.StringEscape := by
  have hroom2 := hroom
  simp only [can_buffer, LaxJsonContext.value_buffer_index] at hroom2
  have h := post_feed_byte (fun ctx evs flow =>
      (flow = Flow.next ∧ evs = []) ∧ ctx.value_buffer = context.value_buffer ++ [d] ∧
      ctx.state = some LaxJsonState.StringEscape)
    c context (by simp) (by
      simp only [simple_escapes, List.mem_cons, Prod.mk.injEq, List.mem_nil_iff,
        or_false] at hcd
      rcases hcd with ⟨h1, h2⟩ | ⟨h1, h2⟩ | ⟨h1, h2⟩ | ⟨h1, h2⟩ | ⟨h1, h2⟩ | ⟨h1, h2⟩ |
        ⟨h1, h2⟩ | ⟨h1, h2⟩ | ⟨h1, h2⟩ <;> subst h1 <;> subst h2 <;>
      simp only [dispatch, advance_state, hs, case_StringEscape, BUFFER_CHAR_eq, post_ite,
        post_break, post_return] <;>
      simp [can_buffer, LaxJsonContext.value_buffer_index, buffered, advance_value_buffer,
        advance_value_buffer_size, advance_max_value_buffer_size, advance_realloc_ok,
        advance_state, hs, hroom2])
  exact h

/-- C16: a simple escape does not leave `StringEscape` state in the source.
For each of `'`, `"`, `/`, `\`, `b`, `f`, `n`, `r`, `t` the decoded byte is
appended to the token buffer, but `context->state` is not assigned: the next
byte is read as another escape character.  On the bytes `"\n"` the closing
quote is appended as an escaped quote, no string callback fires and the
parser stays in `StringEscape` state. -/
theorem simple_escape_keeps_state (garbage : Nat → Option LaxJsonState)
    (realloc_ok : Nat → Bool) :
    (∀ (context : LaxJsonContext) (c d : Nat),
      context.state = some LaxJsonState.StringEscape → (c, d) ∈ simple_escapes →
      can_buffer context →
      (feed_byte c context).quiet ∧
      (feed_byte c context).context.value_buffer = context.value_buffer ++ [d] ∧
      (feed_byte c context).context.state = some LaxJsonState.StringEscape) ∧
    ((lax_json_feed (lax_json_create garbage realloc_ok) [34, 92, 110, 34]).outcome
        = Outcome.returned LaxJsonError.None ∧
      (lax_json_feed (lax_json_create garbage realloc_ok) [34, 92, 110, 34]).events = [] ∧
      (lax_json_feed (lax_json_create garbage realloc_ok) [34, 92, 110, 34]).context.state
        = some LaxJsonState.StringEscape ∧
      (lax_json_feed (lax_json_create garbage realloc_ok)
        [34, 92, 110, 34]).context.value_buffer = [10, 34]) := by
  refine ⟨fun context c d hs hcd hroom => simple_escape_step context c d hs hcd hroom, ?_⟩
  simp [lax_json_feed, feed_byte, feed_byte_loop, dispatch, advance, lax_json_create,
    push_state, store_state, case_Value, case_String, case_StringEscape, WHITESPACE,
    Step.fired, Step.break_, BUFFER_CHAR, buffer_char, LaxJsonContext.value_buffer_index]

/-- The pass for a sign in `NumberExponentSign` state: control falls into the
`NumberExponent` case, whose `default` label fires the number callback. -/
theorem exponent_sign_pass (context : LaxJsonContext) (c : Nat)
    (hs : context.state = some LaxJsonState.NumberExponentSign)
    (hc : c = 43 ∨ c = 45)
    (hroom : context.value_buffer.length + 2 ≤ context.value_buffer_size)
    (hi : context.state_stack_index ≠ 0) :
    (dispatch c context).flow = Flow.again ∧
    (dispatch c context).events = [Event.number (context.value_buffer ++ [c, 0])] ∧
    (dispatch c context).context.state = context.state_stack context.state_stack_index ∧
    (dispatch c context).context.state_stack_index = context.state_stack_index - 1 := by
  have hd : DIGIT c = false := by
    rcases hc with h | h <;> subst h <;> decide
  have h : Step.post (fun ctx evs flow =>
      flow = Flow.again ∧ evs = [Event.number (context.value_buffer ++ [c, 0])] ∧
      ctx.state = context.state_stack context.state_stack_index ∧
      ctx.state_stack_index = context.state_stack_index - 1) (dispatch c context) := by
    simp only [dispatch, hs, case_NumberExponentSign, case_NumberExponent, BUFFER_CHAR_eq,
      POP_STATE_eq, post_ite, post_break, post_return, post_fired, post_mk, post_die,
      post_case_Expect]
    have h1 : context.value_buffer.length < context.value_buffer_size := by omega
    have h2 : ¬ context.value_buffer_size ≤ context.value_buffer.length := by omega
    have h3 : context.value_buffer.length + 1 < context.value_buffer_size := by omega
    simp [hc, hd, hi, can_buffer, LaxJsonContext.value_buffer_index, buffered, popped,
      h1, h2, h3]
  exact h

/-- A digit in `NumberExponent` state: control falls into the `Expect` case,
which dereferences `context->expected`. -/
theorem exponent_digit_pass (context : LaxJsonContext) (c : Nat)
    (hs : context.state = some LaxJsonState.NumberExponent)
    (hc : DIGIT c = true) (hroom : can_buffer context)
    (he : context.expected = none) :
    (dispatch c context).flow = Flow.stop Outcome.undefined := by
  have hroom2 := hroom
  simp only [can_buffer, LaxJsonContext.value_buffer_index] at hroom2
  have h : Step.post (fun _ _ flow => flow = Flow.stop Outcome.undefined)
      (dispatch c context) := by
    simp only [dispatch, hs, case_NumberExponent, BUFFER_CHAR_eq,
      POP_STATE_eq, post_ite, post_break, post_return, post_fired, post_mk, post_die,
      post_case_Expect]
    simp [hc, can_buffer, LaxJsonContext.value_buffer_index, buffered, he, hroom2]
  exact h

/-- C17: the source fires the number callback when it reads the sign of the
exponent, not at the byte after the exponent digits.  No `break` follows the
inner `switch` of the `NumberExponentSign` case: after the sign is appended
control falls into the `default` label of the `NumberExponent` case, which
fires `number` with the text up to and including the sign, pops and rewinds.
After `1.5e` nothing has fired; at `+` the callback gets the text `1.5e+`;
with zero-filled stack memory `1.5e+3,` then fails with
`LaxJsonErrorUnexpectedChar` at `,`.  A digit read in `NumberExponent` state
falls into the `Expect` case, which dereferences the null `expected`. -/
theorem exponent_number_event (garbage : Nat → Option LaxJsonState)
    (realloc_ok : Nat → Bool) :
    (∀ (context : LaxJsonContext) (c : Nat),
      context.state = some LaxJsonState.NumberExponentSign → (c = 43 ∨ c = 45) →
      context.value_buffer.length + 2 ≤ context.value_buffer_size →
      context.state_stack_index ≠ 0 →
      (dispatch c context).flow = Flow.again ∧
      (dispatch c context).events = [Event.number (context.value_buffer ++ [c, 0])] ∧
      (dispatch c context).context.state = context.state_stack context.state_stack_index ∧
      (dispatch c context).context.state_stack_index = context.state_stack_index - 1) ∧
    ((lax_json_feed (lax_json_create garbage realloc_ok) [49, 46, 53, 101]).events = [] ∧
      (lax_json_feed (lax_json_create garbage realloc_ok) [49, 46, 53, 101]).context.state
        = some LaxJsonState.NumberExponentSign ∧
      (lax_json_feed (lax_json_create garbage realloc_ok)
        [49, 46, 53, 101]).context.value_buffer = [49, 46, 53, 101]) ∧
    ((lax_json_feed (lax_json_create (fun _ => some LaxJsonState.Value) (fun _ => true))
        [49, 46, 53, 101, 43]).events = [Event.number [49, 46, 53, 101, 43, 0]] ∧
      (lax_json_feed (lax_json_create (fun _ => some LaxJsonState.Value) (fun _ => true))
        [49, 46, 53, 101, 43, 51, 44]).events = [Event.number [49, 46, 53, 101, 43, 0]] ∧
      (lax_json_feed (lax_json_create (fun _ => some LaxJsonState.Value) (fun _ => true))
        [49, 46, 53, 101, 43, 51, 44]).outcome
        = Outcome.returned LaxJsonError.UnexpectedChar) ∧
    (∀ (context : LaxJsonContext) (c : Nat),
      context.state = some LaxJsonState.NumberExponent → DIGIT c = true →
      can_buffer context → context.expected = none →
      (dispatch c context).flow = Flow.stop Outcome.undefined) := by
  refine ⟨fun context c hs hc hroom hi => exponent_sign_pass context c hs hc hroom hi, ?_, ?_,
    fun context c hs hc hroom he => exponent_digit_pass context c hs hc hroom he⟩
  · simp [lax_json_feed, feed_byte, feed_byte_loop, dispatch, advance, lax_json_create,
      push_state, store_state, case_Value, case_Number, case_NumberDecimal, WHITESPACE,
      DIGIT, Step.fired, Step.break_, BUFFER_CHAR, buffer_char,
      LaxJsonContext.value_buffer_index]
  · decide


/-! ## The rewind of the `Array` case -/

theorem feed_byte_loop_of_not_again (fuel c : Nat) (context : LaxJsonContext)
    (h : (dispatch c (advance c context)).flow ≠ Flow.again) :
    feed_byte_loop (fuel + 1) c context = dispatch c (advance c context) := by
  simp only [feed_byte_loop]

theorem fired_nil (step : Step) : Step.fired [] step = step := by
  cases step
  simp [Step.fired]

/-- The `Value` case never rewinds and leaves the position counters alone. -/
theorem value_pass (c : Nat) (context : LaxJsonContext)
    (hs : context.state = some LaxJsonState.Value) :
    (dispatch c context).flow ≠ Flow.again ∧
    (dispatch c context).context.line = context.line ∧
    (dispatch c context).context.column = context.column := by
  have h : Step.post (fun ctx _ flow =>
      flow ≠ Flow.again ∧ ctx.line = context.line ∧ ctx.column = context.column)
      (dispatch c context) := by
    simp only [dispatch, hs, case_Value, PUSH_STATE_eq, post_ite, post_break, post_return,
      post_die, post_fired, post_mk]
    simp [stored, grown_stack]
  exact h

/-- The first pass for the start of an array element: the context after it is
the one `push_state` leaves when the state has been set to `Value`. -/
theorem array_element_first_pass (context : LaxJsonContext) (c : Nat)
    (hs : context.state = some LaxJsonState.Array)
    (hw : WHITESPACE c = false) (h1 : c ≠ 44) (h2 : c ≠ 47) (h3 : c ≠ 93)
    (hroom : can_push context) :
    dispatch c (advance c context) =
      ⟨stored (grown_stack { context with state := some LaxJsonState.Value })
          LaxJsonState.Array,
        [], Flow.again⟩ := by
  have h10 : c ≠ 10 := by
    intro h
    subst h
    simp [WHITESPACE] at hw
  have hroom1 : can_push { advance c context with state := some LaxJsonState.Value } := by
    simpa only [can_push, has_room, grown_stack, advance_state_stack_index,
      advance_state_stack_size, advance_max_state_stack_size, advance_realloc_ok] using hroom
  simp only [dispatch, advance_state, hs, case_Array, PUSH_STATE_eq, hw, h1, h2, h3,
    beq_iff_eq, Bool.false_or, if_false, if_pos hroom1, Bool.false_eq_true,
    decide_eq_true_eq]
  cases context
  simp [advance, h10, stored, grown_stack]

/-- The start of an array element is processed as in `Value` state after the
push. -/
theorem array_element_step (context : LaxJsonContext) (c : Nat)
    (hs : context.state = some LaxJsonState.Array)
    (hw : WHITESPACE c = false) (h1 : c ≠ 44) (h2 : c ≠ 47) (h3 : c ≠ 93)
    (hroom : can_push context) :
    feed_byte c context
      = feed_byte c
          (stored (grown_stack { context with state := some LaxJsonState.Value })
            LaxJsonState.Array) ∧
    (feed_byte c context).context.line = context.line ∧
    (feed_byte c context).context.column = context.column + 1 := by
  have h10 : c ≠ 10 := by
    intro h
    subst h
    simp [WHITESPACE] at hw
  have hp := array_element_first_pass context c hs hw h1 h2 h3 hroom
  have hst : (stored (grown_stack { context with state := some LaxJsonState.Value })
      LaxJsonState.Array).state = some LaxJsonState.Value := by
    simp [stored, grown_stack]
  have hln : (stored (grown_stack { context with state := some LaxJsonState.Value })
      LaxJsonState.Array).line = context.line := by
    simp [stored, grown_stack]
  have hcl : (stored (grown_stack { context with state := some LaxJsonState.Value })
      LaxJsonState.Array).column = context.column := by
    simp [stored, grown_stack]
  have hv := value_pass c (advance c
      (stored (grown_stack { context with state := some LaxJsonState.Value })
        LaxJsonState.Array)) (by rw [advance_state]; exact hst)
  have e1 : feed_byte c context
      = dispatch c (advance c
          (stored (grown_stack { context with state := some LaxJsonState.Value })
            LaxJsonState.Array)) := by
    unfold feed_byte
    rw [feed_byte_loop]
    simp only [hp]
    rw [feed_byte_loop_of_not_again _ _ _ hv.1, fired_nil]
  have e2 : feed_byte c
      (stored (grown_stack { context with state := some LaxJsonState.Value })
        LaxJsonState.Array)
      = dispatch c (advance c
          (stored (grown_stack { context with state := some LaxJsonState.Value })
            LaxJsonState.Array)) := feed_byte_of_not_again _ _ hv.1
  refine ⟨e1.trans e2.symm, ?_, ?_⟩
  · rw [e1, hv.2.1]
    simp [advance, h10, hln]
  · rw [e1, hv.2.2]
    simp [advance, h10, hcl]

/-- C18: the start of an array element is a faithful pushback.  For every
byte `c` other than whitespace, `,`, `/` and `]` and every context in `Array`
state on which the push succeeds, all passes for `c` leave the same context
(state, stack, token buffer and counters), fire the same callbacks and end the
same way (error code included) as the passes for `c` on the context that
`push_state(Array)` leaves with the state set to `Value`; the column counter
ends one higher than before `c` and the line counter is unchanged. -/
theorem array_element_pushback (context : LaxJsonContext) (c : Nat)
    (hs : context.state = some LaxJsonState.Array)
    (hw : WHITESPACE c = false) (h1 : c ≠ 44) (h2 : c ≠ 47) (h3 : c ≠ 93)
    (hroom : can_push context) :
    ∃ pushed,
      push_state { context with state := some LaxJsonState.Value } LaxJsonState.Array
        = some (LaxJsonError.None, pushed) ∧
      feed_byte c context = feed_byte c pushed ∧
      (feed_byte c context).context.line = context.line ∧
      (feed_byte c context).context.column = context.column + 1 := by
  refine ⟨stored (grown_stack { context with state := some LaxJsonState.Value })
    LaxJsonState.Array, ?_, array_element_step context c hs hw h1 h2 h3 hroom⟩
  rw [push_state_eq, if_pos (by
    simpa only [can_push, has_room, grown_stack] using hroom)]

/-- C18 for the byte `1` after the `[` of a fresh context. -/
theorem array_element_pushback_witness :
    ∃ pushed,
      push_state
        { (lax_json_feed (lax_json_create (fun _ => none) (fun _ => true)) [91]).context with
          state := some LaxJsonState.Value } LaxJsonState.Array
        = some (LaxJsonError.None, pushed) ∧
      feed_byte 49 (lax_json_feed (lax_json_create (fun _ => none) (fun _ => true))
          [91]).context
        = feed_byte 49 pushed ∧
      (feed_byte 49 (lax_json_feed (lax_json_create (fun _ => none) (fun _ => true))
          [91]).context).context.line
        = (lax_json_feed (lax_json_create (fun _ => none) (fun _ => true)) [91]).context.line ∧
      (feed_byte 49 (lax_json_feed (lax_json_create (fun _ => none) (fun _ => true))
          [91]).context).context.column
        = (lax_json_feed (lax_json_create (fun _ => none) (fun _ => true))
            [91]).context.column + 1 :=
  array_element_pushback
    (lax_json_feed (lax_json_create (fun _ => none) (fun _ => true)) [91]).context 49
    (by decide) (by decide) (by decide) (by decide) (by decide) (by decide)

/-! ## The literals `true`, `false` and `null` -/

theorem feed_cons_next_events (context : LaxJsonContext) (c : Nat) (data : List Nat)
    (h : (feed_byte c context).flow = Flow.next) :
    (lax_json_feed context (c :: data)).events
      = (feed_byte c context).events
        ++ (lax_json_feed (feed_byte c context).context data).events := by
  simp only [lax_json_feed, h]

/-- The first letter of a literal in `Value` state. -/
theorem value_literal_step (context : LaxJsonContext) (first : Nat) (rest : List Nat)
    (T : LaxJsonType) (hmem : (first, rest, T) ∈ literals)
    (hs : context.state = some LaxJsonState.Value) :
    (feed_byte first context).flow = Flow.next ∧
    (feed_byte first context).events = [Event.primitive T] ∧
    (feed_byte first context).context.state = some LaxJsonState.Expect ∧
    (feed_byte first context).context.expected = some rest ∧
    (feed_byte first context).context.state_stack_index = context.state_stack_index := by
  have h := post_feed_byte (fun ctx evs flow =>
      flow = Flow.next ∧ evs = [Event.primitive T] ∧
      ctx.state = some LaxJsonState.Expect ∧ ctx.expected = some rest ∧
      ctx.state_stack_index = context.state_stack_index)
    first context (by simp) (by
      simp only [literals, List.mem_cons, Prod.mk.injEq, List.mem_nil_iff, or_false] at hmem
      rcases hmem with ⟨h1, h2, h3⟩ | ⟨h1, h2, h3⟩ | ⟨h1, h2, h3⟩ <;>
      subst h1 <;> subst h2 <;> subst h3 <;>
      simp only [dispatch, advance_state, hs, case_Value, PUSH_STATE_eq, post_ite,
        post_break, post_return, post_die, post_fired, post_mk] <;>
      simp [WHITESPACE, DIGIT, advance_state_stack_index])
  exact h

/-- A letter of the literal that is not its last one. -/
theorem expect_mid_step (context : LaxJsonContext) (e r : Nat) (rest : List Nat)
    (hs : context.state = some LaxJsonState.Expect)
    (he : context.expected = some (e :: r :: rest)) (hr : r ≠ 0) :
    (feed_byte e context).quiet ∧
    (feed_byte e context).context.state = some LaxJsonState.Expect ∧
    (feed_byte e context).context.expected = some (r :: rest) ∧
    (feed_byte e context).context.state_stack_index = context.state_stack_index := by
  have h := post_feed_byte (fun ctx evs flow =>
      (flow = Flow.next ∧ evs = []) ∧ ctx.state = some LaxJsonState.Expect ∧
      ctx.expected = some (r :: rest) ∧
      ctx.state_stack_index = context.state_stack_index)
    e context (by simp) (by
      simp only [dispatch, advance_state, hs, post_case_Expect, advance_expected, he]
      simp [hr, Step.post, Step.break_, advance_state, hs, advance_state_stack_index])
  exact h

/-- The last letter of the literal: the stack is popped. -/
theorem expect_last_step (context : LaxJsonContext) (e : Nat)
    (hs : context.state = some LaxJsonState.Expect)
    (he : context.expected = some [e]) (hi : context.state_stack_index ≠ 0) :
    (feed_byte e context).quiet ∧
    (feed_byte e context).context.state_stack_index = context.state_stack_index - 1 := by
  have h := post_feed_byte (fun ctx evs flow =>
      (flow = Flow.next ∧ evs = []) ∧
      ctx.state_stack_index = context.state_stack_index - 1)
    e context (by simp) (by
      simp only [dispatch, advance_state, hs, post_case_Expect, advance_expected, he]
      simp [POP_STATE_eq, hi, Step.post, Step.break_, popped, advance_state_stack_index])
  exact h

/-- The last letter of the literal on an empty stack: the assertion of
`pop_state` fails. -/
theorem expect_last_step_empty (context : LaxJsonContext) (e : Nat)
    (hs : context.state = some LaxJsonState.Expect)
    (he : context.expected = some [e]) (hi : context.state_stack_index = 0) :
    (feed_byte e context).flow = Flow.stop Outcome.assert_failed ∧
    (feed_byte e context).events = [] := by
  have h := post_feed_byte (fun _ evs flow =>
      flow = Flow.stop Outcome.assert_failed ∧ evs = [])
    e context (by simp) (by
      simp only [dispatch, advance_state, hs, post_case_Expect, advance_expected, he]
      simp [POP_STATE_eq, hi, Step.post, Step.die, advance_state_stack_index])
  exact h

/-- A byte that differs from the expected letter. -/
theorem expect_mismatch_step (context : LaxJsonContext) (c : Nat) (s : List Nat)
    (hs : context.state = some LaxJsonState.Expect)
    (he : context.expected = some s) (hc : c ≠ s.headD 0) :
    (feed_byte c context).flow = Flow.stop (Outcome.returned LaxJsonError.UnexpectedChar) ∧
    (feed_byte c context).events = [] := by
  have h := post_feed_byte (fun _ evs flow =>
      flow = Flow.stop (Outcome.returned LaxJsonError.UnexpectedChar) ∧ evs = [])
    c context (by simp) (by
      simp only [dispatch, advance_state, hs, post_case_Expect, advance_expected, he]
      refine ⟨by simp, ?_, ?_, ?_⟩
      · intro hnil hc0
        simp only [Option.some.injEq] at hnil
        subst hnil
        exact absurd hc0 (by simpa using hc)
      · intro s' hs' _
        simp
      · intro rest hrest
        simp only [Option.some.injEq] at hrest
        subst hrest
        simp at hc)
  exact h

/-- A proper prefix of the remaining letters: nothing fires, nothing is
popped. -/
theorem expect_prefix (k : Nat) (s : List Nat) (context : LaxJsonContext)
    (hk : k < s.length) (hnz : ∀ x ∈ s, x ≠ 0)
    (hs : context.state = some LaxJsonState.Expect)
    (he : context.expected = some s) :
    (lax_json_feed context (s.take k)).outcome = Outcome.returned LaxJsonError.None ∧
    (lax_json_feed context (s.take k)).events = [] ∧
    (lax_json_feed context (s.take k)).context.state_stack_index
      = context.state_stack_index ∧
    (lax_json_feed context (s.take k)).context.state = some LaxJsonState.Expect ∧
    (lax_json_feed context (s.take k)).context.expected = some (s.drop k) := by
  induction k generalizing s context with
  | zero => exact ⟨rfl, rfl, rfl, hs, he⟩
  | succ k ih =>
    match s, hk, hnz, he with
    | e :: r :: rest, hk, hnz, he =>
      obtain ⟨hq, hst, hex, hidx⟩ := expect_mid_step context e r rest hs he
        (hnz r (by simp))
      have h := ih (r :: rest) (feed_byte e context).context
        (by simpa using hk) (fun x hx => hnz x (List.mem_cons_of_mem _ hx)) hst hex
      rw [List.take_succ_cons, feed_cons_quiet _ _ _ hq, List.drop_succ_cons]
      exact ⟨h.1, h.2.1, h.2.2.1.trans hidx, h.2.2.2.1, h.2.2.2.2⟩
    | [_], hk, _, _ => simp at hk

/-- All remaining letters: nothing fires and the stack is popped once. -/
theorem expect_full (s : List Nat) (context : LaxJsonContext)
    (hne : s ≠ []) (hnz : ∀ x ∈ s, x ≠ 0)
    (hs : context.state = some LaxJsonState.Expect)
    (he : context.expected = some s) (hi : context.state_stack_index ≠ 0) :
    (lax_json_feed context s).outcome = Outcome.returned LaxJsonError.None ∧
    (lax_json_feed context s).events = [] ∧
    (lax_json_feed context s).context.state_stack_index
      = context.state_stack_index - 1 := by
  induction s generalizing context with
  | nil => exact absurd rfl hne
  | cons e s ih =>
    cases s with
    | nil =>
      obtain ⟨hq, hidx⟩ := expect_last_step context e hs he hi
      rw [feed_cons_quiet _ _ _ hq]
      exact ⟨rfl, rfl, hidx⟩
    | cons r rest =>
      obtain ⟨hq, hst, hex, hidx⟩ := expect_mid_step context e r rest hs he
        (hnz r (by simp))
      have h := ih (feed_byte e context).context (by simp)
        (fun x hx => hnz x (List.mem_cons_of_mem _ hx)) hst hex (by rw [hidx]; exact hi)
      rw [feed_cons_quiet _ _ _ hq]
      exact ⟨h.1, h.2.1, by rw [h.2.2, hidx]⟩

/-- All remaining letters on an empty stack: nothing fires and the last
letter fails the assertion of `pop_state`. -/
theorem expect_full_empty (s : List Nat) (context : LaxJsonContext)
    (hne : s ≠ []) (hnz : ∀ x ∈ s, x ≠ 0)
    (hs : context.state = some LaxJsonState.Expect)
    (he : context.expected = some s) (hi : context.state_stack_index = 0) :
    (lax_json_feed context s).outcome = Outcome.assert_failed ∧
    (lax_json_feed context s).events = [] := by
  induction s generalizing context with
  | nil => exact absurd rfl hne
  | cons e s ih =>
    cases s with
    | nil =>
      obtain ⟨hf, hev⟩ := expect_last_step_empty context e hs he hi
      rw [feed_cons_stop _ _ _ _ hf]
      exact ⟨rfl, hev⟩
    | cons r rest =>
      obtain ⟨hq, hst, hex, hidx⟩ := expect_mid_step context e r rest hs he
        (hnz r (by simp))
      have h := ih (feed_byte e context).context (by simp)
        (fun x hx => hnz x (List.mem_cons_of_mem _ hx)) hst hex (by rw [hidx]; exact hi)
      rw [feed_cons_quiet _ _ _ hq]
      exact h

theorem literals_nonzero (first : Nat) (rest : List Nat) (T : LaxJsonType)
    (hmem : (first, rest, T) ∈ literals) : rest ≠ [] ∧ ∀ x ∈ rest, x ≠ 0 := by
  simp only [literals, List.mem_cons, Prod.mk.injEq, List.mem_nil_iff, or_false] at hmem
  rcases hmem with ⟨_, h2, _⟩ | ⟨_, h2, _⟩ | ⟨_, h2, _⟩ <;> subst h2 <;> simp

/-- C14: the callback part of the claim holds, the stack part does not.  For
each of the literals `true`, `false`, `null` read from `Value` state the
primitive callback of the literal fires once, when the first letter is read;
after any proper prefix no further callback has fired and the stack depth is
unchanged; a byte that differs from the expected next letter makes
`lax_json_feed` return `LaxJsonErrorUnexpectedChar`.  At the last letter the
depth is one less when the stack holds a state, but on an empty stack the
assertion of `pop_state` fails; and the source does reach `Value` state with an
empty stack: after `{}` on zero-filled stack memory the state is `Value` at
depth 0, and `{}true` fires `begin(Object)`, `end(Object)`,
`primitive(True)` and then fails the assertion at the final `e`. -/
theorem literal_events :
    (∀ (context : LaxJsonContext) (first : Nat) (rest : List Nat) (T : LaxJsonType),
      (first, rest, T) ∈ literals → context.state = some LaxJsonState.Value →
      (∀ k, k < rest.length →
        (lax_json_feed context (first :: rest.take k)).outcome
          = Outcome.returned LaxJsonError.None ∧
        (lax_json_feed context (first :: rest.take k)).events = [Event.primitive T] ∧
        (lax_json_feed context (first :: rest.take k)).context.state_stack_index
          = context.state_stack_index) ∧
      (lax_json_feed context (first :: rest)).events = [Event.primitive T] ∧
      (context.state_stack_index ≠ 0 →
        (lax_json_feed context (first :: rest)).outcome
          = Outcome.returned LaxJsonError.None ∧
        (lax_json_feed context (first :: rest)).context.state_stack_index
          = context.state_stack_index - 1) ∧
      (context.state_stack_index = 0 →
        (lax_json_feed context (first :: rest)).outcome = Outcome.assert_failed) ∧
      (∀ k c, k < rest.length → c ≠ rest.getD k 0 →
        (lax_json_feed context (first :: (rest.take k ++ [c]))).outcome
          = Outcome.returned LaxJsonError.UnexpectedChar ∧
        (lax_json_feed context (first :: (rest.take k ++ [c]))).events
          = [Event.primitive T])) ∧
    ((lax_json_feed (lax_json_create (fun _ => some LaxJsonState.Value) (fun _ => true))
        [123, 125]).outcome = Outcome.returned LaxJsonError.None ∧
      (lax_json_feed (lax_json_create (fun _ => some LaxJsonState.Value) (fun _ => true))
        [123, 125]).context.state = some LaxJsonState.Value ∧
      (lax_json_feed (lax_json_create (fun _ => some LaxJsonState.Value) (fun _ => true))
        [123, 125]).context.state_stack_index = 0 ∧
      (lax_json_feed (lax_json_create (fun _ => some LaxJsonState.Value) (fun _ => true))
        [123, 125, 116, 114, 117]).outcome = Outcome.returned LaxJsonError.None ∧
      (lax_json_feed (lax_json_create (fun _ => some LaxJsonState.Value) (fun _ => true))
        [123, 125, 116, 114, 117, 101]).events
        = [Event.begin LaxJsonType.Object, Event.end_ LaxJsonType.Object,
            Event.primitive LaxJsonType.True] ∧
      (lax_json_feed (lax_json_create (fun _ => some LaxJsonState.Value) (fun _ => true))
        [123, 125, 116, 114, 117, 101]).outcome = Outcome.assert_failed) := by
  refine ⟨fun context first rest T hmem hs => ?_, by decide⟩
  obtain ⟨hf, hev, hst, hex, hidx⟩ := value_literal_step context first rest T hmem hs
  obtain ⟨hne, hnz⟩ := literals_nonzero first rest T hmem
  refine ⟨fun k hk => ?_, ?_, fun hi => ?_, fun hi => ?_, fun k c hk hc => ?_⟩
  · obtain ⟨p1, p2, p3, _, _⟩ := expect_prefix k rest _ hk hnz hst hex
    rw [feed_cons_next_outcome _ _ _ hf, feed_cons_next_events _ _ _ hf,
      feed_cons_next_context _ _ _ hf, p1, p2, p3, hev, hidx]
    exact ⟨rfl, rfl, rfl⟩
  · rw [feed_cons_next_events _ _ _ hf, hev]
    by_cases hi : context.state_stack_index = 0
    · rw [(expect_full_empty rest _ hne hnz hst hex (by rw [hidx]; exact hi)).2]
      rfl
    · rw [(expect_full rest _ hne hnz hst hex (by rw [hidx]; exact hi)).2.1]
      rfl
  · obtain ⟨p1, _, p3⟩ := expect_full rest _ hne hnz hst hex (by rw [hidx]; exact hi)
    rw [feed_cons_next_outcome _ _ _ hf, feed_cons_next_context _ _ _ hf, p1, p3, hidx]
    exact ⟨rfl, rfl⟩
  · rw [feed_cons_next_outcome _ _ _ hf]
    exact (expect_full_empty rest _ hne hnz hst hex (by rw [hidx]; exact hi)).1
  · obtain ⟨p1, p2, _, p4, p5⟩ := expect_prefix k rest _ hk hnz hst hex
    have hhead : (rest.drop k).headD 0 = rest.getD k 0 := by
      rw [List.headD_eq_head?_getD, List.head?_drop, List.getD_eq_getElem?_getD]
    obtain ⟨m1, m2⟩ := expect_mismatch_step _ c (rest.drop k) p4 p5 (by rw [hhead]; exact hc)
    rw [feed_cons_next_outcome _ _ _ hf, feed_cons_next_events _ _ _ hf,
      feed_append_outcome _ _ _ p1, feed_append_events _ _ _ p1, p2,
      feed_cons_stop _ _ _ _ m1, hev, m2]
    exact ⟨rfl, rfl⟩

/-! ## Quoted strings -/

/-- An opening quote in `Value` state. -/
theorem value_quote_step (context : LaxJsonContext) (d : Nat)
    (hd : d = 34 ∨ d = 39) (hs : context.state = some LaxJsonState.Value) :
    (feed_byte d context).quiet ∧
    (feed_byte d context).context.state = some LaxJsonState.String ∧
    (feed_byte d context).context.delim = d ∧
    (feed_byte d context).context.value_buffer = [] ∧
    (feed_byte d context).context.string_type = context.string_type ∧
    (feed_byte d context).context.state_stack_index = context.state_stack_index := by
  have h := post_feed_byte (fun ctx evs flow =>
      (flow = Flow.next ∧ evs = []) ∧ ctx.state = some LaxJsonState.String ∧
      ctx.delim = d ∧ ctx.value_buffer = [] ∧ ctx.string_type = context.string_type ∧
      ctx.state_stack_index = context.state_stack_index)
    d context (by simp) (by
      rcases hd with h | h <;> subst h <;>
      simp only [dispatch, advance_state, hs, case_Value, PUSH_STATE_eq, post_ite,
        post_break, post_return, post_fired, post_mk] <;>
      simp [WHITESPACE, advance_string_type, advance_state_stack_index])
  exact h

/-- An ordinary byte in `String` state leaves the type tag and the stack
alone. -/
theorem string_char_frame (context : LaxJsonContext) (c : Nat)
    (hs : context.state = some LaxJsonState.String)
    (hd : c ≠ context.delim) (hc : c ≠ 92) (hroom : can_buffer context) :
    (feed_byte c context).context.string_type = context.string_type ∧
    (feed_byte c context).context.state_stack_index = context.state_stack_index := by
  have hroom2 := hroom
  simp only [can_buffer, LaxJsonContext.value_buffer_index] at hroom2
  have h := post_feed_byte (fun ctx _ flow =>
      flow ≠ Flow.again ∧ ctx.string_type = context.string_type ∧
      ctx.state_stack_index = context.state_stack_index)
    c context (by simp) (by
      simp only [dispatch, advance_state, hs, case_String, advance_delim, BUFFER_CHAR_eq,
        POP_STATE_eq, post_ite, post_break, post_return, post_fired, post_die]
      simp [hd, hc, can_buffer, LaxJsonContext.value_buffer_index, buffered,
        advance_value_buffer, advance_value_buffer_size, advance_max_value_buffer_size,
        advance_realloc_ok, advance_string_type, advance_state_stack_index, hroom2])
  exact h.2

/-- The body of a string: every byte is appended, nothing fires. -/
theorem string_body_run (r : Nat → Bool) (hr : ∀ n, r n = true) (body : List Nat)
    (context : LaxJsonContext)
    (hs : context.state = some LaxJsonState.String)
    (hb : ∀ c ∈ body, c ≠ context.delim ∧ c ≠ 92)
    (hinv : buffer_inv r context)
    (hlen : context.value_buffer.length + body.length ≤ 1033216) :
    (lax_json_feed context body).outcome = Outcome.returned LaxJsonError.None ∧
    (lax_json_feed context body).events = [] ∧
    (lax_json_feed context body).context.state = some LaxJsonState.String ∧
    (lax_json_feed context body).context.delim = context.delim ∧
    (lax_json_feed context body).context.string_type = context.string_type ∧
    (lax_json_feed context body).context.state_stack_index = context.state_stack_index ∧
    buffer_inv r (lax_json_feed context body).context ∧
    (lax_json_feed context body).context.value_buffer = context.value_buffer ++ body := by
  induction body generalizing context with
  | nil => exact ⟨rfl, rfl, hs, rfl, rfl, rfl, hinv, by simp [lax_json_feed]⟩
  | cons c body ih =>
    simp only [List.length_cons] at hlen
    have hc := hb c (List.mem_cons_self _ _)
    have hroom := can_buffer_of_inv r context hinv hr (by omega)
    obtain ⟨hq, hst, hdl, hbuf⟩ := string_char_step context c hs hc.1 hc.2 hroom
    obtain ⟨hty, hidx⟩ := string_char_frame context c hs hc.1 hc.2 hroom
    have hinv2 : buffer_inv r (feed_byte c context).context :=
      (buffer_inv_feed_byte_loop r c _ context hinv).2 hq.1
    obtain ⟨h1, h2, h3, h4, h5, h6, h7, h8⟩ :=
      ih (feed_byte c context).context hst
        (fun e he => by rw [hdl]; exact hb e (List.mem_cons_of_mem _ he)) hinv2
        (by rw [hbuf, List.length_append, List.length_singleton]; omega)
    rw [feed_cons_quiet _ _ _ hq]
    exact ⟨h1, h2, h3, h4.trans hdl, h5.trans hty, h6.trans hidx, h7,
      by rw [h8, hbuf, List.append_assoc, List.singleton_append]⟩

/-- The closing delimiter: the terminator is appended and the string callback
fires with the buffer and its length, before `pop_state`. -/
theorem string_close_step (context : LaxJsonContext)
    (hs : context.state = some LaxJsonState.String) (hroom : can_buffer context) :
    (feed_byte context.delim context).events
      = [Event.string context.string_type (context.value_buffer ++ [0])
          (context.value_buffer.length + 1)] ∧
    (context.state_stack_index ≠ 0 → (feed_byte context.delim context).flow = Flow.next) ∧
    (context.state_stack_index = 0 →
      (feed_byte context.delim context).flow = Flow.stop Outcome.assert_failed) := by
  have hroom2 := hroom
  simp only [can_buffer, LaxJsonContext.value_buffer_index] at hroom2
  have h := post_feed_byte (fun _ evs flow =>
      evs = [Event.string context.string_type (context.value_buffer ++ [0])
          (context.value_buffer.length + 1)] ∧
      (context.state_stack_index ≠ 0 → flow = Flow.next) ∧
      (context.state_stack_index = 0 → flow = Flow.stop Outcome.assert_failed))
    context.delim context (by
      intro ctx evs h
      by_cases hi : context.state_stack_index = 0
      · exact absurd (h.2.2 hi) (by simp)
      · exact absurd (h.2.1 hi) (by simp)) (by
      simp only [dispatch, advance_state, hs, case_String, advance_delim, BUFFER_CHAR_eq,
        POP_STATE_eq, post_ite, post_break, post_return, post_fired, post_die]
      simp [can_buffer, LaxJsonContext.value_buffer_index, buffered,
        advance_value_buffer, advance_value_buffer_size, advance_max_value_buffer_size,
        advance_realloc_ok, advance_string_type, advance_state_stack_index, hroom2])
  exact h

/-- C20: for each delimiter `d` (`"` or `'`) and every body that contains
neither `d` nor a backslash and fits the buffer (its bytes and the terminator
within the 1033216 bytes a running context can hold), feeding `d`, the body
and `d` in `Value` state fires exactly one callback, the string callback, when
the closing `d` is read: nothing has fired after `d` and the body; the payload
is the body followed by one NUL byte and the reported length is
`|body| + 1`.  The other quote character may occur in the body.  With a
non-empty state stack the call returns `LaxJsonErrorNone`. -/
theorem quoted_string_event (r : Nat → Bool) (context : LaxJsonContext) (d : Nat)
    (body : List Nat)
    (hs : context.state = some LaxJsonState.Value) (hd : d = 34 ∨ d = 39)
    (hb : ∀ c ∈ body, c ≠ d ∧ c ≠ 92)
    (hinv : buffer_inv r context) (hr : ∀ n, r n = true)
    (hfit : body.length + 1 ≤ 1033216) :
    (lax_json_feed context (d :: body)).outcome = Outcome.returned LaxJsonError.None ∧
    (lax_json_feed context (d :: body)).events = [] ∧
    (lax_json_feed context ((d :: body) ++ [d])).events
      = [Event.string context.string_type (body ++ [0]) (body.length + 1)] ∧
    (context.state_stack_index ≠ 0 →
      (lax_json_feed context ((d :: body) ++ [d])).outcome
        = Outcome.returned LaxJsonError.None) := by
  obtain ⟨hq, hst, hdl, hbuf, hty, hidx⟩ := value_quote_step context d hd hs
  have hinv1 : buffer_inv r (feed_byte d context).context :=
    (buffer_inv_feed_byte_loop r d _ context hinv).2 hq.1
  obtain ⟨b1, b2, b3, b4, b5, b6, b7, b8⟩ := string_body_run r hr body _ hst
    (fun c hc => by rw [hdl]; exact hb c hc) hinv1 (by rw [hbuf]; simp; omega)
  rw [hbuf, List.nil_append] at b8
  have ho : (lax_json_feed context (d :: body)).outcome
      = Outcome.returned LaxJsonError.None := by
    rw [feed_cons_quiet _ _ _ hq]; exact b1
  have hc : (lax_json_feed context (d :: body)).context
      = (lax_json_feed (feed_byte d context).context body).context := by
    rw [feed_cons_quiet _ _ _ hq]
  have hev : (lax_json_feed context (d :: body)).events = [] := by
    rw [feed_cons_quiet _ _ _ hq]; exact b2
  have hroom : can_buffer (lax_json_feed (feed_byte d context).context body).context :=
    can_buffer_of_inv r _ b7 hr (by rw [b8]; omega)
  obtain ⟨c1, c2, _⟩ := string_close_step _ b3 hroom
  rw [b4, hdl, b5, hty, b8] at c1
  rw [b4, hdl] at c2
  refine ⟨ho, hev, ?_, fun hi => ?_⟩
  · rw [feed_append_events _ _ _ ho, hev, List.nil_append, hc]
    by_cases hi : context.state_stack_index = 0
    · have hflow := (string_close_step _ b3 hroom).2.2 (by rw [b6, hidx]; exact hi)
      rw [b4, hdl] at hflow
      rw [feed_cons_stop _ _ _ _ hflow]
      exact c1
    · have hflow := c2 (by rw [b6, hidx]; exact hi)
      rw [feed_cons_next_events _ _ _ hflow, c1]
      simp [lax_json_feed]
  · have hflow := c2 (by rw [b6, hidx]; exact hi)
    rw [feed_append_outcome _ _ _ ho, hc, feed_cons_next_outcome _ _ _ hflow]
    rfl

/-- C20 for the bytes `"it's"` on a fresh context. -/
theorem quoted_string_event_witness :
    (lax_json_feed (lax_json_create (fun _ => none) (fun _ => true))
      (34 :: [105, 116, 39, 115])).outcome = Outcome.returned LaxJsonError.None ∧
    (lax_json_feed (lax_json_create (fun _ => none) (fun _ => true))
      (34 :: [105, 116, 39, 115])).events = [] ∧
    (lax_json_feed (lax_json_create (fun _ => none) (fun _ => true))
      ((34 :: [105, 116, 39, 115]) ++ [34])).events
      = [Event.string (lax_json_create (fun _ => none) (fun _ => true)).string_type
          ([105, 116, 39, 115] ++ [0]) ([105, 116, 39, 115].length + 1)] ∧
    ((lax_json_create (fun _ => none) (fun _ => true)).state_stack_index ≠ 0 →
      (lax_json_feed (lax_json_create (fun _ => none) (fun _ => true))
        ((34 :: [105, 116, 39, 115]) ++ [34])).outcome
        = Outcome.returned LaxJsonError.None) :=
  quoted_string_event (fun _ => true) (lax_json_create (fun _ => none) (fun _ => true)) 34
    [105, 116, 39, 115] (by decide) (Or.inl rfl) (by decide)
    (buffer_inv_create (fun _ => none) (fun _ => true)) (fun _ => rfl) (by decide)


/-! ## Block comments -/

/-- The byte `*` after `/`: the block comment is open. -/
theorem comment_block_begin_step (context : LaxJsonContext)
    (hs : context.state = some LaxJsonState.CommentBegin) :
    (feed_byte 42 context).quiet ∧
    (feed_byte 42 context).context.state = some LaxJsonState.CommentMultiLine ∧
    (feed_byte 42 context).context.state_stack_index = context.state_stack_index ∧
    (feed_byte 42 context).context.state_stack = context.state_stack := by
  have h := post_feed_byte (fun ctx evs flow =>
      (flow = Flow.next ∧ evs = []) ∧ ctx.state = some LaxJsonState.CommentMultiLine ∧
      ctx.state_stack_index = context.state_stack_index ∧
      ctx.state_stack = context.state_stack)
    42 context (by simp) (by
      simp only [dispatch, advance_state, hs, case_CommentBegin, post_ite, post_break,
        post_return]
      simp [advance_state_stack, advance_state_stack_index])
  exact h

/-- A byte other than `*` in `CommentMultiLine` state. -/
theorem comment_block_other_step (context : LaxJsonContext) (c : Nat)
    (hs : context.state = some LaxJsonState.CommentMultiLine) (hc : c ≠ 42) :
    (feed_byte c context).quiet ∧
    (feed_byte c context).context.state = some LaxJsonState.CommentMultiLine ∧
    (feed_byte c context).context.state_stack_index = context.state_stack_index ∧
    (feed_byte c context).context.state_stack = context.state_stack := by
  have h := post_feed_byte (fun ctx evs flow =>
      (flow = Flow.next ∧ evs = []) ∧ ctx.state = some LaxJsonState.CommentMultiLine ∧
      ctx.state_stack_index = context.state_stack_index ∧
      ctx.state_stack = context.state_stack)
    c context (by simp) (by
      simp only [dispatch, advance_state, hs, case_CommentMultiLine, post_ite, post_break]
      simp [hc, advance_state_stack, advance_state_stack_index, advance_state, hs])
  exact h

/-- The byte `*` in `CommentMultiLine` state. -/
theorem comment_block_star_step (context : LaxJsonContext)
    (hs : context.state = some LaxJsonState.CommentMultiLine) :
    (feed_byte 42 context).quiet ∧
    (feed_byte 42 context).context.state = some LaxJsonState.CommentMultiLineStar ∧
    (feed_byte 42 context).context.state_stack_index = context.state_stack_index ∧
    (feed_byte 42 context).context.state_stack = context.state_stack := by
  have h := post_feed_byte (fun ctx evs flow =>
      (flow = Flow.next ∧ evs = []) ∧ ctx.state = some LaxJsonState.CommentMultiLineStar ∧
      ctx.state_stack_index = context.state_stack_index ∧
      ctx.state_stack = context.state_stack)
    42 context (by simp) (by
      simp only [dispatch, advance_state, hs, case_CommentMultiLine, post_ite, post_break]
      simp [advance_state_stack, advance_state_stack_index])
  exact h

/-- A byte other than `/` in `CommentMultiLineStar` state, a further `*`
included: the state goes back to `CommentMultiLine`. -/
theorem comment_star_other_step (context : LaxJsonContext) (c : Nat)
    (hs : context.state = some LaxJsonState.CommentMultiLineStar) (hc : c ≠ 47) :
    (feed_byte c context).quiet ∧
    (feed_byte c context).context.state = some LaxJsonState.CommentMultiLine ∧
    (feed_byte c context).context.state_stack_index = context.state_stack_index ∧
    (feed_byte c context).context.state_stack = context.state_stack := by
  have h := post_feed_byte (fun ctx evs flow =>
      (flow = Flow.next ∧ evs = []) ∧ ctx.state = some LaxJsonState.CommentMultiLine ∧
      ctx.state_stack_index = context.state_stack_index ∧
      ctx.state_stack = context.state_stack)
    c context (by simp) (by
      simp only [dispatch, advance_state, hs, case_CommentMultiLineStar, POP_STATE_eq,
        post_ite, post_break, post_die]
      simp [hc, advance_state_stack, advance_state_stack_index])
  exact h

/-- The byte `/` in `CommentMultiLineStar` state: the comment is left by
`pop_state`. -/
theorem comment_star_slash_step (context : LaxJsonContext)
    (hs : context.state = some LaxJsonState.CommentMultiLineStar)
    (hi : context.state_stack_index ≠ 0) :
    (feed_byte 47 context).quiet ∧
    (feed_byte 47 context).context.state = context.state_stack context.state_stack_index ∧
    (feed_byte 47 context).context.state_stack_index = context.state_stack_index - 1 ∧
    (feed_byte 47 context).context.state_stack = context.state_stack := by
  have h := post_feed_byte (fun ctx evs flow =>
      (flow = Flow.next ∧ evs = []) ∧
      ctx.state = context.state_stack context.state_stack_index ∧
      ctx.state_stack_index = context.state_stack_index - 1 ∧
      ctx.state_stack = context.state_stack)
    47 context (by simp) (by
      simp only [dispatch, advance_state, hs, case_CommentMultiLineStar, POP_STATE_eq,
        post_ite, post_break, post_die]
      simp [hi, popped, advance_state_stack, advance_state_stack_index])
  exact h

/-- The byte `/` in `CommentMultiLine` state is comment text. -/
theorem comment_block_slash_step (context : LaxJsonContext)
    (hs : context.state = some LaxJsonState.CommentMultiLine) :
    (feed_byte 47 context).quiet ∧
    (feed_byte 47 context).context.state = some LaxJsonState.CommentMultiLine ∧
    (feed_byte 47 context).context.state_stack_index = context.state_stack_index ∧
    (feed_byte 47 context).context.state_stack = context.state_stack :=
  comment_block_other_step context 47 hs (by decide)

/-- Comment text without `*` leaves the parser in `CommentMultiLine` state. -/
theorem comment_block_text (pre : List Nat) (rest : List Nat) (context : LaxJsonContext)
    (hs : context.state = some LaxJsonState.CommentMultiLine) (hb : ∀ c ∈ pre, c ≠ 42) :
    ∃ ctx, lax_json_feed context (pre ++ rest) = lax_json_feed ctx rest ∧
      ctx.state = some LaxJsonState.CommentMultiLine ∧
      ctx.state_stack_index = context.state_stack_index ∧
      ctx.state_stack = context.state_stack := by
  induction pre generalizing context with
  | nil => exact ⟨context, rfl, hs, rfl, rfl⟩
  | cons c pre ih =>
    obtain ⟨hq, hst, hidx, hstack⟩ :=
      comment_block_other_step context c hs (hb c (List.mem_cons_self _ _))
    obtain ⟨ctx, h1, h2, h3, h4⟩ :=
      ih (feed_byte c context).context hst (fun e he => hb e (List.mem_cons_of_mem _ he))
    refine ⟨ctx, ?_, h2, h3.trans hidx, h4.trans hstack⟩
    rw [List.cons_append, feed_cons_quiet _ _ _ hq, h1]

/-- An even number of `*` read in `CommentMultiLine` state leaves the parser
in `CommentMultiLine` state: the second `*` of each pair undoes the first. -/
theorem comment_star_pairs (j : Nat) (rest : List Nat) (context : LaxJsonContext)
    (hs : context.state = some LaxJsonState.CommentMultiLine) :
    ∃ ctx, lax_json_feed context (List.replicate (2 * j) 42 ++ rest) = lax_json_feed ctx rest ∧
      ctx.state = some LaxJsonState.CommentMultiLine ∧
      ctx.state_stack_index = context.state_stack_index ∧
      ctx.state_stack = context.state_stack := by
  induction j generalizing context with
  | zero => exact ⟨context, rfl, hs, rfl, rfl⟩
  | succ j ih =>
    obtain ⟨q1, st1, i1, k1⟩ := comment_block_star_step context hs
    obtain ⟨q2, st2, i2, k2⟩ := comment_star_other_step _ 42 st1 (by decide)
    obtain ⟨ctx, h1, h2, h3, h4⟩ := ih (feed_byte 42 (feed_byte 42 context).context).context st2
    refine ⟨ctx, ?_, h2, ?_, ?_⟩
    · have e : List.replicate (2 * (j + 1)) 42 = 42 :: 42 :: List.replicate (2 * j) 42 := by
        rw [show 2 * (j + 1) = 2 * j + 1 + 1 by ring, List.replicate_succ, List.replicate_succ]
      rw [e, List.cons_append, List.cons_append, feed_cons_quiet _ _ _ q1,
        feed_cons_quiet _ _ _ q2, h1]
    · rw [h3, i2, i1]
    · rw [h4, k2, k1]

/-- Text without `*`, then an odd number of `*`, then `/`: the comment is left
at that `/`. -/
theorem comment_block_odd_run (pre : List Nat) (j : Nat) (context : LaxJsonContext)
    (hs : context.state = some LaxJsonState.CommentMultiLine)
    (hi : context.state_stack_index ≠ 0) (hb : ∀ c ∈ pre, c ≠ 42) :
    (lax_json_feed context (pre ++ List.replicate (2 * j + 1) 42 ++ [47])).outcome
      = Outcome.returned LaxJsonError.None ∧
    (lax_json_feed context (pre ++ List.replicate (2 * j + 1) 42 ++ [47])).events = [] ∧
    (lax_json_feed context (pre ++ List.replicate (2 * j + 1) 42 ++ [47])).context.state
      = context.state_stack context.state_stack_index ∧
    (lax_json_feed context
      (pre ++ List.replicate (2 * j + 1) 42 ++ [47])).context.state_stack_index
      = context.state_stack_index - 1 := by
  obtain ⟨c1, e1, s1, i1, k1⟩ :=
    comment_block_text pre (List.replicate (2 * j + 1) 42 ++ [47]) context hs hb
  obtain ⟨c2, e2, s2, i2, k2⟩ := comment_star_pairs j ([42] ++ [47]) c1 s1
  obtain ⟨q3, s3, i3, k3⟩ := comment_block_star_step c2 s2
  have hi3 : (feed_byte 42 c2).context.state_stack_index ≠ 0 := by
    rw [i3, i2, i1]; exact hi
  obtain ⟨q4, s4, i4, _⟩ := comment_star_slash_step _ s3 hi3
  have e : lax_json_feed context (pre ++ List.replicate (2 * j + 1) 42 ++ [47])
      = lax_json_feed (feed_byte 47 (feed_byte 42 c2).context).context [] := by
    have er : List.replicate (2 * j + 1) 42 = List.replicate (2 * j) 42 ++ [42] := by
      rw [List.replicate_add]
      rfl
    rw [List.append_assoc, e1, er, List.append_assoc, e2,
      List.singleton_append, feed_cons_quiet _ _ _ q3, feed_cons_quiet _ _ _ q4]
  rw [e]
  refine ⟨rfl, rfl, ?_, ?_⟩
  · simp only [lax_json_feed]
    rw [s4, i3, i2, i1, k3, k2, k1]
  · simp only [lax_json_feed]
    rw [i4, i3, i2, i1]

/-- Text without `*`, then an even number of `*`, then `/`: the `/` is read in
`CommentMultiLine` state and the comment stays open. -/
theorem comment_block_even_run (pre : List Nat) (j : Nat) (context : LaxJsonContext)
    (hs : context.state = some LaxJsonState.CommentMultiLine) (hb : ∀ c ∈ pre, c ≠ 42) :
    (lax_json_feed context (pre ++ List.replicate (2 * j) 42 ++ [47])).outcome
      = Outcome.returned LaxJsonError.None ∧
    (lax_json_feed context (pre ++ List.replicate (2 * j) 42 ++ [47])).events = [] ∧
    (lax_json_feed context (pre ++ List.replicate (2 * j) 42 ++ [47])).context.state
      = some LaxJsonState.CommentMultiLine ∧
    (lax_json_feed context (pre ++ List.replicate (2 * j) 42 ++ [47])).context.state_stack_index
      = context.state_stack_index := by
  obtain ⟨c1, e1, s1, i1, _⟩ :=
    comment_block_text pre (List.replicate (2 * j) 42 ++ [47]) context hs hb
  obtain ⟨c2, e2, s2, i2, _⟩ := comment_star_pairs j [47] c1 s1
  obtain ⟨q3, s3, i3, _⟩ := comment_block_slash_step c2 s2
  have e : lax_json_feed context (pre ++ List.replicate (2 * j) 42 ++ [47])
      = lax_json_feed (feed_byte 47 c2).context [] := by
    rw [List.append_assoc, e1, e2, feed_cons_quiet _ _ _ q3]
  rw [e]
  refine ⟨rfl, rfl, ?_, ?_⟩
  · simp only [lax_json_feed]
    exact s3
  · simp only [lax_json_feed]
    rw [i3, i2, i1]

/-- No pop before the first `*/`: on text in which `*/` does not occur, read in
`CommentMultiLine` state or in `CommentMultiLineStar` state before a byte other
than `/`, no callback fires, no error is returned, the stack is unchanged and
the parser is still in one of the two states. -/
theorem comment_block_open (body : List Nat) (context : LaxJsonContext)
    (hs : context.state = some LaxJsonState.CommentMultiLine ∨
      (context.state = some LaxJsonState.CommentMultiLineStar ∧ body.head? ≠ some 47))
    (hb : ¬ [42, 47] <:+: body) :
    (lax_json_feed context body).outcome = Outcome.returned LaxJsonError.None ∧
    (lax_json_feed context body).events = [] ∧
    ((lax_json_feed context body).context.state = some LaxJsonState.CommentMultiLine ∨
      (lax_json_feed context body).context.state = some LaxJsonState.CommentMultiLineStar) ∧
    (lax_json_feed context body).context.state_stack_index = context.state_stack_index ∧
    (lax_json_feed context body).context.state_stack = context.state_stack := by
  induction body generalizing context with
  | nil =>
    refine ⟨rfl, rfl, ?_, rfl, rfl⟩
    simp only [lax_json_feed]
    rcases hs with h | h
    · exact Or.inl h
    · exact Or.inr h.1
  | cons c body ih =>
    have hb2 : ¬ [42, 47] <:+: body := by
      rintro ⟨s, t, h⟩
      exact hb ⟨c :: s, t, by rw [← h]; simp⟩
    rcases hs with hs | ⟨hs, hh⟩
    · by_cases hc : c = 42
      · subst hc
        obtain ⟨q, st, i, k⟩ := comment_block_star_step context hs
        have hne : body.head? ≠ some 47 := by
          intro h47
          apply hb
          cases body with
          | nil => simp at h47
          | cons d body =>
            simp only [List.head?_cons, Option.some.injEq] at h47
            subst h47
            exact ⟨[], body, rfl⟩
        obtain ⟨h1, h2, h3, h4, h5⟩ := ih _ (Or.inr ⟨st, hne⟩) hb2
        rw [feed_cons_quiet _ _ _ q]
        exact ⟨h1, h2, h3, h4.trans i, h5.trans k⟩
      · obtain ⟨q, st, i, k⟩ := comment_block_other_step context c hs hc
        obtain ⟨h1, h2, h3, h4, h5⟩ := ih _ (Or.inl st) hb2
        rw [feed_cons_quiet _ _ _ q]
        exact ⟨h1, h2, h3, h4.trans i, h5.trans k⟩
    · have hc : c ≠ 47 := by
        intro h47
        apply hh
        simp [h47]
      obtain ⟨q, st, i, k⟩ := comment_star_other_step context c hs hc
      obtain ⟨h1, h2, h3, h4, h5⟩ := ih _ (Or.inl st) hb2
      rw [feed_cons_quiet _ _ _ q]
      exact ⟨h1, h2, h3, h4.trans i, h5.trans k⟩

/-- C21: a block comment does not always end at the first `*/`.  In
`CommentMultiLineStar` state every byte other than `/`, a further `*` included,
sets the state back to `CommentMultiLine`, so the parser forgets that it has
just read a `*`.  After text without `*`, a run of `*` followed by `/` leaves
the comment at that `/` when the run has odd length, and leaves the comment
open, the `/` read as comment text, when the run has even length, although the run
and the `/` end in the first `*/` in both cases.  On a fresh context `/**/` and
`/****/` return to stack depth 1, while after `/***/` the parser is still in
`CommentMultiLine` state at depth 2 and the following `{}` fires no callback.
The other direction holds: on text in which `*/` does not occur the comment is
never left. -/
theorem block_comment_end (garbage : Nat → Option LaxJsonState) (realloc_ok : Nat → Bool) :
    (∀ (context : LaxJsonContext) (c : Nat),
      context.state = some LaxJsonState.CommentMultiLineStar → c ≠ 47 →
      (feed_byte c context).quiet ∧
      (feed_byte c context).context.state = some LaxJsonState.CommentMultiLine) ∧
    (∀ (context : LaxJsonContext) (pre : List Nat) (j : Nat),
      context.state = some LaxJsonState.CommentMultiLine →
      context.state_stack_index ≠ 0 → (∀ c ∈ pre, c ≠ 42) →
      (lax_json_feed context (pre ++ List.replicate (2 * j + 1) 42 ++ [47])).outcome
        = Outcome.returned LaxJsonError.None ∧
      (lax_json_feed context (pre ++ List.replicate (2 * j + 1) 42 ++ [47])).events = [] ∧
      (lax_json_feed context (pre ++ List.replicate (2 * j + 1) 42 ++ [47])).context.state
        = context.state_stack context.state_stack_index ∧
      (lax_json_feed context
        (pre ++ List.replicate (2 * j + 1) 42 ++ [47])).context.state_stack_index
        = context.state_stack_index - 1) ∧
    (∀ (context : LaxJsonContext) (pre : List Nat) (j : Nat),
      context.state = some LaxJsonState.CommentMultiLine → (∀ c ∈ pre, c ≠ 42) →
      (lax_json_feed context (pre ++ List.replicate (2 * j + 2) 42 ++ [47])).outcome
        = Outcome.returned LaxJsonError.None ∧
      (lax_json_feed context (pre ++ List.replicate (2 * j + 2) 42 ++ [47])).events = [] ∧
      (lax_json_feed context (pre ++ List.replicate (2 * j + 2) 42 ++ [47])).context.state
        = some LaxJsonState.CommentMultiLine ∧
      (lax_json_feed context
        (pre ++ List.replicate (2 * j + 2) 42 ++ [47])).context.state_stack_index
        = context.state_stack_index) ∧
    (∀ (context : LaxJsonContext) (body : List Nat),
      context.state = some LaxJsonState.CommentMultiLine → ¬ [42, 47] <:+: body →
      (lax_json_feed context body).outcome = Outcome.returned LaxJsonError.None ∧
      (lax_json_feed context body).events = [] ∧
      ((lax_json_feed context body).context.state = some LaxJsonState.CommentMultiLine ∨
        (lax_json_feed context body).context.state
          = some LaxJsonState.CommentMultiLineStar) ∧
      (lax_json_feed context body).context.state_stack_index = context.state_stack_index) ∧
    ((lax_json_create garbage realloc_ok).state_stack_index = 1 ∧
      (lax_json_feed (lax_json_create garbage realloc_ok) [47, 42]).context.state
        = some LaxJsonState.CommentMultiLine ∧
      (lax_json_feed (lax_json_create garbage realloc_ok) [47, 42]).context.state_stack_index
        = 2 ∧
      (lax_json_feed (lax_json_create garbage realloc_ok)
        [47, 42, 42, 47]).context.state_stack_index = 1 ∧
      (lax_json_feed (lax_json_create garbage realloc_ok)
        [47, 42, 42, 42, 42, 47]).context.state_stack_index = 1 ∧
      (lax_json_feed (lax_json_create garbage realloc_ok) [47, 42, 42, 42, 47]).outcome
        = Outcome.returned LaxJsonError.None ∧
      (lax_json_feed (lax_json_create garbage realloc_ok) [47, 42, 42, 42, 47]).context.state
        = some LaxJsonState.CommentMultiLine ∧
      (lax_json_feed (lax_json_create garbage realloc_ok)
        [47, 42, 42, 42, 47]).context.state_stack_index = 2 ∧
      (lax_json_feed (lax_json_create garbage realloc_ok)
        [47, 42, 42, 42, 47, 123, 125]).events = [] ∧
      (lax_json_feed (lax_json_create garbage realloc_ok)
        [47, 42, 42, 42, 47, 123, 125]).context.state = some LaxJsonState.CommentMultiLine ∧
      (lax_json_feed (lax_json_create (fun _ => some LaxJsonState.Value) (fun _ => true))
        [47, 42, 42, 47, 123, 125]).events
        = [Event.begin LaxJsonType.Object, Event.end_ LaxJsonType.Object]) := by
  refine ⟨fun context c hs hc => ?_, fun context pre j hs hi hb => ?_,
    fun context pre j hs hb => ?_, fun context body hs hb => ?_, ?_⟩
  · obtain ⟨q, st, _, _⟩ := comment_star_other_step context c hs hc
    exact ⟨q, st⟩
  · exact comment_block_odd_run pre j context hs hi hb
  · have h := comment_block_even_run pre (j + 1) context hs hb
    rw [show 2 * (j + 1) = 2 * j + 2 by ring] at h
    exact h
  · obtain ⟨h1, h2, h3, h4, _⟩ := comment_block_open body context (Or.inl hs) hb
    exact ⟨h1, h2, h3, h4⟩
  · refine ⟨rfl, ?_, ?_, ?_, ?_, ?_, ?_, ?_, ?_, ?_, by decide⟩ <;>
    simp [lax_json_feed, feed_byte, feed_byte_loop, dispatch, advance, lax_json_create,
      push_state, store_state, case_Value, case_CommentBegin, case_CommentMultiLine,
      case_CommentMultiLineStar, WHITESPACE, Step.fired, Step.break_, PUSH_STATE, POP_STATE,
      pop_state]

end LaxJson
